import Mathlib

/-!
sistema-biblioteca-digital: the client-side session accessor and API client

A shallow embedding of `static/js/config.js` (the `API` helper, `isAuthenticated`,
`getCurrentUser`, `logout`), of `static/js/auth.js` (load-time guard, login handler), of
the registration handler of `static/js/register.js`, of the load-time code of
`static/js/dashboard.js` and of `static/js/admin.js` (load-time code, `handleAddBook`,
`loadStatistics`), with the platform services they call (`localStorage`, `fetch`,
`JSON.parse`, `JSON.stringify`) modelled as executable functions.

Conventions of the embedding:

* a JavaScript string is its sequence of UTF-16 code units (`JSString`);
* a JavaScript value that came out of `JSON.parse` is a `Json`; `undefined` is
  `none : Option Json`;
* an `async` function is modelled by the value its promise settles with:
  `Except JSError α` (`.error e` is a rejection / a thrown `e`), together with the
  `World` it leaves behind;
* the network is a parameter: a function from the dispatched request to the way
  `fetch` settles for it; a call whose `fetch` never settles has no outcome and is not
  modelled;
* `localStorage` is available and its operations do not throw;
* the elements the handlers look up in the document exist; a page is a record of the
  properties of those elements that the handlers read or write.

What the model of the platform covers:

* `JSON.parse` is a recursive-descent parser of the JSON grammar (whitespace, the three
  literals, numbers with fraction and exponent, strings with all escapes, arrays, objects).
  It recurses on fuel; `parseValue_fuel_enough` and `parse_error_iff` show that the fuel
  it is given is always enough, so a `SyntaxError` of the model is a text outside the
  grammar;
* a number is kept as the exact decimal its literal denotes and is rounded to binary64
  where the program looks at it: `truthy` (a literal that rounds to zero is falsy),
  `numberToString` (`Infinity`, `0`, or the shortest decimal that rounds to the same
  binary64 number, in the layout of `Number::toString`) and `JSON.stringify` (an infinite
  number is written as `null`). Two numbers that round to the same binary64 number are
  different values of the model; an integer written without fraction and exponent is
  shown with all its digits, which is the engine's text up to `2 ^ 53`;
* `JSON.stringify` writes a finite number as `numberToString` shows it when that text
  denotes the decimal as it stands (`4.5`, `-19.99`, `42`), and otherwise as another
  literal that the engine reads back as the same number; it writes the members of an
  object in the order of the member list. For a value whose numbers are of the first kind
  (integers up to `2 ^ 53`) and whose objects have neither duplicate nor integer-like keys
  this is the text the engine writes; in general it is a text of the same value;
* the message of an error raised by the engine (`TypeError`, `SyntaxError`) is
  engine-specific text and is kept empty; statements about a text made from such a
  message are stated through the `message` of the error.
-/

namespace Biblioteca

set_option exponentiation.threshold 2200
set_option maxRecDepth 8000

/-! ## Strings -/

/-- A JavaScript string: a sequence of UTF-16 code units. -/
abbrev JSString := List Nat

/-- UTF-16 encoding of one Unicode scalar value. -/
def utf16 (c : Nat) : List Nat :=
  if c < 0x10000 then [c]
  else [0xD800 + (c - 0x10000) / 0x400, 0xDC00 + (c - 0x10000) % 0x400]

/-- The JavaScript string written as the literal `s`. -/
def js (s : String) : JSString := s.toList.flatMap fun c => utf16 c.toNat

/-! ## JSON values -/

/-- A value produced by `JSON.parse`.

* `num m e` is the number `m * 10 ^ e`, kept as the exact decimal its literal denotes;
  the operations that look at a number round it to binary64 (`truthy`,
  `numberToString`, `stringifyValue`);
* `obj ms` keeps the members in source order; a property read takes the last member
  with the key, as the engine does for duplicate keys. -/
inductive Json where
  | null
  | bool (b : Bool)
  | num (mantissa : Int) (exponent : Int)
  | str (s : JSString)
  | arr (elements : List Json)
  | obj (members : List (JSString × Json))

/-- The class of an error object, as `error.name` / `instanceof` report it. -/
inductive ErrorKind where
  | Error
  | TypeError
  | SyntaxError
  deriving DecidableEq, Repr

/-- An error object. The message of an engine-raised `TypeError` or `SyntaxError` is
engine-specific text; the embedding keeps it empty. -/
structure JSError where
  kind : ErrorKind
  message : JSString
  deriving DecidableEq, Repr

/-! ## `JSON.parse` -/

/-- JSON whitespace: space, tab, line feed, carriage return. -/
def isWs (c : Nat) : Bool := c = 0x20 || c = 0x09 || c = 0x0A || c = 0x0D

/-- A decimal digit `0`..`9`. -/
def isDigit (c : Nat) : Bool := decide (48 ≤ c) && decide (c ≤ 57)

/-- Value of a hexadecimal digit. -/
def hexVal (c : Nat) : Option Nat :=
  if 48 ≤ c ∧ c ≤ 57 then some (c - 48)
  else if 65 ≤ c ∧ c ≤ 70 then some (c - 55)
  else if 97 ≤ c ∧ c ≤ 102 then some (c - 87)
  else none

/-- Value of the four hexadecimal digits of a `\u` escape. -/
def hex4 (a b c d : Nat) : Option Nat :=
  match hexVal a, hexVal b, hexVal c, hexVal d with
  | some x, some y, some z, some w => some (((x * 16 + y) * 16 + z) * 16 + w)
  | _, _, _, _ => none

/-- The code unit denoted by a single-character escape `\c`. -/
def escapeChar (c : Nat) : Option Nat :=
  if c = 0x22 then some 0x22        -- \"
  else if c = 0x5C then some 0x5C   -- \\
  else if c = 0x2F then some 0x2F   -- \/
  else if c = 0x62 then some 0x08   -- \b
  else if c = 0x66 then some 0x0C   -- \f
  else if c = 0x6E then some 0x0A   -- \n
  else if c = 0x72 then some 0x0D   -- \r
  else if c = 0x74 then some 0x09   -- \t
  else none

/-- The characters of a string literal after its opening quote, up to and including the
closing quote: the string denoted and the rest of the input. -/
def parseChars : JSString → Option (JSString × JSString)
  | [] => none
  | c :: r =>
    if c = 0x22 then some ([], r)
    else if c = 0x5C then
      match r with
      | [] => none
      | e :: r1 =>
        if e = 0x75 then
          match r1 with
          | a :: b :: c1 :: d :: r2 =>
            match hex4 a b c1 d with
            | some u => (parseChars r2).map fun p => (u :: p.1, p.2)
            | none => none
          | _ => none
        else
          match escapeChar e with
          | some u => (parseChars r1).map fun p => (u :: p.1, p.2)
          | none => none
    else if c < 0x20 then none
    else (parseChars r).map fun p => (c :: p.1, p.2)

/-- Value of a run of decimal digits. -/
def digitsValue (ds : List Nat) : Nat := ds.foldl (fun a d => 10 * a + (d - 48)) 0

/-- The exponent part of a number literal, if there is one: its value and the rest. -/
def parseExponent (s : JSString) : Option (Int × JSString) :=
  match s with
  | c :: r =>
    if c = 0x65 ∨ c = 0x45 then
      let neg : Bool := r.head? = some 0x2D
      let r1 := if r.head? = some 0x2D ∨ r.head? = some 0x2B then r.tail else r
      let ds := r1.takeWhile isDigit
      if ds = [] then none
      else some (if neg then - (digitsValue ds : Int) else (digitsValue ds : Int),
                 r1.dropWhile isDigit)
    else some (0, s)
  | [] => some (0, s)

/-- The fraction part of a number literal, if there is one: its digits and the rest. -/
def parseFraction (s : JSString) : Option (List Nat × JSString) :=
  match s with
  | c :: r =>
    if c = 0x2E then
      let ds := r.takeWhile isDigit
      if ds = [] then none else some (ds, r.dropWhile isDigit)
    else some ([], s)
  | [] => some ([], s)

/-- A number literal `-? (0 | [1-9][0-9]*) (. [0-9]+)? ([eE] [+-]? [0-9]+)?`. -/
def parseNumber (s : JSString) : Option (Json × JSString) :=
  let neg : Bool := s.head? = some 0x2D
  let s1 := if neg then s.tail else s
  let ip := s1.takeWhile isDigit
  if ip = [] then none
  else if ip.head? = some 48 ∧ 1 < ip.length then none
  else
    match parseFraction (s1.dropWhile isDigit) with
    | none => none
    | some (fp, s2) =>
      match parseExponent s2 with
      | none => none
      | some (ex, s3) =>
        let m : Int := digitsValue (ip ++ fp)
        some (Json.num (if neg then -m else m) (ex - fp.length), s3)

/-- The rest of the input after the keyword `kw`, if the input starts with it. -/
def expect (kw : JSString) (s : JSString) : Option JSString :=
  if kw.isPrefixOf s then some (s.drop kw.length) else none

mutual

/-- A JSON value, leading whitespace allowed; `fuel` bounds the nesting. -/
def parseValue : Nat → JSString → Option (Json × JSString)
  | 0, _ => none
  | fuel + 1, s =>
    match s.dropWhile isWs with
    | [] => none
    | c :: r =>
      if c = 0x22 then (parseChars r).map fun p => (Json.str p.1, p.2)
      else if c = 0x5B then
        if (r.dropWhile isWs).head? = some 0x5D then some (Json.arr [], (r.dropWhile isWs).tail)
        else (parseElements fuel r).map fun p => (Json.arr p.1, p.2)
      else if c = 0x7B then
        if (r.dropWhile isWs).head? = some 0x7D then some (Json.obj [], (r.dropWhile isWs).tail)
        else (parseMembers fuel r).map fun p => (Json.obj p.1, p.2)
      else if c = 0x74 then (expect [0x72, 0x75, 0x65] r).map fun r1 => (Json.bool true, r1)
      else if c = 0x66 then
        (expect [0x61, 0x6C, 0x73, 0x65] r).map fun r1 => (Json.bool false, r1)
      else if c = 0x6E then (expect [0x75, 0x6C, 0x6C] r).map fun r1 => (Json.null, r1)
      else parseNumber (c :: r)

/-- The elements of a non-empty array after `[`, up to and including `]`. -/
def parseElements : Nat → JSString → Option (List Json × JSString)
  | 0, _ => none
  | fuel + 1, s =>
    match parseValue fuel s with
    | none => none
    | some (v, r) =>
      match r.dropWhile isWs with
      | [] => none
      | c :: r1 =>
        if c = 0x2C then (parseElements fuel r1).map fun p => (v :: p.1, p.2)
        else if c = 0x5D then some ([v], r1)
        else none

/-- The members of a non-empty object after `{`, up to and including `}`. -/
def parseMembers : Nat → JSString → Option (List (JSString × Json) × JSString)
  | 0, _ => none
  | fuel + 1, s =>
    match s.dropWhile isWs with
    | [] => none
    | q :: r =>
      if q = 0x22 then
        match parseChars r with
        | none => none
        | some (k, r1) =>
          match r1.dropWhile isWs with
          | [] => none
          | c1 :: r2 =>
            if c1 = 0x3A then
              match parseValue fuel r2 with
              | none => none
              | some (v, r3) =>
                match r3.dropWhile isWs with
                | [] => none
                | c2 :: r4 =>
                  if c2 = 0x2C then (parseMembers fuel r4).map fun p => ((k, v) :: p.1, p.2)
                  else if c2 = 0x7D then some ([(k, v)], r4)
                  else none
            else none
      else none

end

/-- Engine-raised `SyntaxError`. -/
def syntaxError : JSError := ⟨ErrorKind.SyntaxError, []⟩

/-- Engine-raised `TypeError`. -/
def typeError : JSError := ⟨ErrorKind.TypeError, []⟩

/-- `JSON.parse(text)`: the value, or a thrown `SyntaxError`. -/
def JSON.parse (text : JSString) : Except JSError Json :=
  match parseValue (text.length + 1) text with
  | some (v, r) => if r.dropWhile isWs = [] then .ok v else .error syntaxError
  | none => .error syntaxError

/-! ## `JSON.stringify` -/

/-- Decimal digits of a natural number, most significant first. -/
def natDigits (n : Nat) : JSString :=
  if n = 0 then [48] else ((Nat.digits 10 n).reverse).map fun d => d + 48

/-- Decimal digits of an integer, with a leading `-` when negative. -/
def intDigits (i : Int) : JSString :=
  if i < 0 then 0x2D :: natDigits i.natAbs else natDigits i.natAbs

/-- A JSON literal of the number `m * 10 ^ e`: the digits of `m`, then `e` and the digits
of the exponent when it is not zero. For an integer (`e = 0`) up to `2 ^ 53` this is the
literal the engine writes; for the other numbers it is another literal of the same
number, which the engine reads back as the same binary64 number. -/
def numberText (m e : Int) : JSString :=
  intDigits m ++ if e = 0 then [] else 0x65 :: intDigits e

/-! ### Numbers in binary64

The engine holds a number as the binary64 number nearest to the decimal its literal
denotes. The embedding keeps the decimal and rounds where the program looks at the number:
for its truth value, for its conversion to a string and for its JSON text. -/

/-- The magnitude of `m * 10 ^ e` as a fraction: numerator and denominator. -/
def magnitude (m e : Int) : Nat × Nat :=
  if 0 ≤ e then (m.natAbs * 10 ^ e.toNat, 1) else (m.natAbs, 10 ^ (-e).toNat)

/-- The number `m * 10 ^ e` rounds to `Infinity` or `-Infinity`: its magnitude is at least
`2 ^ 1024 - 2 ^ 970`, half way between the largest binary64 number and `2 ^ 1024`. -/
def overflows (m e : Int) : Bool :=
  decide ((2 ^ 1024 - 2 ^ 970) * (magnitude m e).2 ≤ (magnitude m e).1)

/-- The number `m * 10 ^ e` rounds to `0` or `-0`: its magnitude is at most `2 ^ (-1075)`,
half of the smallest positive binary64 number. -/
def roundsToZero (m e : Int) : Bool :=
  decide ((magnitude m e).1 * 2 ^ 1075 ≤ (magnitude m e).2)

/-- The integer nearest to `a / b`, a tie going to the even one. -/
def roundHalfEven (a b : Nat) : Nat :=
  if 2 * (a % b) < b then a / b
  else if b < 2 * (a % b) then a / b + 1
  else a / b + a / b % 2

/-- Number of binary digits of `n`, by halving at most `fuel` times. -/
def bitLength : Nat → Nat → Nat
  | 0, _ => 0
  | fuel + 1, n => if n = 0 then 0 else 1 + bitLength fuel (n / 2)

/-- Number of decimal digits of `n`, by dividing at most `fuel` times. -/
def decimalLength : Nat → Nat → Nat
  | 0, _ => 0
  | fuel + 1, n => if n < 10 then 1 else 1 + decimalLength fuel (n / 10)

/-- The binary64 number nearest to the positive fraction `a / b`, a tie going to the even
mantissa: `(M, k)` stands for `M * 2 ^ k`, with `M < 2 ^ 53` and `-1074 ≤ k`, and
`2 ^ 52 ≤ M` unless `k = -1074`. The fraction overflows when `971 < k`. -/
def toBinary64 (a b : Nat) : Nat × Int :=
  let l : Int := (bitLength a a : Int) - (bitLength b b : Int)
  let f : Int := if b * 2 ^ l.toNat ≤ a * 2 ^ (-l).toNat then l else l - 1
  let k : Int := max (f - 52) (-1074)
  let M := roundHalfEven (a * 2 ^ (-k).toNat) (b * 2 ^ k.toNat)
  if M = 2 ^ 53 then (2 ^ 52, k + 1) else (M, k)

/-- The decimal exponent `p` of the positive fraction `a / b`:
`10 ^ p ≤ a / b < 10 ^ (p + 1)`. -/
def decimalExponent (a b : Nat) : Int :=
  let d : Int := (decimalLength a a : Int) - (decimalLength b b : Int)
  if b * 10 ^ d.toNat ≤ a * 10 ^ (-d).toNat then d else d - 1

/-- The decimal `s * 10 ^ q` of `n` digits that is nearest to the binary64 number
`M * 2 ^ k` among those that round to it (of two equally near, the even `s`), if there is
one: `(s, q)`. -/
def roundTrip (M : Nat) (k : Int) (n : Nat) : Option (Nat × Int) :=
  let a := M * 2 ^ k.toNat
  let b := 2 ^ (-k).toNat
  let q : Int := decimalExponent a b - n + 1
  let lo := a * 10 ^ (-q).toNat / (b * 10 ^ q.toNat)
  let okLo : Bool := decide (toBinary64 (lo * 10 ^ q.toNat) (10 ^ (-q).toNat) = (M, k))
  let okHi : Bool := decide (toBinary64 ((lo + 1) * 10 ^ q.toNat) (10 ^ (-q).toNat) = (M, k))
  let twice := 2 * (a * 10 ^ (-q).toNat)
  let mid := (2 * lo + 1) * (b * 10 ^ q.toNat)
  if okLo && (!okHi || decide (twice < mid) || (decide (twice = mid) && decide (lo % 2 = 0))) then
    some (lo, q)
  else if okHi then some (lo + 1, q)
  else none

/-- The shortest decimal that rounds to `M * 2 ^ k`: the first found with `n`, `n + 1`, ...
digits, `fuel` lengths in all. Seventeen digits are always enough; past the fuel the
result is the exact decimal expansion. -/
def shortestDecimal (M : Nat) (k : Int) : Nat → Nat → Nat × Int
  | 0, _ => (M * 2 ^ k.toNat * 10 ^ 1074 / 2 ^ (-k).toNat, -1074)
  | fuel + 1, n =>
    match roundTrip M k n with
    | some r => r
    | none => shortestDecimal M k fuel (n + 1)

/-- Drop the trailing zeros of `s`, at most `fuel` of them, raising the exponent `q`. -/
def stripZeros : Nat → Nat → Int → Nat × Int
  | 0, s, q => (s, q)
  | fuel + 1, s, q => if s ≠ 0 ∧ s % 10 = 0 then stripZeros fuel (s / 10) (q + 1) else (s, q)

/-- The decimal digits of `n`, most significant first, in front of `acc`; `fuel` bounds
their number. -/
def digitsOnto : Nat → Nat → JSString → JSString
  | 0, _, acc => acc
  | fuel + 1, n, acc =>
    if n < 10 then (48 + n) :: acc else digitsOnto fuel (n / 10) ((48 + n % 10) :: acc)

/-- The layout of `Number::toString` for a positive number with the digits `ds` (no
trailing zero) and the value `0.ds * 10 ^ n`: plain digits up to `10 ^ 21`, a fraction
down to `10 ^ (-6)`, exponent notation beyond. -/
def formatDecimal (ds : JSString) (n : Int) : JSString :=
  let k : Int := ds.length
  if k ≤ n ∧ n ≤ 21 then ds ++ List.replicate (n - k).toNat 48
  else if 0 < n ∧ n ≤ 21 then ds.take n.toNat ++ 0x2E :: ds.drop n.toNat
  else if -6 < n ∧ n ≤ 0 then 48 :: 0x2E :: (List.replicate (-n).toNat 48 ++ ds)
  else
    let ex : JSString :=
      0x65 :: (if 0 < n - 1 then 0x2B else 0x2D) :: digitsOnto 20 (n - 1).natAbs []
    if k = 1 then ds ++ ex else ds.take 1 ++ 0x2E :: (ds.drop 1 ++ ex)

/-- `Number::toString` of the number `m * 10 ^ e`.

An integer written without fraction and exponent, and a length or count, is written with
all its digits: this is the engine's text up to `2 ^ 53`, which covers every length.
Every other number is rounded to binary64 and written as the engine writes it:
`Infinity`, `0`, or the shortest decimal that rounds to the same number. -/
def numberToString (m e : Int) : JSString :=
  if e = 0 then intDigits m
  else if overflows m e then
    if m < 0 then [0x2D, 0x49, 0x6E, 0x66, 0x69, 0x6E, 0x69, 0x74, 0x79]
    else [0x49, 0x6E, 0x66, 0x69, 0x6E, 0x69, 0x74, 0x79]
  else if roundsToZero m e then [48]
  else
    let x := toBinary64 (magnitude m e).1 (magnitude m e).2
    let r := shortestDecimal x.1 x.2 17 1
    let sq := stripZeros 1100 r.1 r.2
    let ds := digitsOnto 1100 sq.1 []
    let text := formatDecimal ds (ds.length + sq.2)
    if m < 0 then 0x2D :: text else text

/-- The JSON literal written for a finite number: the text `numberToString m e`, which is
what the engine writes, when that text is a JSON number denoting the decimal `m * 10 ^ e`
as it stands (as in `4.5`, `0.05`, `-19.99`, `42`); otherwise `numberText m e`, another
literal of the same number, which the engine reads back as the same binary64 number. -/
def numberLiteral (m e : Int) : JSString :=
  match parseNumber (numberToString m e) with
  | some (.num m1 e1, []) => if m1 = m ∧ e1 = e then numberToString m e else numberText m e
  | _ => numberText m e

/-- A high (leading) surrogate code unit. -/
def isHigh (c : Nat) : Bool := decide (0xD800 ≤ c) && decide (c ≤ 0xDBFF)

/-- A low (trailing) surrogate code unit. -/
def isLow (c : Nat) : Bool := decide (0xDC00 ≤ c) && decide (c ≤ 0xDFFF)

/-- A lowercase hexadecimal digit. -/
def hexDigit (n : Nat) : Nat := if n < 10 then 48 + n else 87 + n

/-- The escape `\uXXXX` of a code unit. -/
def unicodeEscape (c : Nat) : JSString :=
  [0x5C, 0x75, hexDigit (c / 4096 % 16), hexDigit (c / 256 % 16), hexDigit (c / 16 % 16),
    hexDigit (c % 16)]

/-- `QuoteJSONString` on one code unit that is not half of a surrogate pair. -/
def quoteUnit (c : Nat) : JSString :=
  if c = 0x08 then [0x5C, 0x62]
  else if c = 0x09 then [0x5C, 0x74]
  else if c = 0x0A then [0x5C, 0x6E]
  else if c = 0x0C then [0x5C, 0x66]
  else if c = 0x0D then [0x5C, 0x72]
  else if c = 0x22 then [0x5C, 0x22]
  else if c = 0x5C then [0x5C, 0x5C]
  else if c < 0x20 ∨ isHigh c ∨ isLow c then unicodeEscape c
  else [c]

/-- `QuoteJSONString` without the enclosing quotes: a surrogate pair is copied, a lone
surrogate and a control character are escaped. -/
def quoteChars : JSString → JSString
  | [] => []
  | [c] => quoteUnit c
  | c :: d :: r =>
    if isHigh c ∧ isLow d then c :: d :: quoteChars r
    else quoteUnit c ++ quoteChars (d :: r)

/-- `QuoteJSONString`. -/
def quote (s : JSString) : JSString := 0x22 :: (quoteChars s ++ [0x22])

mutual

/-- `JSON.stringify` on a parsed value (no indentation). A number that rounds to an
infinity is written as `null`; any other number is written as `numberLiteral` says. -/
def stringifyValue : Json → JSString
  | .null => [0x6E, 0x75, 0x6C, 0x6C]
  | .bool true => [0x74, 0x72, 0x75, 0x65]
  | .bool false => [0x66, 0x61, 0x6C, 0x73, 0x65]
  | .num m e => if overflows m e then [0x6E, 0x75, 0x6C, 0x6C] else numberLiteral m e
  | .str s => quote s
  | .arr [] => [0x5B, 0x5D]
  | .arr (v :: vs) => 0x5B :: (stringifyValue v ++ stringifyElements vs)
  | .obj [] => [0x7B, 0x7D]
  | .obj ((k, v) :: ms) => 0x7B :: (quote k ++ 0x3A :: (stringifyValue v ++ stringifyMembers ms))

/-- The elements after the first, each preceded by a comma, and the closing bracket. -/
def stringifyElements : List Json → JSString
  | [] => [0x5D]
  | v :: vs => 0x2C :: (stringifyValue v ++ stringifyElements vs)

/-- The members after the first, each preceded by a comma, and the closing brace. -/
def stringifyMembers : List (JSString × Json) → JSString
  | [] => [0x7D]
  | (k, v) :: ms => 0x2C :: (quote k ++ 0x3A :: (stringifyValue v ++ stringifyMembers ms))

end

/-- `JSON.stringify(value)`: `undefined` for `undefined`, the JSON text otherwise. -/
def JSON.stringify (value : Option Json) : Option JSString := value.map stringifyValue

mutual

/-- No number in the value rounds to `Infinity` or `-Infinity`. These are the values that
`JSON.stringify` writes as they are; it writes an infinite number as `null`. -/
def finiteValue : Json → Bool
  | .num m e => !overflows m e
  | .arr vs => finiteElements vs
  | .obj ms => finiteMembers ms
  | _ => true

/-- No number in the elements rounds to an infinity. -/
def finiteElements : List Json → Bool
  | [] => true
  | v :: vs => finiteValue v && finiteElements vs

/-- No number in the members rounds to an infinity. -/
def finiteMembers : List (JSString × Json) → Bool
  | [] => true
  | (_, v) :: ms => finiteValue v && finiteMembers ms

end

/-! ## Property reads, truthiness and string conversion -/

/-- The value of property `key` of an object with these members (`undefined` when there is
none): the last member with the key. -/
def lookupMember (key : JSString) : List (JSString × Json) → Option Json
  | [] => none
  | (k, v) :: ms =>
    match lookupMember key ms with
    | some w => some w
    | none => if k = key then some v else none

/-- The property read `value.key`, for the keys the program reads (`message`, `success`,
`token`, `user`, `role`, `fullName`, `books`, `loans`, `returned`, `overdue`), none of
which a built-in prototype defines: a `TypeError` on `null` and `undefined`, the member on
an object, `undefined` otherwise. The key `length` has its own read, `getLength`. -/
def getProp (value : Option Json) (key : JSString) : Except JSError (Option Json) :=
  match value with
  | none => .error typeError
  | some .null => .error typeError
  | some (.obj ms) => .ok (lookupMember key ms)
  | some _ => .ok none

/-- `ToBoolean`: `undefined`, `null`, `false`, the empty string and a number that is `0`
or `-0` in binary64 are falsy. -/
def truthy : Option Json → Bool
  | none => false
  | some .null => false
  | some (.bool b) => b
  | some (.num m e) => !roundsToZero m e
  | some (.str s) => decide (s ≠ [])
  | some (.arr _) => true
  | some (.obj _) => true

/-- The operator `a || b`. -/
def orElse (a b : Option Json) : Option Json := if truthy a then a else b

mutual

/-- `ToString` on a parsed value. An array is joined with commas; an object is
`[object Object]`, unless it has an own `toString` member, which hides
`Object.prototype.toString` and is not callable, so the conversion throws. -/
def toStringJson : Json → Except JSError JSString
  | .null => .ok [0x6E, 0x75, 0x6C, 0x6C]
  | .bool true => .ok [0x74, 0x72, 0x75, 0x65]
  | .bool false => .ok [0x66, 0x61, 0x6C, 0x73, 0x65]
  | .num m e => .ok (numberToString m e)
  | .str s => .ok s
  | .arr vs => joinElements vs
  | .obj ms =>
    if ms.any (fun p => p.1 = [0x74, 0x6F, 0x53, 0x74, 0x72, 0x69, 0x6E, 0x67]) then
      .error typeError
    else .ok [0x5B, 0x6F, 0x62, 0x6A, 0x65, 0x63, 0x74, 0x20, 0x4F, 0x62, 0x6A, 0x65, 0x63, 0x74, 0x5D]

/-- `Array.prototype.join` with the separator `,`: `null` elements give the empty string. -/
def joinElements : List Json → Except JSError JSString
  | [] => .ok []
  | [.null] => .ok []
  | [v] => toStringJson v
  | .null :: vs =>
    match joinElements vs with
    | .ok r => .ok (0x2C :: r)
    | .error e => .error e
  | v :: vs =>
    match toStringJson v with
    | .error e => .error e
    | .ok s =>
      match joinElements vs with
      | .ok r => .ok (s ++ 0x2C :: r)
      | .error e => .error e

end

/-- The comparison `value === text` with a string. -/
def strictEqualsString (value : Option Json) (text : JSString) : Bool :=
  match value with
  | some (.str s) => decide (s = text)
  | _ => false

/-- `ToString` on a value that may be `undefined`. -/
def toStringValue : Option Json → Except JSError JSString
  | none => .ok [0x75, 0x6E, 0x64, 0x65, 0x66, 0x69, 0x6E, 0x65, 0x64]
  | some v => toStringJson v

/-! ## The platform: `localStorage`, `fetch`, the page -/

/-- The origin-scoped key-value store `localStorage`: string keys, string values. A lookup
takes the first entry with the key. -/
abbrev Store := List (JSString × JSString)

/-- `localStorage.getItem(key)`: the stored string, `none` for `null`. -/
def Store.getItem (st : Store) (key : JSString) : Option JSString :=
  match st with
  | [] => none
  | (k, v) :: rest => if k = key then some v else Store.getItem rest key

/-- `localStorage.removeItem(key)`. -/
def Store.removeItem (st : Store) (key : JSString) : Store :=
  st.filter fun p => decide (p.1 ≠ key)

/-- `localStorage.setItem(key, value)`. -/
def Store.setItem (st : Store) (key value : JSString) : Store :=
  (key, value) :: Store.removeItem st key

/-- A JavaScript object whose property values are strings (a headers record), in property
order. -/
abbrev Record := List (JSString × JSString)

/-- The value of property `key` of a record. -/
def Record.get (r : Record) (key : JSString) : Option JSString :=
  match r with
  | [] => none
  | (k, v) :: rest => if k = key then some v else Record.get rest key

/-- Defining property `key` on a record: an existing property keeps its place and takes
the new value, a new property is added at the end. -/
def Record.set (r : Record) (key value : JSString) : Record :=
  match r with
  | [] => [(key, value)]
  | (k, v) :: rest => if k = key then (k, value) :: rest else (k, v) :: Record.set rest key value

/-- The spread `{ ...base, ...over }` of one record over another. -/
def Record.spread (base over : Record) : Record :=
  over.foldl (fun acc p => Record.set acc p.1 p.2) base

/-- The `options` argument of `API.request`, and the `init` argument of `fetch`: the
properties the program uses. -/
structure Options where
  method : Option JSString := none
  body : Option JSString := none
  headers : Option Record := none
  deriving DecidableEq, Repr

/-- A call `fetch(url, init)`. -/
structure Request where
  url : JSString
  init : Options
  deriving DecidableEq, Repr

/-- A response: its status and the text of its body. -/
structure Response where
  status : Nat
  body : JSString
  deriving DecidableEq, Repr

/-- The getter `response.ok`: the status is in the range 200..299. -/
def Response.ok (r : Response) : Bool := decide (200 ≤ r.status) && decide (r.status ≤ 299)

/-- The method `response.json()`: the body parsed as JSON. -/
def Response.json (r : Response) : Except JSError Json := JSON.parse r.body

/-- The network: how the promise of `fetch` settles for a request, with a response or with
a rejection. -/
abbrev Net := Request → Except JSError Response

/-- An observable effect of the program. -/
inductive Event where
  | fetch (req : Request)
  | consoleError (label : JSString) (e : JSError)
  | setItem (key value : JSString)
  | removeItem (key : JSString)
  | navigate (url : JSString)
  deriving DecidableEq, Repr

/-- The state the program acts on: the persisted store, the page location last assigned
to `window.location.href`, and the effects so far, oldest first. -/
structure World where
  store : Store
  href : JSString
  log : List Event
  deriving DecidableEq, Repr

/-- Record an effect. -/
def World.emit (w : World) (ev : Event) : World := { w with log := w.log ++ [ev] }

/-- `localStorage.setItem(key, value)` on the world. -/
def World.setItem (w : World) (key value : JSString) : World :=
  { (w.emit (.setItem key value)) with store := w.store.setItem key value }

/-- `localStorage.removeItem(key)` on the world. -/
def World.removeItem (w : World) (key : JSString) : World :=
  { (w.emit (.removeItem key)) with store := w.store.removeItem key }

/-- The assignment `window.location.href = url`. -/
def World.navigate (w : World) (url : JSString) : World :=
  { (w.emit (.navigate url)) with href := url }

/-! ## `config.js` -/

/-- `const API_BASE_URL = 'http://localhost:8080/api'`. -/
def API_BASE_URL : JSString := js "http://localhost:8080/api"

/-- The `config` object of `API.request` (lines 15-24) and the URL it is sent to. -/
def API.config (w : World) (endpoint : JSString) (options : Options) : Request :=
  let token := w.store.getItem (js "token")
  { url := API_BASE_URL ++ endpoint
    init :=
      { options with
        headers := some (Record.spread
          [(js "Content-Type", js "application/json"),
           (js "Authorization",
             match token with
             | some t => if t ≠ [] then js "Bearer " ++ t else []
             | none => [])]
          (options.headers.getD [])) } }

/-- The body of the `try` block of `API.request` once `fetch` has settled with `response`
(lines 28-34): the payload returned, or the error thrown. -/
def API.handleResponse (response : Response) : Except JSError Json :=
  match response.json with
  | .error e => .error e
  | .ok data =>
    if !response.ok then
      match getProp (some data) (js "message") with
      | .error e => .error e
      | .ok m =>
        match toStringValue (orElse m (some (.str (js "Request failed")))) with
        | .error e => .error e
        | .ok msg => .error ⟨ErrorKind.Error, msg⟩
    else .ok data

/-- The `try` block of `API.request` (lines 27-34). -/
def API.attempt (net : Net) (config : Request) : Except JSError Json :=
  match net config with
  | .error e => .error e
  | .ok response => API.handleResponse response

/-- `API.request(endpoint, options)`: what the returned promise settles with, and the
world afterwards. -/
def API.request (net : Net) (w : World) (endpoint : JSString) (options : Options := {}) :
    Except JSError Json × World :=
  let config := API.config w endpoint options
  let w1 := w.emit (.fetch config)
  match API.attempt net config with
  | .ok data => (.ok data, w1)
  | .error error => (.error error, w1.emit (.consoleError (js "API Request Error:") error))

/-- `API.get(endpoint)`. -/
def API.get (net : Net) (w : World) (endpoint : JSString) : Except JSError Json × World :=
  API.request net w endpoint { method := some (js "GET") }

/-- `API.post(endpoint, body)`. -/
def API.post (net : Net) (w : World) (endpoint : JSString) (body : Option Json) :
    Except JSError Json × World :=
  API.request net w endpoint { method := some (js "POST"), body := JSON.stringify body }

/-- `API.put(endpoint, body)`. -/
def API.put (net : Net) (w : World) (endpoint : JSString) (body : Option Json) :
    Except JSError Json × World :=
  API.request net w endpoint { method := some (js "PUT"), body := JSON.stringify body }

/-- `API.delete(endpoint)`. -/
def API.delete (net : Net) (w : World) (endpoint : JSString) : Except JSError Json × World :=
  API.request net w endpoint { method := some (js "DELETE") }

/-- `isAuthenticated()`: `!!localStorage.getItem('token')`. -/
def isAuthenticated (w : World) : Bool :=
  match w.store.getItem (js "token") with
  | some t => decide (t ≠ [])
  | none => false

/-- `getCurrentUser()`: `userStr ? JSON.parse(userStr) : null`. -/
def getCurrentUser (w : World) : Except JSError Json :=
  match w.store.getItem (js "user") with
  | some userStr => if userStr ≠ [] then JSON.parse userStr else .ok .null
  | none => .ok .null

/-- `logout()`: the world once the returned promise has settled. -/
def logout (net : Net) (w : World) : World :=
  let r := API.post net w (js "/auth/logout") (some (.obj []))
  let w1 :=
    match r.1 with
    | .ok _ => r.2
    | .error error => r.2.emit (.consoleError (js "Logout error:") error)
  ((w1.removeItem (js "token")).removeItem (js "user")).navigate (js "/index.html")

/-! ## `auth.js`: the login form -/

/-- The login page: the world, the two inputs of the form and the `errorMessage`
element. -/
structure LoginPage where
  world : World
  username : JSString
  password : JSString
  errorText : JSString
  errorDisplay : JSString
  deriving DecidableEq, Repr

/-- The request of the login handler (lines 29-35). -/
def loginRequest (username password : JSString) : Request :=
  { url := API_BASE_URL ++ js "/auth/login"
    init :=
      { method := some (js "POST")
        headers := some [(js "Content-Type", js "application/json")]
        body := JSON.stringify
          (some (.obj [(js "username", .str username), (js "password", .str password)])) } }

/-- The branch `if (data.success) { ... }` of the login handler (lines 40-49). -/
def loginStore (data : Json) (p : LoginPage) : Except JSError Unit × LoginPage :=
  match getProp (some data) (js "token") with
  | .error e => (.error e, p)
  | .ok token =>
    match toStringValue token with
    | .error e => (.error e, p)
    | .ok tokenStr =>
      let p1 := { p with world := p.world.setItem (js "token") tokenStr }
      match getProp (some data) (js "user") with
      | .error e => (.error e, p1)
      | .ok user =>
        let userStr := (JSON.stringify user).getD (js "undefined")
        let p2 := { p1 with world := p1.world.setItem (js "user") userStr }
        match getProp user (js "role") with
        | .error e => (.error e, p2)
        | .ok role =>
          if strictEqualsString role (js "ADMIN") then
            (.ok (), { p2 with world := p2.world.navigate (js "/admin.html") })
          else (.ok (), { p2 with world := p2.world.navigate (js "/dashboard.html") })

/-- The branch `else { ... }` of the login handler (lines 51-53). -/
def loginReject (data : Json) (p : LoginPage) : Except JSError Unit × LoginPage :=
  match getProp (some data) (js "message") with
  | .error e => (.error e, p)
  | .ok m =>
    match toStringValue (orElse m (some (.str (js "Login failed")))) with
    | .error e => (.error e, p)
    | .ok text =>
      (.ok (), { p with errorText := text, errorDisplay := js "block" })

/-- The `try` block of the login handler (lines 28-54). -/
def loginAttempt (net : Net) (p : LoginPage) : Except JSError Unit × LoginPage :=
  let req := loginRequest p.username p.password
  let p1 := { p with world := p.world.emit (.fetch req) }
  match net req with
  | .error e => (.error e, p1)
  | .ok response =>
    match response.json with
    | .error e => (.error e, p1)
    | .ok data =>
      match getProp (some data) (js "success") with
      | .error e => (.error e, p1)
      | .ok success => if truthy success then loginStore data p1 else loginReject data p1

/-- The submit handler of the login form (lines 17-60). -/
def loginSubmit (net : Net) (p : LoginPage) : LoginPage :=
  let p0 := { p with errorDisplay := js "none" }
  match loginAttempt net p0 with
  | (.ok _, p1) => p1
  | (.error error, p1) =>
    { p1 with
      world := p1.world.emit (.consoleError (js "Login error:") error)
      errorText := js "An error occurred. Please try again."
      errorDisplay := js "block" }

/-! ## `auth.js`, `admin.js`, `dashboard.js`: the code run when the page loads -/

/-- The top-level guard of `auth.js` (lines 7-14). -/
def loginLoad (w : World) : Except JSError Unit × World :=
  if isAuthenticated w then
    match getCurrentUser w with
    | .error e => (.error e, w)
    | .ok user =>
      match getProp (some user) (js "role") with
      | .error e => (.error e, w)
      | .ok role =>
        if strictEqualsString role (js "ADMIN") then (.ok (), w.navigate (js "/admin.html"))
        else (.ok (), w.navigate (js "/dashboard.html"))
  else (.ok (), w)

/-- The state of the statistics panel of the admin page. -/
inductive StatisticsView where
  | other
  | loading
  | cards (booksCount : JSString) (totalLoans activeLoans overdueLoans : Nat)
  | failed
  deriving DecidableEq, Repr

/-- The admin page: the world, the alerts shown, the `userInfo` text, the `formMessage`
element, the `bookType` select with the value a form reset gives it, the number of resets
of the add-book form, the three groups of type-specific fields, whether the catalog tab is
the active one, the `booksGrid` markup and the statistics panel. -/
structure AdminPage where
  world : World
  alerts : List JSString
  userInfo : JSString
  formClass : JSString
  formText : JSString
  formDisplay : JSString
  bookType : JSString
  initialBookType : JSString
  formResets : Nat
  digitalDisplay : JSString
  audioDisplay : JSString
  ebookDisplay : JSString
  catalogActive : Bool
  booksGrid : JSString
  statistics : StatisticsView
  deriving DecidableEq, Repr

/-- The top-level code of `admin.js` (lines 7-16): the error thrown, or the value of the
constant `user`. -/
def adminLoad (p : AdminPage) : Except JSError Json × AdminPage :=
  let p1 :=
    if !isAuthenticated p.world then { p with world := p.world.navigate (js "/index.html") }
    else p
  match getCurrentUser p1.world with
  | .error e => (.error e, p1)
  | .ok user =>
    match getProp (some user) (js "role") with
    | .error e => (.error e, p1)
    | .ok role =>
      if !strictEqualsString role (js "ADMIN") then
        (.ok user,
          { p1 with
            alerts := p1.alerts ++ [js "Access denied. Admin privileges required."]
            world := p1.world.navigate (js "/dashboard.html") })
      else (.ok user, p1)

/-- `initAdmin()` of `admin.js` (lines 28-30), for the value of the constant `user`. -/
def initAdmin (user : Json) (p : AdminPage) : Except JSError Unit × AdminPage :=
  match getProp (some user) (js "fullName") with
  | .error e => (.error e, p)
  | .ok fullName =>
    match toStringValue fullName with
    | .error e => (.error e, p)
    | .ok text => (.ok (), { p with userInfo := js "Admin: " ++ text })

/-- The dashboard page: the world and the `userInfo` text. -/
structure DashboardPage where
  world : World
  userInfo : JSString
  deriving DecidableEq, Repr

/-- The top-level code of `dashboard.js` (lines 7-11): the error thrown, or the value of
the constant `user`. -/
def dashboardLoad (p : DashboardPage) : Except JSError Json × DashboardPage :=
  let p1 :=
    if !isAuthenticated p.world then { p with world := p.world.navigate (js "/index.html") }
    else p
  match getCurrentUser p1.world with
  | .error e => (.error e, p1)
  | .ok user => (.ok user, p1)

/-- `initDashboard()` of `dashboard.js` (lines 23-25), for the value of the constant
`user`. -/
def initDashboard (user : Json) (p : DashboardPage) : Except JSError Unit × DashboardPage :=
  match getProp (some user) (js "fullName") with
  | .error e => (.error e, p)
  | .ok fullName =>
    match toStringValue fullName with
    | .error e => (.error e, p)
    | .ok text => (.ok (), { p with userInfo := js "Welcome, " ++ text ++ js "!" })

/-! ## `register.js`: the registration form -/

/-- The code units `String.prototype.trim` strips: white space and line terminators. -/
def isTrimSpace (c : Nat) : Bool :=
  c = 0x09 || c = 0x0A || c = 0x0B || c = 0x0C || c = 0x0D || c = 0x20 || c = 0xA0 ||
  c = 0x1680 || (decide (0x2000 ≤ c) && decide (c ≤ 0x200A)) || c = 0x2028 || c = 0x2029 ||
  c = 0x202F || c = 0x205F || c = 0x3000 || c = 0xFEFF

/-- `String.prototype.trim`. -/
def trim (s : JSString) : JSString := (s.dropWhile isTrimSpace).rdropWhile isTrimSpace

/-- A code unit of the class `[a-zA-Z0-9_]`. -/
def isWordChar (c : Nat) : Bool :=
  (decide (0x61 ≤ c) && decide (c ≤ 0x7A)) || (decide (0x41 ≤ c) && decide (c ≤ 0x5A)) ||
  (decide (0x30 ≤ c) && decide (c ≤ 0x39)) || c = 0x5F

/-- `usernameRegex.test(username)` for `usernameRegex = /^[a-zA-Z0-9_]{3,20}$/`. -/
def usernameRegexTest (username : JSString) : Bool :=
  decide (3 ≤ username.length) && decide (username.length ≤ 20) && username.all isWordChar

/-- The values of the inputs of the registration form. -/
structure RegisterForm where
  fullName : JSString
  username : JSString
  email : JSString
  password : JSString
  confirmPassword : JSString
  deriving DecidableEq, Repr

/-- The registration page: the world, the form with the values a reset gives it, the
`errorMessage` and `successMessage` elements, the submit button, and the timers set with
`setTimeout` (delay in milliseconds, location to assign). -/
structure RegisterPage where
  world : World
  form : RegisterForm
  initialForm : RegisterForm
  errorText : JSString
  errorDisplay : JSString
  successText : JSString
  successDisplay : JSString
  buttonHTML : JSString
  buttonDisabled : Bool
  timers : List (Nat × JSString)
  deriving DecidableEq, Repr

/-- The request of the registration handler (lines 64-75). -/
def registerRequest (fullName username email password : JSString) : Request :=
  { url := API_BASE_URL ++ js "/auth/register"
    init :=
      { method := some (js "POST")
        headers := some [(js "Content-Type", js "application/json")]
        body := JSON.stringify
          (some (.obj [(js "username", .str username), (js "password", .str password),
            (js "email", .str email), (js "fullName", .str fullName)])) } }

/-- The `try` block of the registration handler (lines 63-97); `originalText` is the
markup of the submit button before the handler changed it. -/
def registerAttempt (net : Net) (req : Request) (originalText : JSString) (p : RegisterPage) :
    Except JSError Unit × RegisterPage :=
  let p1 := { p with world := p.world.emit (.fetch req) }
  match net req with
  | .error e => (.error e, p1)
  | .ok response =>
    match response.json with
    | .error e => (.error e, p1)
    | .ok data =>
      match getProp (some data) (js "success") with
      | .error e => (.error e, p1)
      | .ok success =>
        if truthy success then
          (.ok (),
            { p1 with
              successText := js "Account created successfully! Redirecting to login..."
              successDisplay := js "block"
              form := p1.initialForm
              timers := p1.timers ++ [(2000, js "/index.html")] })
        else
          match getProp (some data) (js "message") with
          | .error e => (.error e, p1)
          | .ok m =>
            match toStringValue (orElse m (some (.str (js "Registration failed")))) with
            | .error e => (.error e, p1)
            | .ok text =>
              (.ok (),
                { p1 with
                  errorText := text
                  errorDisplay := js "block"
                  buttonHTML := originalText
                  buttonDisabled := false })

/-- The submit handler of the registration form (lines 18-105). -/
def registerSubmit (net : Net) (p : RegisterPage) : RegisterPage :=
  let fullName := trim p.form.fullName
  let username := trim p.form.username
  let email := trim p.form.email
  let password := p.form.password
  let confirmPassword := p.form.confirmPassword
  let p0 := { p with errorDisplay := js "none", successDisplay := js "none" }
  if password ≠ confirmPassword then
    { p0 with errorText := js "Passwords do not match", errorDisplay := js "block" }
  else if password.length < 6 then
    { p0 with
      errorText := js "Password must be at least 6 characters", errorDisplay := js "block" }
  else if !usernameRegexTest username then
    { p0 with
      errorText := js "Username must be 3-20 characters (letters, numbers, underscores only)"
      errorDisplay := js "block" }
  else
    let originalText := p0.buttonHTML
    let p1 :=
      { p0 with
        buttonHTML := js "<span>Creating Account...</span><span class=\"btn-icon\">⏳</span>"
        buttonDisabled := true }
    match registerAttempt net (registerRequest fullName username email password)
        originalText p1 with
    | (.ok _, p2) => p2
    | (.error error, p2) =>
      { p2 with
        world := p2.world.emit (.consoleError (js "Registration error:") error)
        errorText := js "An error occurred. Please try again."
        errorDisplay := js "block"
        buttonHTML := originalText
        buttonDisabled := false }

/-! ## `admin.js`: the add-book form and the statistics -/

/-- `handleBookTypeChange()` (lines 239-255). -/
def handleBookTypeChange (p : AdminPage) : AdminPage :=
  let p0 :=
    { p with digitalDisplay := js "none", audioDisplay := js "none", ebookDisplay := js "none" }
  if p0.bookType = js "DIGITAL" then { p0 with digitalDisplay := js "block" }
  else if p0.bookType = js "AUDIO" then { p0 with audioDisplay := js "block" }
  else if p0.bookType = js "EBOOK" then { p0 with ebookDisplay := js "block" }
  else p0

/-- The start of `loadBooks()` (lines 86-91), up to the `await`: the grid shows the
loading text and `GET /books` is dispatched. `handleAddBook` does not await the call; what
`loadBooks` renders once the answer is there is not part of the model. -/
def loadBooksStart (p : AdminPage) : AdminPage :=
  { p with
    booksGrid := js "<div class=\"loading\">Loading books...</div>"
    world := p.world.emit
      (.fetch (API.config p.world (js "/books") { method := some (js "GET") })) }

/-- The branches of `handleAddBook` on the payload `data` (lines 293-310). -/
def handleAddBookResult (data : Json) (p : AdminPage) : Except JSError Unit × AdminPage :=
  match getProp (some data) (js "success") with
  | .error e => (.error e, p)
  | .ok success =>
    if truthy success then
      let p1 :=
        { p with
          formClass := js "form-message success"
          formText := js "✓ Book created successfully using Factory Method pattern!"
          formDisplay := js "block" }
      let p2 := { p1 with formResets := p1.formResets + 1, bookType := p1.initialBookType }
      let p3 := handleBookTypeChange p2
      if p3.catalogActive then (.ok (), loadBooksStart p3) else (.ok (), p3)
    else
      let p1 := { p with formClass := js "form-message error" }
      match getProp (some data) (js "message") with
      | .error e => (.error e, p1)
      | .ok m =>
        match toStringValue (orElse m (some (.str (js "Failed to create book")))) with
        | .error e => (.error e, p1)
        | .ok text =>
          (.ok (), { p1 with formText := js "✗ " ++ text, formDisplay := js "block" })

/-- `handleAddBook(e)` (lines 260-317). The object `bookData` collected from the form
(lines 268-288) is a parameter. -/
def handleAddBook (net : Net) (bookData : Json) (p : AdminPage) : AdminPage :=
  let p0 := { p with formClass := js "form-message", formDisplay := js "none" }
  let r := API.post net p0.world (js "/books") (some bookData)
  let p1 := { p0 with world := r.2 }
  let attempt : Except JSError Unit × AdminPage :=
    match r.1 with
    | .error e => (.error e, p1)
    | .ok data => handleAddBookResult data p1
  match attempt with
  | (.ok _, p2) => p2
  | (.error error, p2) =>
    { p2 with
      world := p2.world.emit (.consoleError (js "Error creating book:") error)
      formClass := js "form-message error"
      formText := js "✗ Error creating book: " ++ error.message
      formDisplay := js "block" }

/-- The property read `value.length`: a `TypeError` on `null` and `undefined`, the number
of elements of an array, the number of code units of a string, the member of an object,
`undefined` otherwise. -/
def getLength (value : Option Json) : Except JSError (Option Json) :=
  match value with
  | none => .error typeError
  | some .null => .error typeError
  | some (.arr vs) => .ok (some (.num vs.length 0))
  | some (.str s) => .ok (some (.num s.length 0))
  | some (.obj ms) => .ok (lookupMember (js "length") ms)
  | some _ => .ok none

/-- `Array.prototype.filter` on the elements of an array, with a callback that may
throw. -/
def filterElements (callback : Json → Except JSError Bool) : List Json → Except JSError (List Json)
  | [] => .ok []
  | v :: vs =>
    match callback v with
    | .error e => .error e
    | .ok keep =>
      match filterElements callback vs with
      | .error e => .error e
      | .ok rest => .ok (if keep then v :: rest else rest)

/-- The callback `loan => !loan.returned`. -/
def notReturned (loan : Json) : Except JSError Bool :=
  match getProp (some loan) (js "returned") with
  | .error e => .error e
  | .ok returned => .ok (!truthy returned)

/-- The callback `loan => loan.overdue && !loan.returned`, as the filter reads its
result. -/
def overdueNotReturned (loan : Json) : Except JSError Bool :=
  match getProp (some loan) (js "overdue") with
  | .error e => .error e
  | .ok overdue =>
    if truthy overdue then
      match getProp (some loan) (js "returned") with
      | .error e => .error e
      | .ok returned => .ok (!truthy returned)
    else .ok false

/-- The figures of `loadStatistics` (lines 329-336 and the conversions of the template,
lines 339-356) for the payloads of `GET /books` and `GET /loans`. A value of
`loansData.loans || []` that is not an array has no callable `filter`. -/
def computeStatistics (booksData loansData : Json) : Except JSError StatisticsView :=
  match getProp (some booksData) (js "books") with
  | .error e => .error e
  | .ok books =>
    match (if truthy books then getLength books else .ok (some (.num 0 0))) with
    | .error e => .error e
    | .ok booksCount =>
      match getProp (some loansData) (js "loans") with
      | .error e => .error e
      | .ok loansField =>
        match orElse loansField (some (.arr [])) with
        | some (.arr loans) =>
          match filterElements notReturned loans with
          | .error e => .error e
          | .ok active =>
            match filterElements overdueNotReturned loans with
            | .error e => .error e
            | .ok overdue =>
              match toStringValue booksCount with
              | .error e => .error e
              | .ok booksText =>
                .ok (.cards booksText loans.length active.length overdue.length)
        | _ => .error typeError

/-- The `try` block of `loadStatistics` (lines 327-356). -/
def loadStatisticsAttempt (net : Net) (p : AdminPage) : Except JSError Unit × AdminPage :=
  let r1 := API.get net p.world (js "/books")
  let p1 := { p with world := r1.2 }
  match r1.1 with
  | .error e => (.error e, p1)
  | .ok booksData =>
    match getProp (some booksData) (js "books") with
    | .error e => (.error e, p1)
    | .ok _ =>
      let r2 := API.get net p1.world (js "/loans")
      let p2 := { p1 with world := r2.2 }
      match r2.1 with
      | .error e => (.error e, p2)
      | .ok loansData =>
        match computeStatistics booksData loansData with
        | .error e => (.error e, p2)
        | .ok view => (.ok (), { p2 with statistics := view })

/-- `loadStatistics()` (lines 322-361). -/
def loadStatistics (net : Net) (p : AdminPage) : AdminPage :=
  let p0 := { p with statistics := StatisticsView.loading }
  match loadStatisticsAttempt net p0 with
  | (.ok _, p1) => p1
  | (.error error, p1) =>
    { p1 with
      world := p1.world.emit (.consoleError (js "Error loading statistics:") error)
      statistics := StatisticsView.failed }

/-! ## Measures used in the proofs -/

/-- What may follow a value inside a JSON text: the end, a comma, or a closing bracket or
brace. -/
def Delimited (rest : JSString) : Prop :=
  ∀ c, rest.head? = some c → c = 0x2C ∨ c = 0x5D ∨ c = 0x7D

mutual

/-- Fuel that `parseValue` needs to read the text of a value back. -/
def fuelNeeded : Json → Nat
  | .arr vs => 1 + fuelNeededElements vs
  | .obj ms => 1 + fuelNeededMembers ms
  | _ => 1

/-- Fuel that `parseElements` needs for these elements. -/
def fuelNeededElements : List Json → Nat
  | [] => 0
  | v :: vs => 1 + fuelNeeded v + fuelNeededElements vs

/-- Fuel that `parseMembers` needs for these members. -/
def fuelNeededMembers : List (JSString × Json) → Nat
  | [] => 0
  | (_, v) :: ms => 1 + fuelNeeded v + fuelNeededMembers ms

end

/-! ## `JSON.parse` reads back what `JSON.stringify` writes -/

theorem delimited_nil : Delimited [] := by
  intro c h
  simp at h

theorem delimited_cons (c : Nat) (r : JSString) (h : c = 0x2C ∨ c = 0x5D ∨ c = 0x7D) :
    Delimited (c :: r) := by
  intro d hd
  simp at hd
  subst hd
  exact h

theorem natDigits_isDigit (n : Nat) : ∀ d ∈ natDigits n, isDigit d = true := by
  intro d hd
  unfold natDigits at hd
  split at hd
  · simp at hd
    subst hd
    decide
  · simp only [List.mem_map, List.mem_reverse] at hd
    obtain ⟨a, ha, rfl⟩ := hd
    have := Nat.digits_lt_base (by norm_num : 1 < 10) ha
    simp [isDigit]
    omega

theorem natDigits_ne_nil (n : Nat) : natDigits n ≠ [] := by
  unfold natDigits
  split
  · simp
  · rename_i h
    simp [Nat.digits_ne_nil_iff_ne_zero.mpr h]

theorem digitsValue_reverse_map (l : List Nat) :
    digitsValue ((l.reverse).map fun d => d + 48) = Nat.ofDigits 10 l := by
  induction l with
  | nil => rfl
  | cons d l ih =>
    unfold digitsValue at ih ⊢
    simp only [List.reverse_cons, List.map_append, List.foldl_append, List.map_cons,
      List.map_nil, List.foldl_cons, List.foldl_nil, ih, Nat.ofDigits_cons]
    omega

theorem digitsValue_natDigits (n : Nat) : digitsValue (natDigits n) = n := by
  unfold natDigits
  split
  · rename_i h
    subst h
    rfl
  · rw [digitsValue_reverse_map, Nat.ofDigits_digits]

theorem natDigits_leading (n : Nat) :
    ¬ ((natDigits n).head? = some 48 ∧ 1 < (natDigits n).length) := by
  unfold natDigits
  split
  · simp
  · rename_i h
    intro hh
    have hne : Nat.digits 10 n ≠ [] := Nat.digits_ne_nil_iff_ne_zero.mpr h
    have hl := Nat.getLast_digit_ne_zero 10 h
    have h1 := hh.1
    rw [List.head?_map, List.head?_reverse, List.getLast?_eq_getLast _ hne] at h1
    simp at h1
    exact hl h1

theorem span_digits (ds rest : JSString) (hd : ∀ d ∈ ds, isDigit d = true)
    (hr : ∀ c, rest.head? = some c → isDigit c = false) :
    (ds ++ rest).takeWhile isDigit = ds ∧ (ds ++ rest).dropWhile isDigit = rest := by
  have h1 : rest.takeWhile isDigit = [] ∧ rest.dropWhile isDigit = rest := by
    cases rest with
    | nil => simp
    | cons c r =>
      have := hr c rfl
      simp [this]
  rw [List.takeWhile_append_of_pos hd, List.dropWhile_append_of_pos hd, h1.1, h1.2]
  simp

theorem head?_natDigits (n : Nat) : ∃ c t, natDigits n = c :: t ∧ isDigit c = true := by
  have h1 := natDigits_ne_nil n
  have h2 := natDigits_isDigit n
  cases h : natDigits n with
  | nil => exact absurd h h1
  | cons c t => exact ⟨c, t, rfl, h2 c (by simp [h])⟩

theorem parseExponent_text (e : Int) (rest : JSString) (hr : Delimited rest) :
    parseExponent ((if e = 0 then [] else 0x65 :: intDigits e) ++ rest) = some (e, rest) := by
  have hrd : ∀ c, rest.head? = some c → isDigit c = false := by
    intro c hc
    rcases hr c hc with h | h | h <;> subst h <;> decide
  by_cases he : e = 0
  · subst he
    simp only [if_true, List.nil_append]
    cases rest with
    | nil => rfl
    | cons c r =>
      have : ¬ (c = 0x65 ∨ c = 0x45) := by
        rcases hr c rfl with h | h | h <;> subst h <;> decide
      simp [parseExponent, this]
  · simp only [he, if_false, List.cons_append]
    obtain ⟨c, t, hct, hc⟩ := head?_natDigits e.natAbs
    have hsp := span_digits (natDigits e.natAbs) rest (natDigits_isDigit _) hrd
    have hval := digitsValue_natDigits e.natAbs
    rw [hct] at hsp hval
    simp only [List.cons_append] at hsp
    have hc2 : c ≠ 0x2D ∧ c ≠ 0x2B := by
      simp [isDigit] at hc
      omega
    by_cases hneg : e < 0
    · have hv : -((e.natAbs : Nat) : Int) = e := by omega
      simp only [parseExponent, intDigits, hneg, if_true, hct]
      simp
      refine ⟨hc, ?_, hsp.2⟩
      rw [hsp.1, hval]
      exact hv
    · have hv : ((e.natAbs : Nat) : Int) = e := by omega
      simp only [parseExponent, intDigits, hneg, if_false, hct]
      simp [hc2.1, hc2.2]
      refine ⟨hc, ?_, hsp.2⟩
      rw [hsp.1, hval]
      exact hv

theorem parseFraction_skip (s : JSString) (h : s.head? ≠ some 0x2E) :
    parseFraction s = some ([], s) := by
  cases s with
  | nil => rfl
  | cons c r =>
    have hc : c ≠ 0x2E := by simpa using h
    simp [parseFraction, hc]

theorem parseNumber_digits (ds tail rest : JSString) (e : Int) (neg : Bool)
    (hd : ∀ d ∈ ds, isDigit d = true) (hne : ds ≠ [])
    (hlead : ¬ (ds.head? = some 48 ∧ 1 < ds.length))
    (ht : ∀ c, tail.head? = some c → isDigit c = false)
    (hf : tail.head? ≠ some 0x2E)
    (hx : parseExponent tail = some (e, rest)) :
    parseNumber ((if neg then [0x2D] else []) ++ (ds ++ tail)) =
      some (.num (if neg then -(digitsValue ds : Int) else (digitsValue ds : Int)) e, rest) := by
  have hsp := span_digits ds tail hd ht
  cases ds with
  | nil => exact absurd rfl hne
  | cons c t =>
    have hc : isDigit c = true := hd c (by simp)
    have hc2 : c ≠ 0x2D := by
      simp [isDigit] at hc
      omega
    simp only [List.cons_append] at hsp
    have hl : c = 48 → t = [] := by
      intro h48
      by_contra ht0
      apply hlead
      refine ⟨by simp [h48], ?_⟩
      cases t with
      | nil => exact absurd rfl ht0
      | cons a b => simp
    cases neg with
    | true =>
      simp only [parseNumber, if_true, List.cons_append, List.nil_append, List.head?_cons,
        decide_True, List.tail_cons, hsp.1, hsp.2, parseFraction_skip tail hf, hx]
      simpa using hl
    | false =>
      have hh : ¬ (some c = some 45) := by simpa using hc2
      simp only [parseNumber, Bool.false_eq_true, if_false, List.cons_append, List.nil_append,
        List.head?_cons, hh, decide_False, hsp.1, hsp.2, parseFraction_skip tail hf, hx]
      simpa using hl

theorem parseNumber_text (m e : Int) (rest : JSString) (hr : Delimited rest) :
    parseNumber (numberText m e ++ rest) = some (.num m e, rest) := by
  have hx := parseExponent_text e rest hr
  have htail : ∀ c, ((if e = 0 then [] else 0x65 :: intDigits e) ++ rest).head? = some c →
      c = 0x65 ∨ c = 0x2C ∨ c = 0x5D ∨ c = 0x7D := by
    intro c hc
    by_cases he : e = 0
    · simp only [he, if_true, List.nil_append] at hc
      exact Or.inr (hr c hc)
    · simp only [he, if_false, List.cons_append, List.head?_cons, Option.some.injEq] at hc
      exact Or.inl hc.symm
  have h := parseNumber_digits (natDigits m.natAbs)
    ((if e = 0 then [] else 0x65 :: intDigits e) ++ rest) rest e (decide (m < 0))
    (natDigits_isDigit _) (natDigits_ne_nil _) (natDigits_leading _)
    (by
      intro c hc
      rcases htail c hc with h | h | h | h <;> subst h <;> decide)
    (by
      intro hc
      rcases htail _ hc with h | h | h | h <;> simp at h)
    hx
  rw [digitsValue_natDigits] at h
  unfold numberText intDigits
  by_cases hm : m < 0
  · have hv : -((m.natAbs : Nat) : Int) = m := by omega
    simp only [hm, decide_True, if_true, hv] at h
    simp only [hm, if_true]
    simpa using h
  · have hv : ((m.natAbs : Nat) : Int) = m := by omega
    simp only [hm, decide_False, Bool.false_eq_true, if_false, hv] at h
    simp only [hm, if_false]
    simpa using h

theorem span_append (q : Nat → Bool) (l r : JSString)
    (hr : ∀ c, r.head? = some c → q c = false) :
    (l ++ r).takeWhile q = l.takeWhile q ∧ (l ++ r).dropWhile q = l.dropWhile q ++ r := by
  induction l with
  | nil =>
    cases r with
    | nil => simp
    | cons c t =>
      have := hr c rfl
      simp [this]
  | cons a l ih =>
    by_cases ha : q a = true
    · simp [List.takeWhile_cons, List.dropWhile_cons, ha, ih.1, ih.2]
    · simp [List.takeWhile_cons, List.dropWhile_cons, ha]

theorem delimited_head (rest : JSString) (hr : Delimited rest) (c : Nat)
    (hc : rest.head? = some c) :
    isDigit c = false ∧ c ≠ 0x2E ∧ c ≠ 0x65 ∧ c ≠ 0x45 ∧ c ≠ 0x2D ∧ c ≠ 0x2B := by
  rcases hr c hc with h | h | h <;> subst h <;> decide

theorem parseFraction_append (s fp s2 rest : JSString) (hr : Delimited rest)
    (h : parseFraction s = some (fp, s2)) :
    parseFraction (s ++ rest) = some (fp, s2 ++ rest) := by
  have hd : ∀ c, rest.head? = some c → isDigit c = false :=
    fun c hc => (delimited_head rest hr c hc).1
  cases s with
  | nil =>
    simp only [parseFraction, Option.some.injEq, Prod.mk.injEq] at h
    obtain ⟨rfl, rfl⟩ := h
    simp only [List.nil_append]
    apply parseFraction_skip
    intro hc
    exact (delimited_head rest hr _ hc).2.1 rfl
  | cons c r =>
    have hsp := span_append isDigit r rest hd
    by_cases hc : c = 0x2E
    · subst hc
      simp only [parseFraction, if_true] at h
      simp only [List.cons_append, parseFraction, if_true, hsp.1, hsp.2]
      by_cases hds : r.takeWhile isDigit = []
      · simp [hds] at h
      · simp only [hds, if_false, Option.some.injEq, Prod.mk.injEq] at h ⊢
        obtain ⟨rfl, rfl⟩ := h
        exact ⟨rfl, rfl⟩
    · simp only [parseFraction, hc, if_false, Option.some.injEq, Prod.mk.injEq] at h
      obtain ⟨rfl, rfl⟩ := h
      simp [parseFraction, hc]

theorem parseExponent_append (s : JSString) (ex : Int) (s3 rest : JSString)
    (hr : Delimited rest) (h : parseExponent s = some (ex, s3)) :
    parseExponent (s ++ rest) = some (ex, s3 ++ rest) := by
  have hd : ∀ c, rest.head? = some c → isDigit c = false :=
    fun c hc => (delimited_head rest hr c hc).1
  cases s with
  | nil =>
    simp only [parseExponent, Option.some.injEq, Prod.mk.injEq] at h
    obtain ⟨rfl, rfl⟩ := h
    simp only [List.nil_append]
    cases rest with
    | nil => rfl
    | cons c t =>
      have hc := delimited_head (c :: t) hr c rfl
      have : ¬ (c = 0x65 ∨ c = 0x45) := by
        intro h
        rcases h with h | h
        · exact hc.2.2.1 h
        · exact hc.2.2.2.1 h
      simp [parseExponent, this]
  | cons c r =>
    by_cases hc : c = 0x65 ∨ c = 0x45
    · simp only [parseExponent, hc, if_true] at h
      simp only [List.cons_append, parseExponent, hc, if_true]
      cases r with
      | nil => simp at h
      | cons a r1 =>
        simp only [List.cons_append, List.head?_cons, List.tail_cons] at h ⊢
        by_cases hs : (some a = some 0x2D ∨ some a = some 0x2B)
        · simp only [hs, if_true] at h ⊢
          have hsp := span_append isDigit r1 rest hd
          rw [hsp.1, hsp.2]
          by_cases hds : r1.takeWhile isDigit = []
          · simp [hds] at h
          · simp only [hds, if_false, Option.some.injEq, Prod.mk.injEq] at h ⊢
            obtain ⟨h1, h2⟩ := h
            exact ⟨h1, by rw [← h2]⟩
        · simp only [hs, if_false] at h ⊢
          have hsp := span_append isDigit (a :: r1) rest hd
          rw [List.cons_append] at hsp
          rw [hsp.1, hsp.2]
          by_cases hds : (a :: r1).takeWhile isDigit = []
          · simp [hds] at h
          · simp only [hds, if_false, Option.some.injEq, Prod.mk.injEq] at h ⊢
            obtain ⟨h1, h2⟩ := h
            exact ⟨h1, by rw [← h2]⟩
    · simp only [parseExponent, hc, if_false, Option.some.injEq, Prod.mk.injEq] at h
      obtain ⟨rfl, rfl⟩ := h
      simp [parseExponent, hc]

/-- A number literal that was read to its end is read the same way in front of what may
follow a value. -/
theorem parseNumber_append (s : JSString) (v : Json) (rest : JSString) (hr : Delimited rest)
    (h : parseNumber s = some (v, [])) :
    parseNumber (s ++ rest) = some (v, rest) := by
  have hd : ∀ c, rest.head? = some c → isDigit c = false :=
    fun c hc => (delimited_head rest hr c hc).1
  cases s with
  | nil => simp [parseNumber] at h
  | cons c t =>
    unfold parseNumber at h ⊢
    simp only [List.cons_append, List.head?_cons] at h ⊢
    by_cases hneg : (some c = some 0x2D)
    · simp only [hneg, decide_True, if_true, List.tail_cons] at h ⊢
      have hsp := span_append isDigit t rest hd
      rw [hsp.1, hsp.2]
      by_cases h1 : t.takeWhile isDigit = []
      · simp [h1] at h
      · simp only [h1, if_false] at h ⊢
        by_cases h2 : (t.takeWhile isDigit).head? = some 48 ∧ 1 < (t.takeWhile isDigit).length
        · simp [h2] at h
        · simp only [h2, if_false] at h ⊢
          cases hf : parseFraction (t.dropWhile isDigit) with
          | none => simp [hf] at h
          | some pr =>
            obtain ⟨fp, s2⟩ := pr
            rw [parseFraction_append _ _ _ _ hr hf]
            simp only [hf] at h ⊢
            cases hx : parseExponent s2 with
            | none => simp [hx] at h
            | some px =>
              obtain ⟨ex, s3⟩ := px
              rw [parseExponent_append _ _ _ _ hr hx]
              simp only [hx, Option.some.injEq, Prod.mk.injEq] at h ⊢
              obtain ⟨hv, hs3⟩ := h
              subst hs3
              exact ⟨hv, rfl⟩
    · simp only [hneg, decide_False, Bool.false_eq_true, if_false] at h ⊢
      have hsp := span_append isDigit (c :: t) rest hd
      rw [List.cons_append] at hsp
      rw [hsp.1, hsp.2]
      by_cases h1 : (c :: t).takeWhile isDigit = []
      · simp [h1] at h
      · simp only [h1, if_false] at h ⊢
        by_cases h2 : ((c :: t).takeWhile isDigit).head? = some 48 ∧
            1 < ((c :: t).takeWhile isDigit).length
        · simp [h2] at h
        · simp only [h2, if_false] at h ⊢
          cases hf : parseFraction ((c :: t).dropWhile isDigit) with
          | none => simp [hf] at h
          | some pr =>
            obtain ⟨fp, s2⟩ := pr
            rw [parseFraction_append _ _ _ _ hr hf]
            simp only [hf] at h ⊢
            cases hx : parseExponent s2 with
            | none => simp [hx] at h
            | some px =>
              obtain ⟨ex, s3⟩ := px
              rw [parseExponent_append _ _ _ _ hr hx]
              simp only [hx, Option.some.injEq, Prod.mk.injEq] at h ⊢
              obtain ⟨hv, hs3⟩ := h
              subst hs3
              exact ⟨hv, rfl⟩

/-- A number literal starts with a minus sign or a digit. -/
theorem parseNumber_head (c : Nat) (t : JSString) (v : Json) (r : JSString)
    (h : parseNumber (c :: t) = some (v, r)) : c = 0x2D ∨ isDigit c = true := by
  by_cases hneg : c = 0x2D
  · exact Or.inl hneg
  · right
    unfold parseNumber at h
    have hh : ¬ (some c = some 45) := by simpa using hneg
    simp only [List.head?_cons, hh, decide_False, Bool.false_eq_true, if_false] at h
    by_cases hc : isDigit c = true
    · exact hc
    · simp [List.takeWhile_cons, hc] at h

theorem hexVal_hexDigit (n : Nat) (h : n < 16) : hexVal (hexDigit n) = some n := by
  interval_cases n <;> rfl

theorem hex4_unicodeEscape (c : Nat) (h : c < 65536) :
    hex4 (hexDigit (c / 4096 % 16)) (hexDigit (c / 256 % 16)) (hexDigit (c / 16 % 16))
      (hexDigit (c % 16)) = some c := by
  unfold hex4
  rw [hexVal_hexDigit _ (Nat.mod_lt _ (by norm_num)), hexVal_hexDigit _ (Nat.mod_lt _ (by norm_num)),
    hexVal_hexDigit _ (Nat.mod_lt _ (by norm_num)), hexVal_hexDigit _ (Nat.mod_lt _ (by norm_num))]
  simp only [Option.some.injEq]
  omega

theorem parseChars_raw (c : Nat) (t : JSString) (h1 : c ≠ 0x22) (h2 : c ≠ 0x5C)
    (h3 : ¬ c < 0x20) :
    parseChars (c :: t) = (parseChars t).map fun p => (c :: p.1, p.2) := by
  rw [parseChars.eq_def]
  simp [h1, h2, h3]

theorem parseChars_unicodeEscape (c : Nat) (t : JSString) (h : c < 65536) :
    parseChars (unicodeEscape c ++ t) = (parseChars t).map fun p => (c :: p.1, p.2) := by
  unfold unicodeEscape
  simp only [List.cons_append, List.nil_append]
  rw [parseChars.eq_def]
  simp [hex4_unicodeEscape c h]

theorem parseChars_quoteUnit (c : Nat) (t : JSString) :
    parseChars (quoteUnit c ++ t) = (parseChars t).map fun p => (c :: p.1, p.2) := by
  unfold quoteUnit
  split_ifs with h1 h2 h3 h4 h5 h6 h7 h8
  · subst h1; rw [List.cons_append, parseChars.eq_def]; simp [escapeChar]
  · subst h2; rw [List.cons_append, parseChars.eq_def]; simp [escapeChar]
  · subst h3; rw [List.cons_append, parseChars.eq_def]; simp [escapeChar]
  · subst h4; rw [List.cons_append, parseChars.eq_def]; simp [escapeChar]
  · subst h5; rw [List.cons_append, parseChars.eq_def]; simp [escapeChar]
  · subst h6; rw [List.cons_append, parseChars.eq_def]; simp [escapeChar]
  · subst h7; rw [List.cons_append, parseChars.eq_def]; simp [escapeChar]
  · apply parseChars_unicodeEscape
    simp only [isHigh, isLow, Bool.and_eq_true, decide_eq_true_eq] at h8
    omega
  · simp only [isHigh, isLow, Bool.and_eq_true, decide_eq_true_eq, not_or, not_and, not_le,
      not_lt] at h8
    exact parseChars_raw c t h6 h7 (by omega)

theorem parseChars_quoteChars : ∀ (s rest : JSString),
    parseChars (quoteChars s ++ 0x22 :: rest) = some (s, rest)
  | [], rest => by
    rw [quoteChars, List.nil_append, parseChars.eq_def]
    simp
  | [c], rest => by
    rw [quoteChars, parseChars_quoteUnit, parseChars.eq_def]
    simp
  | c :: d :: r, rest => by
    rw [quoteChars]
    split_ifs with h
    · simp only [isHigh, isLow, Bool.and_eq_true, decide_eq_true_eq] at h
      rw [List.cons_append, List.cons_append,
        parseChars_raw c _ (by omega) (by omega) (by omega),
        parseChars_raw d _ (by omega) (by omega) (by omega), parseChars_quoteChars r rest]
      rfl
    · rw [List.append_assoc, parseChars_quoteUnit, parseChars_quoteChars (d :: r) rest]
      rfl

theorem parseChars_quote (s rest : JSString) :
    parseChars ((quote s).tail ++ rest) = some (s, rest) := by
  simp only [quote, List.tail_cons, List.append_assoc, List.singleton_append]
  exact parseChars_quoteChars s rest

theorem numberText_head (m e : Int) :
    ∃ c t, numberText m e = c :: t ∧ (c = 0x2D ∨ isDigit c = true) := by
  obtain ⟨c, t, hct, hc⟩ := head?_natDigits m.natAbs
  unfold numberText intDigits
  by_cases hm : m < 0
  · exact ⟨0x2D, _, by simp only [hm, if_true, List.cons_append]; rfl, Or.inl rfl⟩
  · exact ⟨c, _, by simp only [hm, if_false, hct, List.cons_append]; rfl, Or.inr hc⟩

theorem numberLiteral_cases (m e : Int) :
    (numberLiteral m e = numberToString m e ∧
      parseNumber (numberToString m e) = some (.num m e, [])) ∨
    numberLiteral m e = numberText m e := by
  unfold numberLiteral
  split
  · rename_i m1 e1 heq
    by_cases h : m1 = m ∧ e1 = e
    · obtain ⟨rfl, rfl⟩ := h
      left
      simp [heq]
    · right
      simp [h]
  · right
    rfl

theorem parseNumber_literal (m e : Int) (rest : JSString) (hr : Delimited rest) :
    parseNumber (numberLiteral m e ++ rest) = some (.num m e, rest) := by
  rcases numberLiteral_cases m e with ⟨h1, h2⟩ | h
  · rw [h1]
    exact parseNumber_append _ _ _ hr h2
  · rw [h]
    exact parseNumber_text m e rest hr

theorem numberLiteral_head (m e : Int) :
    ∃ c t, numberLiteral m e = c :: t ∧ (c = 0x2D ∨ isDigit c = true) := by
  rcases numberLiteral_cases m e with ⟨h1, h2⟩ | h
  · rw [h1]
    cases hs : numberToString m e with
    | nil =>
      rw [hs] at h2
      simp [parseNumber] at h2
    | cons c t =>
      rw [hs] at h2
      exact ⟨c, t, rfl, parseNumber_head c t _ _ h2⟩
  · rw [h]
    exact numberText_head m e

theorem stringifyValue_head (v : Json) :
    ∃ c t, stringifyValue v = c :: t ∧ isWs c = false ∧ c ≠ 0x5D ∧ c ≠ 0x7D := by
  cases v with
  | null => exact ⟨_, _, by rw [stringifyValue], by decide, by decide, by decide⟩
  | bool b =>
    cases b
    · exact ⟨_, _, by rw [stringifyValue], by decide, by decide, by decide⟩
    · exact ⟨_, _, by rw [stringifyValue], by decide, by decide, by decide⟩
  | num m e =>
    by_cases ho : overflows m e = true
    · exact ⟨_, _, by rw [stringifyValue, if_pos ho], by decide, by decide, by decide⟩
    · obtain ⟨c, t, hct, hc⟩ := numberLiteral_head m e
      refine ⟨c, t, by rw [stringifyValue, if_neg ho, hct], ?_⟩
      rcases hc with h | h
      · subst h; decide
      · simp only [isDigit, Bool.and_eq_true, decide_eq_true_eq] at h
        refine ⟨?_, by omega, by omega⟩
        simp [isWs]
        omega
  | str s => exact ⟨_, _, by rw [stringifyValue, quote], by decide, by decide, by decide⟩
  | arr vs =>
    cases vs with
    | nil => exact ⟨_, _, by rw [stringifyValue], by decide, by decide, by decide⟩
    | cons v vs => exact ⟨_, _, by rw [stringifyValue], by decide, by decide, by decide⟩
  | obj ms =>
    cases ms with
    | nil => exact ⟨_, _, by rw [stringifyValue], by decide, by decide, by decide⟩
    | cons kv ms =>
      obtain ⟨k, v⟩ := kv
      exact ⟨_, _, by rw [stringifyValue], by decide, by decide, by decide⟩

theorem dropWhile_isWs_of_head (c : Nat) (t : JSString) (h : isWs c = false) :
    (c :: t).dropWhile isWs = c :: t := by
  simp [List.dropWhile_cons, h]

theorem stringifyElements_delimited (vs : List Json) (rest : JSString) :
    Delimited (stringifyElements vs ++ rest) := by
  cases vs with
  | nil => rw [stringifyElements]; exact delimited_cons _ _ (by simp)
  | cons v vs => rw [stringifyElements]; exact delimited_cons _ _ (by simp)

theorem stringifyMembers_delimited (ms : List (JSString × Json)) (rest : JSString) :
    Delimited (stringifyMembers ms ++ rest) := by
  cases ms with
  | nil => rw [stringifyMembers]; exact delimited_cons _ _ (by simp)
  | cons kv ms =>
    obtain ⟨k, v⟩ := kv
    rw [stringifyMembers]; exact delimited_cons _ _ (by simp)

theorem fuelNeeded_pos (v : Json) : 1 ≤ fuelNeeded v := by
  cases v <;> simp [fuelNeeded]

theorem fuel_succ (v : Json) (fuel : Nat) (hf : fuelNeeded v ≤ fuel) : ∃ f, fuel = f + 1 :=
  ⟨fuel - 1, by have := fuelNeeded_pos v; omega⟩

theorem parseValue_leaf (fuel : Nat) (c : Nat) (t : JSString) (hw : isWs c = false) :
    parseValue (fuel + 1) (c :: t) =
      if c = 0x22 then (parseChars t).map fun p => (Json.str p.1, p.2)
      else if c = 0x5B then
        if (t.dropWhile isWs).head? = some 0x5D then some (Json.arr [], (t.dropWhile isWs).tail)
        else (parseElements fuel t).map fun p => (Json.arr p.1, p.2)
      else if c = 0x7B then
        if (t.dropWhile isWs).head? = some 0x7D then some (Json.obj [], (t.dropWhile isWs).tail)
        else (parseMembers fuel t).map fun p => (Json.obj p.1, p.2)
      else if c = 0x74 then (expect [0x72, 0x75, 0x65] t).map fun r1 => (Json.bool true, r1)
      else if c = 0x66 then
        (expect [0x61, 0x6C, 0x73, 0x65] t).map fun r1 => (Json.bool false, r1)
      else if c = 0x6E then (expect [0x75, 0x6C, 0x6C] t).map fun r1 => (Json.null, r1)
      else parseNumber (c :: t) := by
  rw [parseValue, dropWhile_isWs_of_head c t hw]

mutual

theorem parseValue_stringify : ∀ (v : Json) (fuel : Nat) (rest : JSString),
    finiteValue v = true → fuelNeeded v ≤ fuel → Delimited rest →
    parseValue fuel (stringifyValue v ++ rest) = some (v, rest)
  | .null, fuel, rest, _, hf, _ => by
    obtain ⟨f, rfl⟩ := fuel_succ _ _ hf
    rw [stringifyValue, List.cons_append, parseValue_leaf _ _ _ (by decide)]
    simp [expect]
  | .bool true, fuel, rest, _, hf, _ => by
    obtain ⟨f, rfl⟩ := fuel_succ _ _ hf
    rw [stringifyValue, List.cons_append, parseValue_leaf _ _ _ (by decide)]
    simp [expect]
  | .bool false, fuel, rest, _, hf, _ => by
    obtain ⟨f, rfl⟩ := fuel_succ _ _ hf
    rw [stringifyValue, List.cons_append, parseValue_leaf _ _ _ (by decide)]
    simp [expect]
  | .num m e, fuel, rest, hv, hf, hr => by
    obtain ⟨f, rfl⟩ := fuel_succ _ _ hf
    have hn := parseNumber_literal m e rest hr
    obtain ⟨c, t, hct, hc⟩ := numberLiteral_head m e
    have ho : ¬ overflows m e = true := by
      rw [finiteValue] at hv
      simpa using hv
    rw [hct, List.cons_append] at hn
    rw [stringifyValue, if_neg ho, hct, List.cons_append]
    have hc' : 0x2D ≤ c ∧ c ≤ 57 := by
      rcases hc with h | h
      · subst h; decide
      · simp only [isDigit, Bool.and_eq_true, decide_eq_true_eq] at h
        omega
    rw [parseValue_leaf _ _ _ (by simp [isWs]; omega)]
    rw [if_neg (by omega), if_neg (by omega), if_neg (by omega), if_neg (by omega),
      if_neg (by omega), if_neg (by omega)]
    exact hn
  | .str s, fuel, rest, _, hf, _ => by
    obtain ⟨f, rfl⟩ := fuel_succ _ _ hf
    rw [stringifyValue, quote, List.cons_append, parseValue_leaf _ _ _ (by decide)]
    simp [parseChars_quoteChars]
  | .arr [], fuel, rest, _, hf, _ => by
    obtain ⟨f, rfl⟩ := fuel_succ _ _ hf
    rw [stringifyValue, List.cons_append, parseValue_leaf _ _ _ (by decide)]
    simp [isWs]
  | .arr (v :: vs), fuel, rest, hv, hf, hr => by
    obtain ⟨f, rfl⟩ := fuel_succ _ _ hf
    have ih := parseElements_stringify (v :: vs) f rest (by simp)
      (by rw [finiteValue] at hv; exact hv) (by rw [fuelNeeded] at hf; omega) hr
    rw [stringifyElements, List.tail_cons] at ih
    obtain ⟨c, t, hct, hw, h1, _⟩ := stringifyValue_head v
    rw [stringifyValue, List.cons_append, parseValue_leaf _ _ _ (by decide)]
    rw [if_neg (by decide), if_pos rfl]
    rw [hct] at ih ⊢
    simp only [List.cons_append, dropWhile_isWs_of_head c _ hw, List.head?_cons,
      Option.some.injEq, h1, if_false] at ih ⊢
    rw [ih]
    rfl
  | .obj [], fuel, rest, _, hf, _ => by
    obtain ⟨f, rfl⟩ := fuel_succ _ _ hf
    rw [stringifyValue, List.cons_append, parseValue_leaf _ _ _ (by decide)]
    simp [isWs]
  | .obj ((k, v) :: ms), fuel, rest, hv, hf, hr => by
    obtain ⟨f, rfl⟩ := fuel_succ _ _ hf
    have ih := parseMembers_stringify ((k, v) :: ms) f rest (by simp)
      (by rw [finiteValue] at hv; exact hv) (by rw [fuelNeeded] at hf; omega) hr
    rw [stringifyMembers, List.tail_cons] at ih
    rw [stringifyValue, List.cons_append, parseValue_leaf _ _ _ (by decide)]
    rw [if_neg (by decide), if_neg (by decide), if_pos rfl]
    simp only [quote, List.cons_append, dropWhile_isWs_of_head 0x22 _ (by decide),
      List.head?_cons, Option.some.injEq] at ih ⊢
    rw [if_neg (by decide), ih]
    rfl

theorem parseElements_stringify : ∀ (l : List Json) (fuel : Nat) (rest : JSString),
    l ≠ [] → finiteElements l = true → fuelNeededElements l ≤ fuel → Delimited rest →
    parseElements fuel ((stringifyElements l).tail ++ rest) = some (l, rest)
  | [], _, _, hl, _, _, _ => absurd rfl hl
  | [v], fuel, rest, _, hv, hf, _ => by
    obtain ⟨f, rfl⟩ : ∃ f, fuel = f + 1 :=
      ⟨fuel - 1, by rw [fuelNeededElements] at hf; omega⟩
    rw [finiteElements, Bool.and_eq_true] at hv
    have ih := parseValue_stringify v f (0x5D :: rest) hv.1
      (by rw [fuelNeededElements] at hf; omega) (delimited_cons _ _ (by simp))
    rw [stringifyElements, stringifyElements, List.tail_cons, List.append_assoc,
      List.singleton_append, parseElements, ih]
    simp [isWs]
  | v :: w :: vs, fuel, rest, _, hv, hf, hr => by
    obtain ⟨f, rfl⟩ : ∃ f, fuel = f + 1 :=
      ⟨fuel - 1, by rw [fuelNeededElements] at hf; omega⟩
    rw [finiteElements, Bool.and_eq_true] at hv
    have ih := parseValue_stringify v f (stringifyElements (w :: vs) ++ rest) hv.1
      (by rw [fuelNeededElements] at hf; omega) (stringifyElements_delimited _ _)
    have ih2 := parseElements_stringify (w :: vs) f rest (by simp) hv.2
      (by rw [fuelNeededElements] at hf; omega) hr
    rw [stringifyElements, List.tail_cons, List.append_assoc, parseElements, ih]
    rw [stringifyElements] at ih2 ⊢
    simp only [List.tail_cons] at ih2
    simp only [List.cons_append, dropWhile_isWs_of_head 0x2C _ (by decide)]
    rw [if_pos trivial, ih2]
    rfl

theorem parseMembers_stringify : ∀ (l : List (JSString × Json)) (fuel : Nat) (rest : JSString),
    l ≠ [] → finiteMembers l = true → fuelNeededMembers l ≤ fuel → Delimited rest →
    parseMembers fuel ((stringifyMembers l).tail ++ rest) = some (l, rest)
  | [], _, _, hl, _, _, _ => absurd rfl hl
  | [(k, v)], fuel, rest, _, hv, hf, _ => by
    obtain ⟨f, rfl⟩ : ∃ f, fuel = f + 1 :=
      ⟨fuel - 1, by rw [fuelNeededMembers] at hf; omega⟩
    rw [finiteMembers, Bool.and_eq_true] at hv
    have ih := parseValue_stringify v f (0x7D :: rest) hv.1
      (by rw [fuelNeededMembers] at hf; omega) (delimited_cons _ _ (by simp))
    rw [stringifyMembers, stringifyMembers, List.tail_cons, quote, parseMembers]
    simp only [List.cons_append, List.append_assoc, List.nil_append,
      dropWhile_isWs_of_head 0x22 _ (by decide), if_true, parseChars_quoteChars,
      dropWhile_isWs_of_head 0x3A _ (by decide), ih,
      dropWhile_isWs_of_head 0x7D _ (by decide)]
    simp
  | (k, v) :: kw :: ms, fuel, rest, _, hv, hf, hr => by
    obtain ⟨f, rfl⟩ : ∃ f, fuel = f + 1 :=
      ⟨fuel - 1, by rw [fuelNeededMembers] at hf; omega⟩
    rw [finiteMembers, Bool.and_eq_true] at hv
    have ih := parseValue_stringify v f (stringifyMembers (kw :: ms) ++ rest) hv.1
      (by rw [fuelNeededMembers] at hf; omega) (stringifyMembers_delimited _ _)
    have ih2 := parseMembers_stringify (kw :: ms) f rest (by simp) hv.2
      (by rw [fuelNeededMembers] at hf; omega) hr
    obtain ⟨k2, v2⟩ := kw
    rw [stringifyMembers, List.tail_cons, quote, parseMembers]
    simp only [List.cons_append, List.append_assoc, List.nil_append,
      dropWhile_isWs_of_head 0x22 _ (by decide), if_true, parseChars_quoteChars,
      dropWhile_isWs_of_head 0x3A _ (by decide), ih]
    rw [stringifyMembers] at ih2 ⊢
    simp only [List.tail_cons] at ih2
    simp only [List.cons_append, dropWhile_isWs_of_head 0x2C _ (by decide)]
    rw [if_pos trivial, ih2]
    rfl

end

theorem stringifyValue_length_pos (v : Json) : 1 ≤ (stringifyValue v).length := by
  obtain ⟨c, t, hct, _⟩ := stringifyValue_head v
  rw [hct]
  simp

mutual

theorem fuelNeeded_le : ∀ v : Json, fuelNeeded v ≤ (stringifyValue v).length
  | .null => by rw [fuelNeeded] <;> first | exact stringifyValue_length_pos _ | simp
  | .bool b => by rw [fuelNeeded] <;> first | exact stringifyValue_length_pos _ | simp
  | .num m e => by rw [fuelNeeded] <;> first | exact stringifyValue_length_pos _ | simp
  | .str s => by rw [fuelNeeded] <;> first | exact stringifyValue_length_pos _ | simp
  | .arr [] => by
    rw [fuelNeeded, fuelNeededElements, stringifyValue]
    simp
  | .arr (v :: vs) => by
    have h1 := fuelNeeded_le v
    have h2 := fuelNeededElements_le vs
    rw [fuelNeeded, fuelNeededElements, stringifyValue]
    simp only [List.length_cons, List.length_append]
    omega
  | .obj [] => by
    rw [fuelNeeded, fuelNeededMembers, stringifyValue]
    simp
  | .obj ((k, v) :: ms) => by
    have h1 := fuelNeeded_le v
    have h2 := fuelNeededMembers_le ms
    rw [fuelNeeded, fuelNeededMembers, stringifyValue]
    simp only [List.length_cons, List.length_append]
    omega

theorem fuelNeededElements_le : ∀ l : List Json,
    fuelNeededElements l + 1 ≤ (stringifyElements l).length
  | [] => by
    rw [fuelNeededElements, stringifyElements]
    simp
  | v :: vs => by
    have h1 := fuelNeeded_le v
    have h2 := fuelNeededElements_le vs
    rw [fuelNeededElements, stringifyElements]
    simp only [List.length_cons, List.length_append]
    omega

theorem fuelNeededMembers_le : ∀ l : List (JSString × Json),
    fuelNeededMembers l + 1 ≤ (stringifyMembers l).length
  | [] => by
    rw [fuelNeededMembers, stringifyMembers]
    simp
  | (k, v) :: ms => by
    have h1 := fuelNeeded_le v
    have h2 := fuelNeededMembers_le ms
    rw [fuelNeededMembers, stringifyMembers]
    simp only [List.length_cons, List.length_append]
    omega

end

/-- Round trip of the JSON text: `JSON.parse` reads back the value `JSON.stringify` wrote
when no number in it is infinite; the fuel of the parser is enough. -/
theorem parse_stringify (v : Json) (hv : finiteValue v = true) :
    JSON.parse (stringifyValue v) = .ok v := by
  have h := parseValue_stringify v ((stringifyValue v).length + 1) [] hv
    (by have := fuelNeeded_le v; omega) delimited_nil
  rw [List.append_nil] at h
  simp [JSON.parse, h]

/-- The text of a value is not the empty string. -/
theorem stringifyValue_ne_nil (v : Json) : stringifyValue v ≠ [] := by
  obtain ⟨c, t, hct, _⟩ := stringifyValue_head v
  rw [hct]
  simp

/-! ## The fuel of `JSON.parse` is always enough -/

theorem parseFuel_succ : ∀ fuel : Nat,
    (∀ s x, parseValue fuel s = some x → parseValue (fuel + 1) s = some x) ∧
    (∀ s x, parseElements fuel s = some x → parseElements (fuel + 1) s = some x) ∧
    (∀ s x, parseMembers fuel s = some x → parseMembers (fuel + 1) s = some x) := by
  intro fuel
  induction fuel with
  | zero =>
    refine ⟨?_, ?_, ?_⟩ <;> intro s x h
    · rw [parseValue] at h; cases h
    · rw [parseElements] at h; cases h
    · rw [parseMembers] at h; cases h
  | succ f ih =>
    obtain ⟨ihv, ihe, ihm⟩ := ih
    refine ⟨?_, ?_, ?_⟩
    · intro s x h
      rw [parseValue] at h ⊢
      cases hs : s.dropWhile isWs with
      | nil => rw [hs] at h; cases h
      | cons c r =>
        rw [hs] at h
        simp only at h ⊢
        split_ifs at h ⊢ with h1 h2 h3 h4 h5 h6 h7 h8
        · exact h
        · exact h
        · obtain ⟨p, hp, rfl⟩ := Option.map_eq_some'.mp h
          rw [ihe r p hp]
          rfl
        · exact h
        · obtain ⟨p, hp, rfl⟩ := Option.map_eq_some'.mp h
          rw [ihm r p hp]
          rfl
        · exact h
        · exact h
        · exact h
        · exact h
    · intro s x h
      rw [parseElements] at h ⊢
      cases hv : parseValue f s with
      | none => rw [hv] at h; cases h
      | some p =>
        obtain ⟨v, r⟩ := p
        rw [hv] at h
        rw [ihv s (v, r) hv]
        simp only at h ⊢
        cases hr : r.dropWhile isWs with
        | nil => rw [hr] at h; cases h
        | cons c r1 =>
          rw [hr] at h
          simp only at h ⊢
          split_ifs at h ⊢ with h1 h2
          · obtain ⟨q, hq, rfl⟩ := Option.map_eq_some'.mp h
            rw [ihe r1 q hq]
            rfl
          · exact h
    · intro s x h
      rw [parseMembers] at h ⊢
      cases hs : s.dropWhile isWs with
      | nil => rw [hs] at h; cases h
      | cons q r =>
        rw [hs] at h
        simp only at h ⊢
        split_ifs at h ⊢ with h1
        cases hk : parseChars r with
        | none => rw [hk] at h; cases h
        | some kp =>
          obtain ⟨k, r1⟩ := kp
          rw [hk] at h
          simp only at h ⊢
          cases hr1 : r1.dropWhile isWs with
          | nil => rw [hr1] at h; cases h
          | cons c1 r2 =>
            rw [hr1] at h
            simp only at h ⊢
            split_ifs at h ⊢ with h2
            cases hv : parseValue f r2 with
            | none => rw [hv] at h; cases h
            | some p =>
              obtain ⟨v, r3⟩ := p
              rw [hv] at h
              rw [ihv r2 (v, r3) hv]
              simp only at h ⊢
              cases hr3 : r3.dropWhile isWs with
              | nil => rw [hr3] at h; cases h
              | cons c2 r4 =>
                rw [hr3] at h
                simp only at h ⊢
                split_ifs at h ⊢ with h3 h4
                · obtain ⟨q2, hq, rfl⟩ := Option.map_eq_some'.mp h
                  rw [ihm r4 q2 hq]
                  rfl
                · exact h

theorem parseFuel_mono (f g : Nat) (hfg : f ≤ g) :
    (∀ s x, parseValue f s = some x → parseValue g s = some x) ∧
    (∀ s x, parseElements f s = some x → parseElements g s = some x) ∧
    (∀ s x, parseMembers f s = some x → parseMembers g s = some x) := by
  induction g with
  | zero =>
    have : f = 0 := by omega
    subst this
    exact ⟨fun _ _ h => h, fun _ _ h => h, fun _ _ h => h⟩
  | succ g ih =>
    by_cases hf : f = g + 1
    · subst hf
      exact ⟨fun _ _ h => h, fun _ _ h => h, fun _ _ h => h⟩
    · obtain ⟨a, b, c⟩ := ih (by omega)
      obtain ⟨a2, b2, c2⟩ := parseFuel_succ g
      exact ⟨fun s x h => a2 s x (a s x h), fun s x h => b2 s x (b s x h),
        fun s x h => c2 s x (c s x h)⟩

theorem parseChars_length_aux : ∀ (n : Nat) (s x r : JSString), s.length ≤ n →
    parseChars s = some (x, r) → r.length < s.length := by
  intro n
  induction n with
  | zero =>
    intro s x r hn h
    have : s = [] := List.length_eq_zero.mp (by omega)
    subst this
    rw [parseChars.eq_def] at h
    cases h
  | succ n ih =>
    intro s x r hn h
    have step : ∀ (c : Nat) (t : JSString), t.length ≤ n →
        (parseChars t).map (fun p => (c :: p.1, p.2)) = some (x, r) → r.length < t.length := by
      intro c t ht hm
      cases hp : parseChars t with
      | none => rw [hp] at hm; cases hm
      | some q =>
        obtain ⟨q1, q2⟩ := q
        rw [hp] at hm
        simp only [Option.map_some', Option.some.injEq, Prod.mk.injEq] at hm
        have := ih t q1 q2 ht hp
        rw [← hm.2]
        exact this
    rw [parseChars.eq_def] at h
    cases s with
    | nil => cases h
    | cons c r0 =>
      simp only [List.length_cons] at hn ⊢
      by_cases h1 : c = 0x22
      · simp only [h1, if_true, Option.some.injEq, Prod.mk.injEq] at h
        rw [← h.2]
        omega
      · by_cases h2 : c = 0x5C
        · simp only [h1, h2, if_true] at h
          cases r0 with
          | nil => simp at h
          | cons e r1 =>
            simp only [List.length_cons] at hn ⊢
            by_cases h4 : e = 0x75
            · simp only [h4, if_true] at h
              match r1, h, hn with
              | a :: b :: c1 :: d :: r2, h, hn =>
                simp only [List.length_cons] at hn ⊢
                cases hx : hex4 a b c1 d with
                | none => simp [hx] at h
                | some u =>
                  simp only [hx] at h
                  have := step u r2 (by omega) h
                  omega
              | [], h, _ => simp at h
              | [_], h, _ => simp at h
              | [_, _], h, _ => simp at h
              | [_, _, _], h, _ => simp at h
            · simp only [h4, if_false] at h
              cases hx : escapeChar e with
              | none => simp [hx] at h
              | some u =>
                simp only [hx] at h
                have := step u r1 (by omega) h
                omega
        · by_cases h3 : c < 0x20
          · simp [h1, h2, h3] at h
          · simp only [h1, h2, h3, if_false] at h
            have := step c r0 (by omega) h
            omega

theorem parseChars_length (s x r : JSString) (h : parseChars s = some (x, r)) :
    r.length < s.length :=
  parseChars_length_aux s.length s x r (Nat.le_refl _) h

theorem dropWhile_length_le (q : Nat → Bool) (s : JSString) :
    (s.dropWhile q).length ≤ s.length := by
  induction s with
  | nil => simp
  | cons c r ih =>
    rw [List.dropWhile_cons]
    split
    · simp only [List.length_cons]; omega
    · exact Nat.le_refl _

theorem dropWhile_length_lt (q : Nat → Bool) (s : JSString) (h : s.takeWhile q ≠ []) :
    (s.dropWhile q).length < s.length := by
  cases s with
  | nil => simp at h
  | cons c r =>
    rw [List.takeWhile_cons] at h
    rw [List.dropWhile_cons]
    split
    · have := dropWhile_length_le q r
      simp only [List.length_cons]; omega
    · rename_i hc
      simp [hc] at h

theorem parseFraction_length (s : JSString) (fp : List Nat) (r : JSString)
    (h : parseFraction s = some (fp, r)) : r.length ≤ s.length := by
  unfold parseFraction at h
  cases s with
  | nil =>
    simp only [Option.some.injEq, Prod.mk.injEq] at h
    rw [← h.2]
  | cons c t =>
    have := dropWhile_length_le isDigit t
    simp only at h
    split_ifs at h <;>
      (simp only [Option.some.injEq, Prod.mk.injEq] at h
       rcases h with ⟨_, rfl⟩
       simp only [List.length_cons]
       omega)

theorem parseExponent_length (s : JSString) (e : Int) (r : JSString)
    (h : parseExponent s = some (e, r)) : r.length ≤ s.length := by
  unfold parseExponent at h
  cases s with
  | nil =>
    simp only [Option.some.injEq, Prod.mk.injEq] at h
    rw [← h.2]
  | cons c t =>
    have h4 := dropWhile_length_le isDigit t.tail
    have h5 := dropWhile_length_le isDigit t
    have h6 : t.tail.length ≤ t.length := by simp
    simp only at h
    split_ifs at h <;>
      (simp only [Option.some.injEq, Prod.mk.injEq] at h
       rcases h with ⟨_, rfl⟩
       simp only [List.length_cons]
       omega)

theorem parseNumber_length (s : JSString) (v : Json) (r : JSString)
    (h : parseNumber s = some (v, r)) : r.length < s.length := by
  unfold parseNumber at h
  simp only at h
  have a4 : (if (decide (s.head? = some 0x2D)) = true then s.tail else s).length
      ≤ s.length := by
    split <;> simp
  generalize (if (decide (s.head? = some 0x2D)) = true then s.tail else s) = s1 at h a4
  by_cases h1 : s1.takeWhile isDigit = []
  · simp [h1] at h
  · simp only [h1, if_false] at h
    split_ifs at h
    all_goals
      cases hf : parseFraction (s1.dropWhile isDigit) with
      | none => simp [hf] at h
      | some p =>
        obtain ⟨fp, s2⟩ := p
        simp only [hf] at h
        cases hx : parseExponent s2 with
        | none => simp [hx] at h
        | some q =>
          obtain ⟨ex, s3⟩ := q
          simp only [hx, Option.some.injEq, Prod.mk.injEq] at h
          rw [← h.2]
          have a1 := parseFraction_length _ _ _ hf
          have a2 := parseExponent_length _ _ _ hx
          have a3 := dropWhile_length_lt isDigit _ h1
          omega

theorem expect_length (kw s r : JSString) (h : expect kw s = some r) :
    r.length ≤ s.length := by
  unfold expect at h
  split_ifs at h
  simp only [Option.some.injEq] at h
  rw [← h]
  simp

theorem dropWhile_cons_length (q : Nat → Bool) (s : JSString) (c : Nat) (t : JSString)
    (h : s.dropWhile q = c :: t) : t.length + 1 ≤ s.length := by
  have := dropWhile_length_le q s
  rw [h] at this
  simpa using this

theorem map_eq_some_snd {α β : Type} (o : Option (α × JSString)) (g : α → β) (y : β)
    (r : JSString) (h : o.map (fun p => (g p.1, p.2)) = some (y, r)) :
    ∃ a, o = some (a, r) ∧ g a = y := by
  cases o with
  | none => cases h
  | some p =>
    obtain ⟨a, b⟩ := p
    simp only [Option.map_some', Option.some.injEq, Prod.mk.injEq] at h
    exact ⟨a, by rw [h.2], h.1⟩

theorem parse_length : ∀ fuel : Nat,
    (∀ s v r, parseValue fuel s = some (v, r) → r.length < s.length) ∧
    (∀ s l r, parseElements fuel s = some (l, r) → r.length < s.length) ∧
    (∀ s l r, parseMembers fuel s = some (l, r) → r.length < s.length) := by
  intro fuel
  induction fuel with
  | zero =>
    refine ⟨?_, ?_, ?_⟩ <;> intro s x r h
    · rw [parseValue] at h; cases h
    · rw [parseElements] at h; cases h
    · rw [parseMembers] at h; cases h
  | succ f ih =>
    obtain ⟨ihv, ihe, ihm⟩ := ih
    refine ⟨?_, ?_, ?_⟩
    · intro s v r h
      rw [parseValue] at h
      cases hs : s.dropWhile isWs with
      | nil => rw [hs] at h; cases h
      | cons c t =>
        rw [hs] at h
        have hst := dropWhile_cons_length isWs s c t hs
        have htl : (t.dropWhile isWs).tail.length ≤ t.length := by
          have := dropWhile_length_le isWs t
          simp only [List.length_tail]
          omega
        simp only at h
        split_ifs at h with h1 h2 h3 h4 h5 h6 h7 h8
        · obtain ⟨a, ha, _⟩ := map_eq_some_snd _ _ _ _ h
          have := parseChars_length _ _ _ ha
          omega
        · simp only [Option.some.injEq, Prod.mk.injEq] at h
          rw [← h.2]
          omega
        · obtain ⟨a, ha, _⟩ := map_eq_some_snd _ _ _ _ h
          have := ihe _ _ _ ha
          omega
        · simp only [Option.some.injEq, Prod.mk.injEq] at h
          rw [← h.2]
          omega
        · obtain ⟨a, ha, _⟩ := map_eq_some_snd _ _ _ _ h
          have := ihm _ _ _ ha
          omega
        · obtain ⟨a, ha, hb⟩ := Option.map_eq_some'.mp h
          simp only [Prod.mk.injEq] at hb
          have := expect_length _ _ _ ha
          rw [← hb.2]
          omega
        · obtain ⟨a, ha, hb⟩ := Option.map_eq_some'.mp h
          simp only [Prod.mk.injEq] at hb
          have := expect_length _ _ _ ha
          rw [← hb.2]
          omega
        · obtain ⟨a, ha, hb⟩ := Option.map_eq_some'.mp h
          simp only [Prod.mk.injEq] at hb
          have := expect_length _ _ _ ha
          rw [← hb.2]
          omega
        · have := parseNumber_length _ _ _ h
          simp only [List.length_cons] at this
          omega
    · intro s l r h
      rw [parseElements] at h
      cases hv : parseValue f s with
      | none => rw [hv] at h; cases h
      | some p =>
        obtain ⟨v, r1⟩ := p
        rw [hv] at h
        have h1 := ihv _ _ _ hv
        simp only at h
        cases hr : r1.dropWhile isWs with
        | nil => rw [hr] at h; cases h
        | cons c r2 =>
          rw [hr] at h
          have h2 := dropWhile_cons_length isWs r1 c r2 hr
          simp only at h
          split_ifs at h with h3 h4
          · obtain ⟨a, ha, _⟩ := map_eq_some_snd _ _ _ _ h
            have := ihe _ _ _ ha
            omega
          · simp only [Option.some.injEq, Prod.mk.injEq] at h
            rw [← h.2]
            omega
    · intro s l r h
      rw [parseMembers] at h
      cases hs : s.dropWhile isWs with
      | nil => rw [hs] at h; cases h
      | cons q t =>
        rw [hs] at h
        have hst := dropWhile_cons_length isWs s q t hs
        simp only at h
        split_ifs at h with h1
        cases hk : parseChars t with
        | none => rw [hk] at h; cases h
        | some kp =>
          obtain ⟨k, r1⟩ := kp
          rw [hk] at h
          have hk1 := parseChars_length _ _ _ hk
          simp only at h
          cases hr1 : r1.dropWhile isWs with
          | nil => rw [hr1] at h; cases h
          | cons c1 r2 =>
            rw [hr1] at h
            have hr1l := dropWhile_cons_length isWs r1 c1 r2 hr1
            simp only at h
            split_ifs at h with h2
            cases hv : parseValue f r2 with
            | none => rw [hv] at h; cases h
            | some p =>
              obtain ⟨v, r3⟩ := p
              rw [hv] at h
              have hv1 := ihv _ _ _ hv
              simp only at h
              cases hr3 : r3.dropWhile isWs with
              | nil => rw [hr3] at h; cases h
              | cons c2 r4 =>
                rw [hr3] at h
                have hr3l := dropWhile_cons_length isWs r3 c2 r4 hr3
                simp only at h
                split_ifs at h with h3 h4
                · obtain ⟨a, ha, _⟩ := map_eq_some_snd _ _ _ _ h
                  have := ihm _ _ _ ha
                  omega
                · simp only [Option.some.injEq, Prod.mk.injEq] at h
                  rw [← h.2]
                  omega

theorem parse_fuel_consumed : ∀ fuel : Nat,
    (∀ s v r, parseValue fuel s = some (v, r) →
      parseValue (s.length - r.length) s = some (v, r)) ∧
    (∀ s l r, parseElements fuel s = some (l, r) →
      parseElements (s.length - r.length) s = some (l, r)) ∧
    (∀ s l r, parseMembers fuel s = some (l, r) →
      parseMembers (s.length - r.length) s = some (l, r)) := by
  intro fuel
  induction fuel with
  | zero =>
    refine ⟨?_, ?_, ?_⟩ <;> intro s x r h
    · rw [parseValue] at h; cases h
    · rw [parseElements] at h; cases h
    · rw [parseMembers] at h; cases h
  | succ f ih =>
    obtain ⟨ihv, ihe, ihm⟩ := ih
    obtain ⟨lenv, lene, lenm⟩ := parse_length f
    refine ⟨?_, ?_, ?_⟩
    · intro s v r h
      have hl := (parse_length (f + 1)).1 s v r h
      obtain ⟨k, hk⟩ : ∃ k, s.length - r.length = k + 1 := ⟨s.length - r.length - 1, by omega⟩
      rw [hk]
      rw [parseValue] at h ⊢
      cases hs : s.dropWhile isWs with
      | nil => rw [hs] at h; cases h
      | cons c t =>
        rw [hs] at h
        have hst := dropWhile_cons_length isWs s c t hs
        simp only at h ⊢
        split_ifs at h ⊢ with h1 h2 h3 h4 h5 h6 h7 h8
        · exact h
        · exact h
        · obtain ⟨a, ha, hb⟩ := map_eq_some_snd _ _ _ _ h
          have h9 := lene _ _ _ ha
          rw [(parseFuel_mono _ k (by omega)).2.1 _ _ (ihe _ _ _ ha), ← hb]
          rfl
        · exact h
        · obtain ⟨a, ha, hb⟩ := map_eq_some_snd _ _ _ _ h
          have h9 := lenm _ _ _ ha
          rw [(parseFuel_mono _ k (by omega)).2.2 _ _ (ihm _ _ _ ha), ← hb]
          rfl
        · exact h
        · exact h
        · exact h
        · exact h
    · intro s l r h
      have hl := (parse_length (f + 1)).2.1 s l r h
      obtain ⟨k, hk⟩ : ∃ k, s.length - r.length = k + 1 := ⟨s.length - r.length - 1, by omega⟩
      rw [hk]
      rw [parseElements] at h ⊢
      cases hv : parseValue f s with
      | none => rw [hv] at h; cases h
      | some p =>
        obtain ⟨v, r1⟩ := p
        rw [hv] at h
        have h1 := lenv _ _ _ hv
        simp only at h
        cases hr : r1.dropWhile isWs with
        | nil => rw [hr] at h; cases h
        | cons c r2 =>
          rw [hr] at h
          have h2 := dropWhile_cons_length isWs r1 c r2 hr
          simp only at h
          have hr2 : r.length ≤ r2.length := by
            split_ifs at h with h3 h4
            · obtain ⟨a, ha, _⟩ := map_eq_some_snd _ _ _ _ h
              have := lene _ _ _ ha
              omega
            · simp only [Option.some.injEq, Prod.mk.injEq] at h
              rw [← h.2]
          rw [(parseFuel_mono _ k (by omega)).1 _ _ (ihv _ _ _ hv)]
          simp only [hr]
          split_ifs at h ⊢ with h3 h4
          · obtain ⟨a, ha, hb⟩ := map_eq_some_snd _ _ _ _ h
            have h9 := lene _ _ _ ha
            rw [(parseFuel_mono _ k (by omega)).2.1 _ _ (ihe _ _ _ ha), ← hb]
            rfl
          · exact h
    · intro s l r h
      have hl := (parse_length (f + 1)).2.2 s l r h
      obtain ⟨k, hk⟩ : ∃ k, s.length - r.length = k + 1 := ⟨s.length - r.length - 1, by omega⟩
      rw [hk]
      rw [parseMembers] at h ⊢
      cases hs : s.dropWhile isWs with
      | nil => rw [hs] at h; cases h
      | cons q t =>
        rw [hs] at h
        have hst := dropWhile_cons_length isWs s q t hs
        simp only at h ⊢
        split_ifs at h ⊢ with h1
        cases hk1 : parseChars t with
        | none => rw [hk1] at h; cases h
        | some kp =>
          obtain ⟨key, r1⟩ := kp
          rw [hk1] at h
          have hk2 := parseChars_length _ _ _ hk1
          simp only at h ⊢
          cases hr1 : r1.dropWhile isWs with
          | nil => rw [hr1] at h; cases h
          | cons c1 r2 =>
            rw [hr1] at h
            have hr1l := dropWhile_cons_length isWs r1 c1 r2 hr1
            simp only at h ⊢
            split_ifs at h ⊢ with h2
            cases hv : parseValue f r2 with
            | none => rw [hv] at h; cases h
            | some p =>
              obtain ⟨v, r3⟩ := p
              rw [hv] at h
              have hv1 := lenv _ _ _ hv
              simp only at h
              cases hr3 : r3.dropWhile isWs with
              | nil => rw [hr3] at h; cases h
              | cons c2 r4 =>
                rw [hr3] at h
                have hr3l := dropWhile_cons_length isWs r3 c2 r4 hr3
                simp only at h
                have hr4 : r.length ≤ r4.length := by
                  split_ifs at h with h3 h4
                  · obtain ⟨a, ha, _⟩ := map_eq_some_snd _ _ _ _ h
                    have := lenm _ _ _ ha
                    omega
                  · simp only [Option.some.injEq, Prod.mk.injEq] at h
                    rw [← h.2]
                rw [(parseFuel_mono _ k (by omega)).1 _ _ (ihv _ _ _ hv)]
                simp only [hr3]
                split_ifs at h ⊢ with h3 h4
                · obtain ⟨a, ha, hb⟩ := map_eq_some_snd _ _ _ _ h
                  have h9 := lenm _ _ _ ha
                  rw [(parseFuel_mono _ k (by omega)).2.2 _ _ (ihm _ _ _ ha), ← hb]
                  rfl
                · exact h

/-- The fuel `JSON.parse` gives the parser is enough: when any amount of fuel makes the
parser read a value off the text, the amount `JSON.parse` uses reads the same value. -/
theorem parseValue_fuel_enough (fuel : Nat) (s : JSString) (v : Json) (r : JSString)
    (h : parseValue fuel s = some (v, r)) :
    parseValue (s.length + 1) s = some (v, r) :=
  (parseFuel_mono _ _ (by omega)).1 _ _ ((parse_fuel_consumed fuel).1 s v r h)

/-- `JSON.parse` throws only on a text that no amount of fuel makes the parser read as one
value followed by whitespace alone. -/
theorem parse_error_iff (text : JSString) :
    (∃ e, JSON.parse text = .error e) ↔
      ∀ fuel v r, parseValue fuel text = some (v, r) → r.dropWhile isWs ≠ [] := by
  constructor
  · rintro ⟨e, he⟩ fuel v r h hr
    have h2 := parseValue_fuel_enough fuel text v r h
    simp [JSON.parse, h2, hr] at he
  · intro h
    unfold JSON.parse
    cases hp : parseValue (text.length + 1) text with
    | none => exact ⟨_, rfl⟩
    | some p =>
      obtain ⟨v, r⟩ := p
      have := h _ v r hp
      simp only [this, if_false]
      exact ⟨_, rfl⟩

/-! ## Numbers as the engine shows them -/

/-- `Number::toString` at numbers with a fraction or an exponent: the engine's texts. -/
theorem numberToString_examples :
    numberToString 15 (-1) = js "1.5" ∧
    numberToString 45 (-1) = js "4.5" ∧
    numberToString (-1999) (-2) = js "-19.99" ∧
    numberToString 150 (-2) = js "1.5" ∧
    numberToString 1 21 = js "1e+21" ∧
    numberToString 1 (-7) = js "1e-7" ∧
    numberToString 1 (-400) = js "0" ∧
    numberToString 1 999 = js "Infinity" ∧
    numberToString 30000000000000004 (-17) = js "0.30000000000000004" ∧
    numberToString 1234567890123456789 (-19) = js "0.12345678901234568" := by
  refine ⟨by rfl, by rfl, by rfl, by rfl, by rfl, by rfl, by rfl, by rfl, by rfl, by rfl⟩

/-- `JSON.stringify` at numbers with a fraction or an exponent. -/
theorem stringify_number_examples :
    stringifyValue (.num 45 (-1)) = js "4.5" ∧
    stringifyValue (.num 5 (-2)) = js "0.05" ∧
    stringifyValue (.num (-1999) (-2)) = js "-19.99" ∧
    stringifyValue (.num 15 (-8)) = js "1.5e-7" ∧
    stringifyValue (.num 1 21) = js "1e+21" ∧
    stringifyValue (.num 1 999) = js "null" ∧
    stringifyValue (.obj [(js "rating", .num 45 (-1))]) = js "\x7b\"rating\":4.5\x7d" := by
  refine ⟨by rfl, by rfl, by rfl, by rfl, by rfl, by rfl, by rfl⟩

/-- Truth value of numbers: a literal that rounds to zero is falsy. -/
theorem truthy_number_examples :
    truthy (some (.num 0 0)) = false ∧
    truthy (some (.num 1 (-400))) = false ∧
    truthy (some (.num 5 (-324))) = true ∧
    truthy (some (.num 15 (-1))) = true := by
  refine ⟨by rfl, by rfl, by rfl, by rfl⟩

/-- A numeric `message` in a failed response: `1.5` gives the message `1.5`, and `1e-400`,
which is `0` in binary64 and so falsy, gives `Request failed`. -/
theorem request_number_message_examples :
    (API.request (fun _ => .ok ⟨401, js "\x7b\"message\":1.5\x7d"⟩) ⟨[], [], []⟩
        (js "/books")).1 = .error ⟨ErrorKind.Error, js "1.5"⟩ ∧
    (API.request (fun _ => .ok ⟨401, js "\x7b\"message\":1e-400\x7d"⟩) ⟨[], [], []⟩
        (js "/books")).1 = .error ⟨ErrorKind.Error, js "Request failed"⟩ := by
  refine ⟨by rfl, by rfl⟩

/-! ## Theorems -/

/-- The element right after a prefix. -/
theorem get?_append_cons {α : Type} (l : List α) (a : α) (t : List α) :
    (l ++ a :: t).get? l.length = some a := by
  induction l with
  | nil => rfl
  | cons x xs ih => simpa using ih

/-- The log after `API.request`: the request dispatched, then one `console.error` entry
when the call fails. -/
theorem request_log (net : Net) (w : World) (endpoint : JSString) (options : Options) :
    (API.request net w endpoint options).2.log =
      w.log ++ Event.fetch (API.config w endpoint options) ::
        (match (API.request net w endpoint options).1 with
         | .ok _ => []
         | .error e => [Event.consoleError (js "API Request Error:") e]) := by
  cases h : API.attempt net (API.config w endpoint options) <;>
    simp [API.request, h, World.emit]

/-- `API.request` leaves the store and the location as they were. -/
theorem request_store (net : Net) (w : World) (endpoint : JSString) (options : Options) :
    (API.request net w endpoint options).2.store = w.store ∧
      (API.request net w endpoint options).2.href = w.href := by
  cases h : API.attempt net (API.config w endpoint options) <;>
    simp [API.request, h, World.emit]

/-- The outcome of `API.request` is the outcome of its `try` block. -/
theorem request_outcome (net : Net) (w : World) (endpoint : JSString) (options : Options) :
    (API.request net w endpoint options).1 = API.attempt net (API.config w endpoint options) := by
  cases h : API.attempt net (API.config w endpoint options) <;> simp [API.request, h]

/-- C1 (as stated, refuted): a 401 response whose payload is `{"message":""}` has a
`message` field, the empty string, yet the call fails with the message
`Request failed`, not with the field. And for the payload `{"message":{"toString":1}}` the
call fails with the `TypeError` of the string conversion, not with an `Error` made from
the field. -/
theorem request_empty_message_counterexample :
    JSON.parse (js "\x7b\"message\":\"\"\x7d") = .ok (.obj [(js "message", .str [])]) ∧
    (API.request (fun _ => .ok ⟨401, js "\x7b\"message\":\"\"\x7d"⟩) ⟨[], [], []⟩ (js "/books")).1
      = .error ⟨ErrorKind.Error, js "Request failed"⟩ ∧
    (⟨ErrorKind.Error, js "Request failed"⟩ : JSError) ≠ ⟨ErrorKind.Error, []⟩ ∧
    JSON.parse (js "\x7b\"message\":\x7b\"toString\":1\x7d\x7d") =
      .ok (.obj [(js "message", .obj [(js "toString", .num 1 0)])]) ∧
    (∃ text, (API.request (fun _ => .ok ⟨401, js "\x7b\"message\":\x7b\"toString\":1\x7d\x7d"⟩)
        ⟨[], [], []⟩ (js "/books")).1 = .error ⟨ErrorKind.TypeError, text⟩) := by
  refine ⟨by rfl, by rfl, by decide, by rfl, ⟨[], by rfl⟩⟩

/-- C1 (amended): when the response is not 2xx and its body parses to a value `d`, the
call fails. With `m` the `message` field of `d`: the error is an `Error` whose message is
the string form of `m || 'Request failed'`, so `m` itself when it is a non-empty string and
`Request failed` when it is absent or falsy; when that conversion to a string throws (an
object with a `toString` member, as in `{"message":{"toString":1}}`), or when `d` is `null`
and has no fields to read, the call fails with the error thrown there. -/
theorem request_non2xx_fails (net : Net) (w : World) (endpoint : JSString) (options : Options)
    (response : Response) (d : Json)
    (hnet : net (API.config w endpoint options) = .ok response)
    (hok : response.ok = false)
    (hbody : JSON.parse response.body = .ok d) :
    (∃ e, (API.request net w endpoint options).1 = .error e) ∧
    (∀ e, getProp (some d) (js "message") = .error e →
      (API.request net w endpoint options).1 = .error e) ∧
    (∀ m, getProp (some d) (js "message") = .ok m →
      (∀ s, m = some (.str s) → s ≠ [] →
        (API.request net w endpoint options).1 = .error ⟨ErrorKind.Error, s⟩) ∧
      (truthy m = false →
        (API.request net w endpoint options).1 =
          .error ⟨ErrorKind.Error, js "Request failed"⟩) ∧
      (∀ s, toStringValue (orElse m (some (.str (js "Request failed")))) = .ok s →
        (API.request net w endpoint options).1 = .error ⟨ErrorKind.Error, s⟩) ∧
      (∀ e, toStringValue (orElse m (some (.str (js "Request failed")))) = .error e →
        (API.request net w endpoint options).1 = .error e)) := by
  have hprop : ∀ e, getProp (some d) (js "message") = .error e →
      (API.request net w endpoint options).1 = .error e := by
    intro e he
    rw [request_outcome]
    simp [API.attempt, hnet, API.handleResponse, Response.json, hbody, hok, he]
  have key : ∀ m, getProp (some d) (js "message") = .ok m →
      ∀ s, toStringValue (orElse m (some (.str (js "Request failed")))) = .ok s →
      (API.request net w endpoint options).1 = .error ⟨ErrorKind.Error, s⟩ := by
    intro m hm s hs
    rw [request_outcome]
    simp [API.attempt, hnet, API.handleResponse, Response.json, hbody, hok, hm, hs]
  have thrown : ∀ m, getProp (some d) (js "message") = .ok m →
      ∀ e, toStringValue (orElse m (some (.str (js "Request failed")))) = .error e →
      (API.request net w endpoint options).1 = .error e := by
    intro m hm e he
    rw [request_outcome]
    simp [API.attempt, hnet, API.handleResponse, Response.json, hbody, hok, hm, he]
  refine ⟨?_, hprop, ?_⟩
  · cases hm : getProp (some d) (js "message") with
    | error e => exact ⟨e, hprop e hm⟩
    | ok m =>
      cases hs : toStringValue (orElse m (some (.str (js "Request failed")))) with
      | error e => exact ⟨e, thrown m hm e hs⟩
      | ok t => exact ⟨_, key m hm t hs⟩
  · intro m hm
    refine ⟨?_, ?_, key m hm, thrown m hm⟩
    · intro s hms hs
      apply key m hm
      subst hms
      simp [orElse, truthy, hs, toStringValue, toStringJson]
    · intro ht
      apply key m hm
      simp [orElse, ht, toStringValue, toStringJson]

/-- C1 (amended), at the example of the specification: status 401 with the body
`{"message":"bad credentials"}` fails with the message `bad credentials`; and status 401
with the body `{"message":{"toString":1}}` fails with a `TypeError`. -/
theorem request_non2xx_fails_witness :
    (API.request (fun _ => .ok ⟨401, js "\x7b\"message\":\"bad credentials\"\x7d"⟩) ⟨[], [], []⟩
        (js "/auth/login")).1 = .error ⟨ErrorKind.Error, js "bad credentials"⟩ ∧
    (API.request (fun _ => .ok ⟨401, js "\x7b\"message\":\x7b\"toString\":1\x7d\x7d"⟩) ⟨[], [], []⟩
        (js "/auth/login")).1 = .error typeError :=
  ⟨((request_non2xx_fails (fun _ => .ok ⟨401, js "\x7b\"message\":\"bad credentials\"\x7d"⟩)
      ⟨[], [], []⟩ (js "/auth/login") {} ⟨401, js "\x7b\"message\":\"bad credentials\"\x7d"⟩
      (.obj [(js "message", .str (js "bad credentials"))])
      rfl (by rfl) (by rfl)).2.2 (some (.str (js "bad credentials"))) (by rfl)).1
      (js "bad credentials") rfl (by decide),
   ((request_non2xx_fails (fun _ => .ok ⟨401, js "\x7b\"message\":\x7b\"toString\":1\x7d\x7d"⟩)
      ⟨[], [], []⟩ (js "/auth/login") {} ⟨401, js "\x7b\"message\":\x7b\"toString\":1\x7d\x7d"⟩
      (.obj [(js "message", .obj [(js "toString", .num 1 0)])])
      rfl (by rfl) (by rfl)).2.2 (some (.obj [(js "toString", .num 1 0)])) (by rfl)).2.2.2
      typeError (by rfl)⟩

/-- C2: when the response is 2xx and its body parses to `d`, the call returns `d`,
whatever `d` holds. -/
theorem request_2xx_returns_payload (net : Net) (w : World) (endpoint : JSString)
    (options : Options) (response : Response) (d : Json)
    (hnet : net (API.config w endpoint options) = .ok response)
    (hok : response.ok = true)
    (hbody : JSON.parse response.body = .ok d) :
    (API.request net w endpoint options).1 = .ok d := by
  rw [request_outcome]
  simp [API.attempt, hnet, API.handleResponse, Response.json, hbody, hok]

/-- C2, at the example of the specification: status 200 with the body
`{"success":false,"message":"duplicate isbn"}` is returned, not thrown. -/
theorem request_2xx_returns_payload_witness :
    (API.request (fun _ => .ok ⟨200, js "\x7b\"success\":false,\"message\":\"duplicate isbn\"\x7d"⟩)
        ⟨[], [], []⟩ (js "/books")).1 =
      .ok (.obj [(js "success", .bool false), (js "message", .str (js "duplicate isbn"))]) :=
  request_2xx_returns_payload
    (fun _ => .ok ⟨200, js "\x7b\"success\":false,\"message\":\"duplicate isbn\"\x7d"⟩)
    ⟨[], [], []⟩ (js "/books") {}
    ⟨200, js "\x7b\"success\":false,\"message\":\"duplicate isbn\"\x7d"⟩
    (.obj [(js "success", .bool false), (js "message", .str (js "duplicate isbn"))])
    rfl (by rfl) (by rfl)

/-- C3 (as stated, refuted): with an empty store, so with no token, the request built for
`GET /books` still has an `Authorization` header; its value is the empty string. -/
theorem config_authorization_counterexample :
    Store.getItem [] (js "token") = none ∧
    (API.config ⟨[], [], []⟩ (js "/books") { method := some (js "GET") }).init.headers =
      some [(js "Content-Type", js "application/json"), (js "Authorization", [])] ∧
    Record.get [(js "Content-Type", js "application/json"), (js "Authorization", [])]
      (js "Authorization") = some [] := by
  refine ⟨by rfl, by rfl, by rfl⟩

/-- C3 (amended): `API.request` and the four wrappers dispatch the request `API.config`
builds, and for every method, body and store that request has exactly the headers
`Content-Type: application/json` and `Authorization`; the value of `Authorization` is
`Bearer ` followed by the stored token when a non-empty token is stored, and the empty
string when no token is stored or the stored token is empty. -/
theorem config_headers (net : Net) (w : World) (endpoint : JSString)
    (method body : Option JSString) (payload : Option Json) :
    (∃ auth,
      (API.config w endpoint { method := method, body := body }).init.headers =
        some [(js "Content-Type", js "application/json"), (js "Authorization", auth)] ∧
      (∀ t, w.store.getItem (js "token") = some t → t ≠ [] → auth = js "Bearer " ++ t) ∧
      (w.store.getItem (js "token") = none ∨ w.store.getItem (js "token") = some [] →
        auth = [])) ∧
    (API.request net w endpoint { method := method, body := body }).2.log.get? w.log.length =
      some (.fetch (API.config w endpoint { method := method, body := body })) ∧
    (API.get net w endpoint).2.log.get? w.log.length =
      some (.fetch (API.config w endpoint { method := some (js "GET"), body := none })) ∧
    (API.post net w endpoint payload).2.log.get? w.log.length =
      some (.fetch (API.config w endpoint
        { method := some (js "POST"), body := JSON.stringify payload })) ∧
    (API.put net w endpoint payload).2.log.get? w.log.length =
      some (.fetch (API.config w endpoint
        { method := some (js "PUT"), body := JSON.stringify payload })) ∧
    (API.delete net w endpoint).2.log.get? w.log.length =
      some (.fetch (API.config w endpoint { method := some (js "DELETE"), body := none })) := by
  refine ⟨?_, ?_, ?_, ?_, ?_, ?_⟩
  · cases h : w.store.getItem (js "token") with
    | none => exact ⟨[], by simp [API.config, h, Record.spread], by simp, by simp⟩
    | some t =>
      by_cases ht : t = []
      · exact ⟨[], by simp [API.config, h, ht, Record.spread], by simp [ht], by simp⟩
      · exact ⟨js "Bearer " ++ t, by simp [API.config, h, ht, Record.spread],
          by simp, by simp [ht]⟩
  all_goals
    simp only [API.get, API.post, API.put, API.delete, request_log]
    exact get?_append_cons _ _ _

/-- C4 (as stated, refuted): a 200 response with an empty body and a 401 response with the
body `{}` both make the call fail, but with error objects of different classes, a
`SyntaxError` and an `Error`, which a caller can tell apart. -/
theorem request_error_kind_counterexample :
    (API.request (fun _ => .ok ⟨200, []⟩) ⟨[], [], []⟩ (js "/books")).1
      = .error ⟨ErrorKind.SyntaxError, []⟩ ∧
    (API.request (fun _ => .ok ⟨401, js "\x7b\x7d"⟩) ⟨[], [], []⟩ (js "/books")).1
      = .error ⟨ErrorKind.Error, js "Request failed"⟩ ∧
    (⟨ErrorKind.SyntaxError, []⟩ : JSError).kind ≠
      (⟨ErrorKind.Error, js "Request failed"⟩ : JSError).kind := by
  refine ⟨by rfl, by rfl, by decide⟩

/-- C4 (amended): if `fetch` rejects with `e` the call fails with `e`; if the body of the
response does not parse the call fails with the parser's error, whatever the status, also
when the status is not 2xx (the body is parsed before the status is looked at). A non-2xx
response with a body that parses fails too, and all three failures are rejections of the
same promise, each carrying the error object of the step that failed, unchanged. -/
theorem request_failure (net : Net) (w : World) (endpoint : JSString) (options : Options) :
    (∀ e, net (API.config w endpoint options) = .error e →
      (API.request net w endpoint options).1 = .error e) ∧
    (∀ response e, net (API.config w endpoint options) = .ok response →
      JSON.parse response.body = .error e →
      (API.request net w endpoint options).1 = .error e ∧ e = syntaxError) ∧
    (∀ response d, net (API.config w endpoint options) = .ok response →
      JSON.parse response.body = .ok d → response.ok = false →
      ∃ e, (API.request net w endpoint options).1 = .error e) := by
  refine ⟨?_, ?_, ?_⟩
  · intro e he
    rw [request_outcome]
    simp [API.attempt, he]
  · intro response e hr he
    rw [request_outcome]
    refine ⟨by simp [API.attempt, hr, API.handleResponse, Response.json, he], ?_⟩
    unfold JSON.parse at he
    split at he
    · split at he <;> simp_all
    · simp_all
  · intro response d hr hd hok
    rw [request_outcome]
    simp only [API.attempt, hr, API.handleResponse, Response.json, hd, hok]
    cases getProp (some d) (js "message") with
    | error e => exact ⟨e, by simp⟩
    | ok m =>
      cases h : toStringValue (orElse m (some (.str (js "Request failed")))) with
      | error e => exact ⟨e, by simp [h]⟩
      | ok msg => exact ⟨⟨ErrorKind.Error, msg⟩, by simp [h]⟩

/-- C3 (amended), at a store holding the token `abc`: the request of `GET /books` carries
`Authorization: Bearer abc`. -/
theorem config_headers_witness :
    (API.config ⟨[(js "token", js "abc")], [], []⟩ (js "/books")
        { method := some (js "GET") }).init.headers =
      some [(js "Content-Type", js "application/json"),
        (js "Authorization", js "Bearer abc")] := by
  obtain ⟨auth, h1, h2, _⟩ :=
    (config_headers (fun _ => .error typeError) ⟨[(js "token", js "abc")], [], []⟩
      (js "/books") (some (js "GET")) none none).1
  rw [h1, h2 (js "abc") (by rfl) (by decide)]
  rfl

/-- C4 (amended), at a 200 response with an empty body and at a rejected `fetch`: the call
fails with the parser's `SyntaxError`, respectively with the rejection of `fetch`. -/
theorem request_failure_witness :
    (API.request (fun _ => .ok ⟨200, []⟩) ⟨[], [], []⟩ (js "/books")).1 = .error syntaxError ∧
    (API.request (fun _ => .error typeError) ⟨[], [], []⟩ (js "/books")).1 =
      .error typeError :=
  ⟨((request_failure (fun _ => .ok ⟨200, []⟩) ⟨[], [], []⟩ (js "/books") {}).2.1
      ⟨200, []⟩ syntaxError rfl (by rfl)).1,
   (request_failure (fun _ => .error typeError) ⟨[], [], []⟩ (js "/books") {}).1
      typeError rfl⟩

/-- Reading a key of the store after removing another one. -/
theorem getItem_removeItem_ne (st : Store) (k key : JSString) (h : key ≠ k) :
    (Store.removeItem st k).getItem key = st.getItem key := by
  induction st with
  | nil => rfl
  | cons p rest ih =>
    obtain ⟨a, b⟩ := p
    by_cases ha : a = k
    · subst ha
      have hne : ¬ a = key := fun h2 => h h2.symm
      simpa [Store.removeItem, Store.getItem, hne] using ih
    · by_cases hk : a = key
      · subst hk
        simp [Store.removeItem, List.filter_cons, Store.getItem, ha]
      · simpa [Store.removeItem, List.filter_cons, Store.getItem, ha, hk] using ih

/-- A removed key is absent. -/
theorem getItem_removeItem_self (st : Store) (k : JSString) :
    (Store.removeItem st k).getItem k = none := by
  induction st with
  | nil => rfl
  | cons p rest ih =>
    obtain ⟨a, b⟩ := p
    by_cases ha : a = k
    · simpa [Store.removeItem, Store.getItem, ha] using ih
    · simpa [Store.removeItem, Store.getItem, ha] using ih

/-- A key just written holds the value written. -/
theorem getItem_setItem_self (st : Store) (k v : JSString) :
    (Store.setItem st k v).getItem k = some v := by
  simp [Store.setItem, Store.getItem]

/-- Writing a key leaves the other keys as they were. -/
theorem getItem_setItem_ne (st : Store) (k v key : JSString) (h : key ≠ k) :
    (Store.setItem st k v).getItem key = st.getItem key := by
  have hne : ¬ k = key := fun h2 => h h2.symm
  simp [Store.setItem, Store.getItem, hne, getItem_removeItem_ne st k key h]

/-- The store after `logout`: the store before, without `token` and `user`. -/
theorem logout_store (net : Net) (w : World) :
    (logout net w).store = (w.store.removeItem (js "token")).removeItem (js "user") := by
  unfold logout
  have hs := (request_store net w (js "/auth/logout")
    { method := some (js "POST"), body := JSON.stringify (some (.obj [])) }).1
  simp only [API.post]
  cases h : (API.request net w (js "/auth/logout")
      { method := some (js "POST"), body := JSON.stringify (some (.obj [])) }).1 <;>
    simp [World.navigate, World.removeItem, World.emit, hs]

/-- After `logout` the store has no `token` entry. -/
theorem logout_removes_token (net : Net) (w : World) :
    (logout net w).store.getItem (js "token") = none := by
  rw [logout_store, getItem_removeItem_ne _ _ _ (by decide), getItem_removeItem_self]

/-- C5: whatever the store held and however the logout notification settles, after
`logout` the store has no `token` and no `user` entry, every other key reads as before,
and the location is `/index.html`. The effects are exactly these, in this order: the
dispatch of `POST /auth/logout` with the body `{}` (built while the token was still
stored); when the attempt settles with a failure `e` (a rejected `fetch`, a body that
does not parse, a non-2xx response) the two console entries of that failure, and none
when it settles with a payload; only then the two removals and the navigation. -/
theorem logout_clears_session (net : Net) (w : World) :
    (logout net w).store.getItem (js "token") = none ∧
    (logout net w).store.getItem (js "user") = none ∧
    (∀ key, key ≠ js "token" → key ≠ js "user" →
      (logout net w).store.getItem key = w.store.getItem key) ∧
    (logout net w).href = js "/index.html" ∧
    (API.config w (js "/auth/logout")
        { method := some (js "POST"), body := some (js "\x7b\x7d") }).url =
      js "http://localhost:8080/api/auth/logout" ∧
    (API.config w (js "/auth/logout")
        { method := some (js "POST"), body := some (js "\x7b\x7d") }).init.method =
      some (js "POST") ∧
    (API.config w (js "/auth/logout")
        { method := some (js "POST"), body := some (js "\x7b\x7d") }).init.body =
      some (js "\x7b\x7d") ∧
    (logout net w).log =
      w.log ++ Event.fetch (API.config w (js "/auth/logout")
          { method := some (js "POST"), body := some (js "\x7b\x7d") }) ::
        ((match API.attempt net (API.config w (js "/auth/logout")
              { method := some (js "POST"), body := some (js "\x7b\x7d") }) with
          | .ok _ => []
          | .error e => [Event.consoleError (js "API Request Error:") e,
              Event.consoleError (js "Logout error:") e]) ++
          [Event.removeItem (js "token"), Event.removeItem (js "user"),
            Event.navigate (js "/index.html")]) ∧
    (∀ e, net (API.config w (js "/auth/logout")
          { method := some (js "POST"), body := some (js "\x7b\x7d") }) = .error e →
      (logout net w).log =
        w.log ++ [Event.fetch (API.config w (js "/auth/logout")
            { method := some (js "POST"), body := some (js "\x7b\x7d") }),
          Event.consoleError (js "API Request Error:") e,
          Event.consoleError (js "Logout error:") e,
          Event.removeItem (js "token"), Event.removeItem (js "user"),
          Event.navigate (js "/index.html")]) ∧
    (∀ response, net (API.config w (js "/auth/logout")
          { method := some (js "POST"), body := some (js "\x7b\x7d") }) = .ok response →
      response.ok = false →
      ∃ e, (logout net w).log =
        w.log ++ [Event.fetch (API.config w (js "/auth/logout")
            { method := some (js "POST"), body := some (js "\x7b\x7d") }),
          Event.consoleError (js "API Request Error:") e,
          Event.consoleError (js "Logout error:") e,
          Event.removeItem (js "token"), Event.removeItem (js "user"),
          Event.navigate (js "/index.html")]) ∧
    (∀ response d, net (API.config w (js "/auth/logout")
          { method := some (js "POST"), body := some (js "\x7b\x7d") }) = .ok response →
      response.ok = true → JSON.parse response.body = .ok d →
      (logout net w).log =
        w.log ++ [Event.fetch (API.config w (js "/auth/logout")
            { method := some (js "POST"), body := some (js "\x7b\x7d") }),
          Event.removeItem (js "token"), Event.removeItem (js "user"),
          Event.navigate (js "/index.html")]) := by
  have hb : JSON.stringify (some (.obj [])) = some (js "\x7b\x7d") := by rfl
  have hlog : ∀ outcome, API.attempt net (API.config w (js "/auth/logout")
        { method := some (js "POST"), body := some (js "\x7b\x7d") }) = outcome →
      (logout net w).log =
        w.log ++ Event.fetch (API.config w (js "/auth/logout")
            { method := some (js "POST"), body := some (js "\x7b\x7d") }) ::
          ((match outcome with
            | .ok _ => []
            | .error e => [Event.consoleError (js "API Request Error:") e,
                Event.consoleError (js "Logout error:") e]) ++
            [Event.removeItem (js "token"), Event.removeItem (js "user"),
              Event.navigate (js "/index.html")]) := by
    intro outcome ho
    unfold logout
    simp only [API.post, hb]
    cases outcome with
    | ok d =>
      simp [API.request, ho, World.navigate, World.removeItem, World.emit]
    | error e =>
      simp [API.request, ho, World.navigate, World.removeItem, World.emit]
  refine ⟨?_, ?_, ?_, ?_, by rfl, by rfl, by rfl, hlog _ rfl, ?_, ?_, ?_⟩
  · rw [logout_store, getItem_removeItem_ne _ _ _ (by decide), getItem_removeItem_self]
  · rw [logout_store, getItem_removeItem_self]
  · intro key h1 h2
    rw [logout_store, getItem_removeItem_ne _ _ _ h2, getItem_removeItem_ne _ _ _ h1]
  · simp [logout, World.navigate]
  · intro e he
    rw [hlog (.error e) (by simp [API.attempt, he])]
    simp
  · intro response hr hok
    cases ha : API.handleResponse response with
    | ok d =>
      exfalso
      unfold API.handleResponse at ha
      cases hj : response.json with
      | error e => simp [hj] at ha
      | ok data =>
        simp only [hj, hok, Bool.not_false, if_true] at ha
        cases hm : getProp (some data) (js "message") with
        | error e => simp [hm] at ha
        | ok m =>
          simp only [hm] at ha
          cases ht : toStringValue (orElse m (some (.str (js "Request failed")))) with
          | error e => simp [ht] at ha
          | ok t => simp [ht] at ha
    | error e =>
      refine ⟨e, ?_⟩
      rw [hlog (.error e) (by simp [API.attempt, hr, ha])]
      simp
  · intro response d hr hok hd
    rw [hlog (.ok d) (by simp [API.attempt, hr, API.handleResponse, Response.json, hd, hok])]
    simp

/-- C5, at a store holding a session and a `theme` entry: with a network that rejects the
notification the session is gone, the `theme` entry stays, and the removals follow the two
console entries of the failure; with a network that answers `200 {}` the removals follow
the dispatch directly. -/
theorem logout_clears_session_witness :
    (logout (fun _ => .error typeError)
        ⟨[(js "token", js "abc"), (js "theme", js "dark"), (js "user", js "\x7b\x7d")],
          js "/admin.html", []⟩).store.getItem (js "theme") = some (js "dark") ∧
    (logout (fun _ => .error typeError)
        ⟨[(js "token", js "abc"), (js "theme", js "dark"), (js "user", js "\x7b\x7d")],
          js "/admin.html", []⟩).store.getItem (js "token") = none ∧
    (logout (fun _ => .error typeError)
        ⟨[(js "token", js "abc"), (js "theme", js "dark"), (js "user", js "\x7b\x7d")],
          js "/admin.html", []⟩).log =
      [Event.fetch (API.config
          ⟨[(js "token", js "abc"), (js "theme", js "dark"), (js "user", js "\x7b\x7d")],
            js "/admin.html", []⟩
          (js "/auth/logout") { method := some (js "POST"), body := some (js "\x7b\x7d") }),
        Event.consoleError (js "API Request Error:") typeError,
        Event.consoleError (js "Logout error:") typeError,
        Event.removeItem (js "token"), Event.removeItem (js "user"),
        Event.navigate (js "/index.html")] ∧
    (logout (fun _ => .ok ⟨200, js "\x7b\x7d"⟩)
        ⟨[(js "token", js "abc"), (js "theme", js "dark"), (js "user", js "\x7b\x7d")],
          js "/admin.html", []⟩).log =
      [Event.fetch (API.config
          ⟨[(js "token", js "abc"), (js "theme", js "dark"), (js "user", js "\x7b\x7d")],
            js "/admin.html", []⟩
          (js "/auth/logout") { method := some (js "POST"), body := some (js "\x7b\x7d") }),
        Event.removeItem (js "token"), Event.removeItem (js "user"),
        Event.navigate (js "/index.html")] :=
  ⟨((logout_clears_session (fun _ => .error typeError)
      ⟨[(js "token", js "abc"), (js "theme", js "dark"), (js "user", js "\x7b\x7d")],
        js "/admin.html", []⟩).2.2.1 (js "theme") (by decide) (by decide)).trans (by rfl),
   (logout_clears_session (fun _ => .error typeError)
      ⟨[(js "token", js "abc"), (js "theme", js "dark"), (js "user", js "\x7b\x7d")],
        js "/admin.html", []⟩).1,
   (logout_clears_session (fun _ => .error typeError)
      ⟨[(js "token", js "abc"), (js "theme", js "dark"), (js "user", js "\x7b\x7d")],
        js "/admin.html", []⟩).2.2.2.2.2.2.2.2.1 typeError rfl,
   (logout_clears_session (fun _ => .ok ⟨200, js "\x7b\x7d"⟩)
      ⟨[(js "token", js "abc"), (js "theme", js "dark"), (js "user", js "\x7b\x7d")],
        js "/admin.html", []⟩).2.2.2.2.2.2.2.2.2.2 ⟨200, js "\x7b\x7d"⟩ (.obj []) rfl
        (by rfl) (by rfl)⟩

/-- C6 (as stated, refuted): a store whose `token` entry is the empty string has a token
entry, yet `isAuthenticated` returns false. -/
theorem isAuthenticated_empty_token_counterexample :
    Store.getItem [(js "token", [])] (js "token") = some [] ∧
    isAuthenticated ⟨[(js "token", [])], [], []⟩ = false := by
  refine ⟨by rfl, by rfl⟩

/-- C6 (amended): `isAuthenticated` returns true exactly when the store has a `token`
entry whose string is not empty; nothing else of the token is looked at. -/
theorem isAuthenticated_iff (w : World) :
    isAuthenticated w = true ↔ ∃ t, w.store.getItem (js "token") = some t ∧ t ≠ [] := by
  unfold isAuthenticated
  cases h : w.store.getItem (js "token") with
  | none => simp
  | some t => simp

/-- C7 (as stated, refuted): after the login write of the empty string as token,
`isAuthenticated` returns false. -/
theorem isAuthenticated_after_empty_write_counterexample :
    isAuthenticated ((⟨[], [], []⟩ : World).setItem (js "token") []) = false := by
  rfl

/-- C7 (amended): after the write `localStorage.setItem('token', t)` of a non-empty string
`t`, `isAuthenticated` returns true, and after `logout` it returns false, whatever the
store held before. -/
theorem isAuthenticated_after_login_logout (net : Net) (w : World) (t : JSString)
    (ht : t ≠ []) :
    isAuthenticated (w.setItem (js "token") t) = true ∧
    isAuthenticated (logout net w) = false := by
  constructor
  · simp [isAuthenticated, World.setItem, getItem_setItem_self, ht]
  · simp [isAuthenticated, (logout_removes_token net w)]

/-- C7 (amended), at the token `abc` written over a store that held another session. -/
theorem isAuthenticated_after_login_logout_witness :
    isAuthenticated ((⟨[(js "token", js "old")], [], []⟩ : World).setItem (js "token")
      (js "abc")) = true ∧
    isAuthenticated (logout (fun _ => .error typeError)
      ⟨[(js "token", js "old")], [], []⟩) = false :=
  isAuthenticated_after_login_logout (fun _ => .error typeError)
    ⟨[(js "token", js "old")], [], []⟩ (js "abc") (by decide)

/-- C8 (as stated, refuted): with the stored user string `{`, which is not valid JSON,
`getCurrentUser` does not return `null`: it throws the parser's `SyntaxError`. -/
theorem getCurrentUser_invalid_counterexample :
    getCurrentUser ⟨[(js "user", js "\x7b")], [], []⟩ = .error syntaxError ∧
    getCurrentUser ⟨[(js "user", js "\x7b")], [], []⟩ ≠ .ok .null := by
  refine ⟨by rfl, ?_⟩
  intro h
  have h2 : getCurrentUser ⟨[(js "user", js "\x7b")], [], []⟩ = .error syntaxError := by rfl
  rw [h2] at h
  cases h

/-- C8 (amended): `getCurrentUser` returns `null` when no user entry is stored and when
the stored string is empty, and returns the deserialized profile when the stored string is
valid JSON; when the stored string is not empty and is not valid JSON it throws the
parser's error. -/
theorem getCurrentUser_cases (w : World) :
    (w.store.getItem (js "user") = none → getCurrentUser w = .ok .null) ∧
    (w.store.getItem (js "user") = some [] → getCurrentUser w = .ok .null) ∧
    (∀ s v, w.store.getItem (js "user") = some s → JSON.parse s = .ok v →
      getCurrentUser w = .ok v) ∧
    (∀ s e, w.store.getItem (js "user") = some s → s ≠ [] → JSON.parse s = .error e →
      getCurrentUser w = .error e) := by
  refine ⟨?_, ?_, ?_, ?_⟩
  · intro h
    simp [getCurrentUser, h]
  · intro h
    simp [getCurrentUser, h]
  · intro s v h hv
    have hs : s ≠ [] := by
      intro h0
      subst h0
      have h1 : JSON.parse [] = .error syntaxError := by rfl
      rw [h1] at hv
      cases hv
    simp [getCurrentUser, h, hs, hv]
  · intro s e h hs he
    simp [getCurrentUser, h, hs, he]

/-- C8 (amended), at a store holding the profile `{"role":"USER"}` and at a store holding
the text `undefined`. -/
theorem getCurrentUser_cases_witness :
    getCurrentUser ⟨[(js "user", js "\x7b\"role\":\"USER\"\x7d")], [], []⟩ =
      .ok (.obj [(js "role", .str (js "USER"))]) ∧
    getCurrentUser ⟨[(js "user", js "undefined")], [], []⟩ = .error syntaxError :=
  ⟨(getCurrentUser_cases ⟨[(js "user", js "\x7b\"role\":\"USER\"\x7d")], [], []⟩).2.2.1
      (js "\x7b\"role\":\"USER\"\x7d") (.obj [(js "role", .str (js "USER"))]) (by rfl) (by rfl),
   (getCurrentUser_cases ⟨[(js "user", js "undefined")], [], []⟩).2.2.2
      (js "undefined") syntaxError (by rfl) (by decide) (by rfl)⟩

/-- The store after the login handler has gone through its success branch with the token
string `t` and the user `u`. -/
theorem loginSubmit_store (net : Net) (p : LoginPage) (response : Response) (d : Json)
    (sc : Option Json) (t : JSString) (u : Json)
    (hnet : net (loginRequest p.username p.password) = .ok response)
    (hbody : JSON.parse response.body = .ok d)
    (hs : getProp (some d) (js "success") = .ok sc) (hsc : truthy sc = true)
    (htok : getProp (some d) (js "token") = .ok (some (.str t)))
    (husr : getProp (some d) (js "user") = .ok (some u)) :
    (loginSubmit net p).world.store =
      (p.world.store.setItem (js "token") t).setItem (js "user") (stringifyValue u) := by
  simp only [loginSubmit, loginAttempt, hnet, Response.json, hbody, hs, hsc, if_true,
    loginStore, htok, toStringValue, toStringJson, husr, JSON.stringify, Option.map_some',
    Option.getD_some]
  cases hr : getProp (some u) (js "role") with
  | error e => simp [World.setItem, World.emit]
  | ok role =>
    by_cases hrole : strictEqualsString role (js "ADMIN") = true
    · simp [hrole, World.setItem, World.emit, World.navigate]
    · simp [hrole, World.setItem, World.emit, World.navigate]

/-- C9 (as stated, refuted): for the payload `{"success":true}`, after the handler the
persisted token is the text `undefined` and `getCurrentUser` throws; it does not return
the payload's user. And for the payload
`{"success":true,"token":"abc","user":{"rating":1e999}}`, whose `rating` the engine reads
as `Infinity`, the stored text is `{"rating":null}` and `getCurrentUser` returns a profile
whose `rating` is `null`, not the payload's user. -/
theorem loginSubmit_missing_user_counterexample :
    JSON.parse (js "\x7b\"success\":true\x7d") = .ok (.obj [(js "success", .bool true)]) ∧
    (loginSubmit (fun _ => .ok ⟨200, js "\x7b\"success\":true\x7d"⟩)
        ⟨⟨[], [], []⟩, js "ana", js "secret", [], []⟩).world.store.getItem (js "token")
      = some (js "undefined") ∧
    getCurrentUser (loginSubmit (fun _ => .ok ⟨200, js "\x7b\"success\":true\x7d"⟩)
        ⟨⟨[], [], []⟩, js "ana", js "secret", [], []⟩).world = .error syntaxError ∧
    JSON.parse (js "\x7b\"success\":true,\"token\":\"abc\",\"user\":\x7b\"rating\":1e999\x7d\x7d")
      = .ok (.obj [(js "success", .bool true), (js "token", .str (js "abc")),
          (js "user", .obj [(js "rating", .num 1 999)])]) ∧
    overflows 1 999 = true ∧
    (loginSubmit
        (fun _ => .ok ⟨200, js "\x7b\"success\":true,\"token\":\"abc\",\"user\":\x7b\"rating\":1e999\x7d\x7d"⟩)
        ⟨⟨[], [], []⟩, js "ana", js "secret", [], []⟩).world.store.getItem (js "user")
      = some (js "\x7b\"rating\":null\x7d") ∧
    getCurrentUser (loginSubmit
        (fun _ => .ok ⟨200, js "\x7b\"success\":true,\"token\":\"abc\",\"user\":\x7b\"rating\":1e999\x7d\x7d"⟩)
        ⟨⟨[], [], []⟩, js "ana", js "secret", [], []⟩).world
      = .ok (.obj [(js "rating", .null)]) := by
  refine ⟨by rfl, by rfl, by rfl, by rfl, by rfl, by rfl, by rfl⟩

/-- C9 (amended): when the login response parses to a payload `d` whose `success` is truthy,
whose `token` is a string `t` and whose `user` is present with a value `u` in which no
number rounds to an infinity, then after the handler the persisted token is `t` and
`getCurrentUser` returns `u`. -/
theorem loginSubmit_persists_session (net : Net) (p : LoginPage) (response : Response)
    (d : Json) (sc : Option Json) (t : JSString) (u : Json)
    (hnet : net (loginRequest p.username p.password) = .ok response)
    (hbody : JSON.parse response.body = .ok d)
    (hs : getProp (some d) (js "success") = .ok sc) (hsc : truthy sc = true)
    (htok : getProp (some d) (js "token") = .ok (some (.str t)))
    (husr : getProp (some d) (js "user") = .ok (some u))
    (hfin : finiteValue u = true) :
    (loginSubmit net p).world.store.getItem (js "token") = some t ∧
    getCurrentUser (loginSubmit net p).world = .ok u := by
  have hst := loginSubmit_store net p response d sc t u hnet hbody hs hsc htok husr
  constructor
  · rw [hst, getItem_setItem_ne _ _ _ _ (by decide), getItem_setItem_self]
  · unfold getCurrentUser
    rw [hst, getItem_setItem_self]
    simp [stringifyValue_ne_nil, parse_stringify u hfin]

/-- C9 (amended), at the example of the specification: after the login response
`{"success":true,"token":"abc","user":{"role":"ADMIN"}}` the persisted token is `abc` and
the current user is the profile with role `ADMIN`. -/
theorem loginSubmit_persists_session_witness :
    (loginSubmit
        (fun _ => .ok ⟨200, js "\x7b\"success\":true,\"token\":\"abc\",\"user\":\x7b\"role\":\"ADMIN\"\x7d\x7d"⟩)
        ⟨⟨[], [], []⟩, js "ana", js "secret", [], []⟩).world.store.getItem (js "token")
      = some (js "abc") ∧
    getCurrentUser (loginSubmit
        (fun _ => .ok ⟨200, js "\x7b\"success\":true,\"token\":\"abc\",\"user\":\x7b\"role\":\"ADMIN\"\x7d\x7d"⟩)
        ⟨⟨[], [], []⟩, js "ana", js "secret", [], []⟩).world
      = .ok (.obj [(js "role", .str (js "ADMIN"))]) ∧
    getProp (some (.obj [(js "role", .str (js "ADMIN"))])) (js "role")
      = .ok (some (.str (js "ADMIN"))) :=
  have h := loginSubmit_persists_session
    (fun _ => .ok ⟨200, js "\x7b\"success\":true,\"token\":\"abc\",\"user\":\x7b\"role\":\"ADMIN\"\x7d\x7d"⟩)
    ⟨⟨[], [], []⟩, js "ana", js "secret", [], []⟩
    ⟨200, js "\x7b\"success\":true,\"token\":\"abc\",\"user\":\x7b\"role\":\"ADMIN\"\x7d\x7d"⟩
    (.obj [(js "success", .bool true), (js "token", .str (js "abc")),
      (js "user", .obj [(js "role", .str (js "ADMIN"))])])
    (some (.bool true)) (js "abc") (.obj [(js "role", .str (js "ADMIN"))])
    rfl (by rfl) (by rfl) (by rfl) (by rfl) (by rfl) (by rfl)
  ⟨h.1, h.2, by rfl⟩

/-- A profile that holds an infinite number is not JSON-serializable: for the profile
`{"rating":1e999}` the text written is `{"rating":null}`, and what `getCurrentUser` reads
back has `rating` `null`. -/
theorem getCurrentUser_infinite_example :
    finiteValue (.obj [(js "rating", .num 1 999)]) = false ∧
    JSON.stringify (some (.obj [(js "rating", .num 1 999)])) =
      some (js "\x7b\"rating\":null\x7d") ∧
    getCurrentUser ((⟨[], [], []⟩ : World).setItem (js "user")
        (stringifyValue (.obj [(js "rating", .num 1 999)]))) =
      .ok (.obj [(js "rating", .null)]) := by
  refine ⟨by rfl, by rfl, by rfl⟩

/-- C10: round trip of the profile. Whatever the store held and for every JSON-serializable
value `p` (a parsed JSON value in which no number is infinite: JSON has no text for an
infinity), after the write of the login flow,
`localStorage.setItem('user', JSON.stringify(p))`, `getCurrentUser` returns `p`. -/
theorem getCurrentUser_roundtrip (w : World) (p : Json) (hp : finiteValue p = true) :
    JSON.stringify (some p) = some (stringifyValue p) ∧
    getCurrentUser (w.setItem (js "user") (stringifyValue p)) = .ok p := by
  refine ⟨rfl, ?_⟩
  unfold getCurrentUser
  simp only [World.setItem, getItem_setItem_self]
  simp [stringifyValue_ne_nil, parse_stringify p hp]

/-- C10, at a profile with strings, a number with a fraction, a boolean, `null` and an
array, written over an older profile: `getCurrentUser` returns the profile. -/
theorem getCurrentUser_roundtrip_witness :
    getCurrentUser ((⟨[(js "user", js "\x7b\"username\":\"old\"\x7d")], [], []⟩ : World).setItem
        (js "user")
        (stringifyValue (.obj [(js "username", .str (js "ana")), (js "role", .str (js "ADMIN")),
          (js "rating", .num 45 (-1)), (js "active", .bool true), (js "phone", .null),
          (js "loans", .arr [.num 3 0, .num 12 0])]))) =
      .ok (.obj [(js "username", .str (js "ana")), (js "role", .str (js "ADMIN")),
          (js "rating", .num 45 (-1)), (js "active", .bool true), (js "phone", .null),
          (js "loans", .arr [.num 3 0, .num 12 0])]) :=
  (getCurrentUser_roundtrip ⟨[(js "user", js "\x7b\"username\":\"old\"\x7d")], [], []⟩
    (.obj [(js "username", .str (js "ana")), (js "role", .str (js "ADMIN")),
      (js "rating", .num 45 (-1)), (js "active", .bool true), (js "phone", .null),
      (js "loans", .arr [.num 3 0, .num 12 0])]) (by rfl)).2

/-- Reading a record after defining a property on it. -/
theorem Record.get_set (r : Record) (k v key : JSString) :
    Record.get (Record.set r k v) key = if k = key then some v else Record.get r key := by
  induction r with
  | nil => simp [Record.set, Record.get]
  | cons p rest ih =>
    obtain ⟨a, b⟩ := p
    by_cases hak : a = k
    · subst hak
      by_cases hk : a = key
      · simp [Record.set, Record.get, hk]
      · simp [Record.set, Record.get, hk]
    · by_cases hk : a = key
      · subst hk
        have hne : ¬ k = a := fun h => hak h.symm
        simp [Record.set, Record.get, hak, hne]
      · simp [Record.set, Record.get, hak, hk, ih]

/-- A key the overriding record does not have reads as in the base record. -/
theorem Record.get_spread_of_not_mem (over base : Record) (key : JSString)
    (h : key ∉ over.map Prod.fst) :
    Record.get (Record.spread base over) key = Record.get base key := by
  induction over generalizing base with
  | nil => rfl
  | cons p rest ih =>
    obtain ⟨a, b⟩ := p
    simp only [List.map_cons, List.mem_cons, not_or] at h
    have hne : ¬ a = key := fun h2 => h.1 h2.symm
    have := ih (Record.set base a b) h.2
    simp only [Record.spread, List.foldl_cons] at this ⊢
    rw [this, Record.get_set, if_neg hne]

/-- A key of the overriding record, whose keys are distinct, reads as in that record. -/
theorem Record.get_spread_of_mem (over base : Record) (key value : JSString)
    (hn : (over.map Prod.fst).Nodup) (h : (key, value) ∈ over) :
    Record.get (Record.spread base over) key = some value := by
  induction over generalizing base with
  | nil => simp at h
  | cons p rest ih =>
    obtain ⟨a, b⟩ := p
    simp only [List.map_cons, List.nodup_cons] at hn
    simp only [List.mem_cons, Prod.mk.injEq] at h
    rcases h with ⟨h1, h2⟩ | h
    · subst h1 h2
      have := Record.get_spread_of_not_mem rest (Record.set base key value) key hn.1
      simp only [Record.spread, List.foldl_cons] at this ⊢
      rw [this, Record.get_set, if_pos rfl]
    · have := ih (Record.set base a b) hn.2 h
      simpa only [Record.spread, List.foldl_cons] using this

/-- A key of the base record is still a key after the spread. -/
theorem Record.get_spread_isSome (over base : Record) (key : JSString)
    (h : (Record.get base key).isSome = true) :
    (Record.get (Record.spread base over) key).isSome = true := by
  induction over generalizing base with
  | nil => exact h
  | cons p rest ih =>
    obtain ⟨a, b⟩ := p
    have h2 : (Record.get (Record.set base a b) key).isSome = true := by
      rw [Record.get_set]
      split
      · rfl
      · exact h
    have := ih (Record.set base a b) h2
    simpa only [Record.spread, List.foldl_cons] using this

/-- C11: when `options.headers` is a record `h` (a JavaScript object, so with each key
once), the headers of the constructed request are the default headers with `h` merged on
top: every entry of `h` is read back with the value of `h`, every key that `h` does not
have reads as in the defaults, and every default key, `Content-Type` and `Authorization`
among them, is still a key of the result. -/
theorem headers_spread_merge (w : World) (endpoint : JSString) (options : Options)
    (h : Record) (ho : options.headers = some h) (hn : (h.map Prod.fst).Nodup) :
    ∃ merged defaults : Record,
      (API.config w endpoint options).init.headers = some merged ∧
      (API.config w endpoint { options with headers := none }).init.headers = some defaults ∧
      (∀ key value, (key, value) ∈ h → merged.get key = some value) ∧
      (∀ key, key ∉ h.map Prod.fst → merged.get key = defaults.get key) ∧
      (∀ key, (defaults.get key).isSome = true → (merged.get key).isSome = true) ∧
      (defaults.get (js "Content-Type")).isSome = true ∧
      (defaults.get (js "Authorization")).isSome = true := by
  refine ⟨_, _, rfl, rfl, ?_, ?_, ?_, ?_, ?_⟩
  · intro key value hkv
    simp only [ho, Option.getD_some]
    exact Record.get_spread_of_mem h _ key value hn hkv
  · intro key hk
    simp only [ho, Option.getD_some, Option.getD_none]
    rw [Record.get_spread_of_not_mem h _ key hk]
    rfl
  · intro key hk
    simp only [ho, Option.getD_some, Option.getD_none] at hk ⊢
    exact Record.get_spread_isSome h _ key hk
  · rfl
  · simp only [Option.getD_none, Record.spread, List.foldl_nil, Record.get]
    split <;> rfl

/-- C11, at a caller that replaces `Content-Type` and adds `X-Trace`, over a store holding
the token `abc`: the replaced and the added header carry the caller's values, and
`Authorization` keeps its default. -/
theorem headers_spread_merge_witness :
    (API.config ⟨[(js "token", js "abc")], [], []⟩ (js "/books")
        { method := some (js "GET"),
          headers := some [(js "Content-Type", js "text/plain"), (js "X-Trace", js "1")] }
      ).init.headers =
      some [(js "Content-Type", js "text/plain"), (js "Authorization", js "Bearer abc"),
        (js "X-Trace", js "1")] ∧
    ∃ merged : Record,
      merged.get (js "Content-Type") = some (js "text/plain") ∧
      merged.get (js "X-Trace") = some (js "1") := by
  refine ⟨by rfl, ?_⟩
  obtain ⟨merged, defaults, _, _, h3, _⟩ :=
    headers_spread_merge ⟨[(js "token", js "abc")], [], []⟩ (js "/books")
      { method := some (js "GET"),
        headers := some [(js "Content-Type", js "text/plain"), (js "X-Trace", js "1")] }
      [(js "Content-Type", js "text/plain"), (js "X-Trace", js "1")] rfl (by decide)
  exact ⟨merged, h3 _ _ (by simp), h3 _ _ (by simp)⟩

/-- C12: the four convenience operations are `API.request` with the method bound, and
for `post` and `put` with the body bound to the JSON text of the argument; the request
that `get` and `delete` construct has the method and no body, the request that `post` and
`put` construct has the method and that text as body. -/
theorem wrappers_are_request (net : Net) (w : World) (endpoint : JSString)
    (payload : Option Json) :
    API.get net w endpoint = API.request net w endpoint { method := some (js "GET") } ∧
    API.delete net w endpoint = API.request net w endpoint { method := some (js "DELETE") } ∧
    API.post net w endpoint payload = API.request net w endpoint
      { method := some (js "POST"), body := payload.map stringifyValue } ∧
    API.put net w endpoint payload = API.request net w endpoint
      { method := some (js "PUT"), body := payload.map stringifyValue } ∧
    (∃ tail, (API.get net w endpoint).2.log = w.log ++ Event.fetch
      { url := API_BASE_URL ++ endpoint
        init := { method := some (js "GET"), body := none,
                  headers := (API.config w endpoint {}).init.headers } } :: tail) ∧
    (∃ tail, (API.delete net w endpoint).2.log = w.log ++ Event.fetch
      { url := API_BASE_URL ++ endpoint
        init := { method := some (js "DELETE"), body := none,
                  headers := (API.config w endpoint {}).init.headers } } :: tail) ∧
    (∃ tail, (API.post net w endpoint payload).2.log = w.log ++ Event.fetch
      { url := API_BASE_URL ++ endpoint
        init := { method := some (js "POST"), body := payload.map stringifyValue,
                  headers := (API.config w endpoint {}).init.headers } } :: tail) ∧
    (∃ tail, (API.put net w endpoint payload).2.log = w.log ++ Event.fetch
      { url := API_BASE_URL ++ endpoint
        init := { method := some (js "PUT"), body := payload.map stringifyValue,
                  headers := (API.config w endpoint {}).init.headers } } :: tail) := by
  refine ⟨rfl, rfl, rfl, rfl, ?_, ?_, ?_, ?_⟩
  all_goals
    simp only [API.get, API.post, API.put, API.delete, request_log]
    exact ⟨_, rfl⟩

/-- C16: a login attempt that does not succeed leaves the store and the location as they
were, adds no effect but the dispatch of the request and console entries, and shows an
error message. When `fetch` rejects or the body does not parse the message is
`An error occurred. Please try again.`; when the payload's `success` is falsy the message
is the string form of `data.message || 'Login failed'`, so the payload's message when it is
a non-empty string and `Login failed` when it is absent or falsy (and the message of a
thrown error when that conversion throws). -/
theorem loginSubmit_failure (net : Net) (p : LoginPage) :
    ((∃ e, net (loginRequest p.username p.password) = .error e) ∨
     (∃ response e, net (loginRequest p.username p.password) = .ok response ∧
        JSON.parse response.body = .error e) →
      (loginSubmit net p).world.store = p.world.store ∧
      (loginSubmit net p).world.href = p.world.href ∧
      (∃ e, (loginSubmit net p).world.log = p.world.log ++
        [Event.fetch (loginRequest p.username p.password),
         Event.consoleError (js "Login error:") e]) ∧
      (loginSubmit net p).errorText = js "An error occurred. Please try again." ∧
      (loginSubmit net p).errorDisplay = js "block") ∧
    (∀ response d sc m,
      net (loginRequest p.username p.password) = .ok response →
      JSON.parse response.body = .ok d →
      getProp (some d) (js "success") = .ok sc → truthy sc = false →
      getProp (some d) (js "message") = .ok m →
      (loginSubmit net p).world.store = p.world.store ∧
      (loginSubmit net p).world.href = p.world.href ∧
      (∃ errs, (loginSubmit net p).world.log = p.world.log ++
          Event.fetch (loginRequest p.username p.password) :: errs ∧
        ∀ ev ∈ errs, ∃ label e, ev = Event.consoleError label e) ∧
      (loginSubmit net p).errorDisplay = js "block" ∧
      (∀ s, m = some (.str s) → s ≠ [] → (loginSubmit net p).errorText = s) ∧
      (truthy m = false → (loginSubmit net p).errorText = js "Login failed") ∧
      (∀ t, toStringValue (orElse m (some (.str (js "Login failed")))) = .ok t →
        (loginSubmit net p).errorText = t) ∧
      (∀ e, toStringValue (orElse m (some (.str (js "Login failed")))) = .error e →
        (loginSubmit net p).errorText = js "An error occurred. Please try again.")) := by
  constructor
  · rintro (⟨e, he⟩ | ⟨response, e, hr, he⟩)
    · simp [loginSubmit, loginAttempt, he, World.emit]
    · simp [loginSubmit, loginAttempt, hr, Response.json, he, World.emit]
  · intro response d sc m hr hd hs hsc hm
    cases ht : toStringValue (orElse m (some (.str (js "Login failed")))) with
    | error e =>
      have hres : loginSubmit net p =
          { world := (p.world.emit (.fetch (loginRequest p.username p.password))).emit
              (.consoleError (js "Login error:") e)
            username := p.username, password := p.password
            errorText := js "An error occurred. Please try again."
            errorDisplay := js "block" } := by
        simp [loginSubmit, loginAttempt, hr, Response.json, hd, hs, hsc, loginReject, hm, ht]
      rw [hres]
      refine ⟨rfl, rfl, ⟨[Event.consoleError (js "Login error:") e], by simp [World.emit], ?_⟩,
        rfl, ?_, ?_, ?_, ?_⟩
      · intro ev hev
        simp only [List.mem_singleton] at hev
        exact ⟨_, _, hev⟩
      · intro s hms hs0
        subst hms
        simp [orElse, truthy, hs0, toStringValue, toStringJson] at ht
      · intro hm0
        simp [orElse, hm0, toStringValue, toStringJson] at ht
      · intro t h
        cases h
      · intro e2 _
        rfl
    | ok t =>
      have hres : loginSubmit net p =
          { world := p.world.emit (.fetch (loginRequest p.username p.password))
            username := p.username, password := p.password
            errorText := t
            errorDisplay := js "block" } := by
        simp [loginSubmit, loginAttempt, hr, Response.json, hd, hs, hsc, loginReject, hm, ht]
      rw [hres]
      refine ⟨rfl, rfl, ⟨[], by simp [World.emit], by simp⟩, rfl, ?_, ?_, ?_, ?_⟩
      · intro s hms hs0
        subst hms
        simp [orElse, truthy, hs0, toStringValue, toStringJson] at ht
        exact ht.symm
      · intro hm0
        simp [orElse, hm0, toStringValue, toStringJson] at ht
        exact ht.symm
      · intro t2 h
        simp only [Except.ok.injEq] at h
        exact h
      · intro e2 h
        cases h

/-- C16, at the payload `{"success":false,"message":"bad credentials"}` and at a rejected
`fetch`: the store keeps its entry, and the message shown is `bad credentials`,
respectively `An error occurred. Please try again.`. -/
theorem loginSubmit_failure_witness :
    (loginSubmit (fun _ => .ok ⟨401, js "\x7b\"success\":false,\"message\":\"bad credentials\"\x7d"⟩)
        ⟨⟨[(js "theme", js "dark")], js "/index.html", []⟩, js "ana", js "secret", [], []⟩
      ).errorText = js "bad credentials" ∧
    (loginSubmit (fun _ => .ok ⟨401, js "\x7b\"success\":false,\"message\":\"bad credentials\"\x7d"⟩)
        ⟨⟨[(js "theme", js "dark")], js "/index.html", []⟩, js "ana", js "secret", [], []⟩
      ).world.store = [(js "theme", js "dark")] ∧
    (loginSubmit (fun _ => .error typeError)
        ⟨⟨[(js "theme", js "dark")], js "/index.html", []⟩, js "ana", js "secret", [], []⟩
      ).errorText = js "An error occurred. Please try again." :=
  have h1 := (loginSubmit_failure
    (fun _ => .ok ⟨401, js "\x7b\"success\":false,\"message\":\"bad credentials\"\x7d"⟩)
    ⟨⟨[(js "theme", js "dark")], js "/index.html", []⟩, js "ana", js "secret", [], []⟩).2
    ⟨401, js "\x7b\"success\":false,\"message\":\"bad credentials\"\x7d"⟩
    (.obj [(js "success", .bool false), (js "message", .str (js "bad credentials"))])
    (some (.bool false)) (some (.str (js "bad credentials")))
    rfl (by rfl) (by rfl) (by rfl) (by rfl)
  have h2 := (loginSubmit_failure (fun _ => .error typeError)
    ⟨⟨[(js "theme", js "dark")], js "/index.html", []⟩, js "ana", js "secret", [], []⟩).1
    (Or.inl ⟨typeError, rfl⟩)
  ⟨h1.2.2.2.2.1 (js "bad credentials") rfl (by decide), h1.1, h2.2.2.2.1⟩

/-- C13 (code defect): evaluation of the load-time code where no session is stored. With
an empty store the top-level code of the admin page assigns `/index.html` to the location
and then, `getCurrentUser()` being `null`, throws a `TypeError` at `user.role`
(admin.js line 13); the top-level code of the dashboard assigns `/index.html` and its
initialisation throws a `TypeError` at `user.fullName` (dashboard.js line 24); and with a
token but no user entry the guard of the login page throws a `TypeError` at `user.role`
(auth.js line 9) and assigns no location at all. -/
theorem page_load_null_user_throws :
    isAuthenticated ⟨[], [], []⟩ = false ∧
    getCurrentUser ⟨[], [], []⟩ = .ok .null ∧
    (adminLoad ⟨⟨[], [], []⟩, [], [], [], [], [], [], [], 0, [], [], [], true, [],
        StatisticsView.other⟩).1 = .error typeError ∧
    (adminLoad ⟨⟨[], [], []⟩, [], [], [], [], [], [], [], 0, [], [], [], true, [],
        StatisticsView.other⟩).2.world.log = [Event.navigate (js "/index.html")] ∧
    (adminLoad ⟨⟨[], [], []⟩, [], [], [], [], [], [], [], 0, [], [], [], true, [],
        StatisticsView.other⟩).2.world.href = js "/index.html" ∧
    (dashboardLoad ⟨⟨[], [], []⟩, []⟩).1 = .ok .null ∧
    (dashboardLoad ⟨⟨[], [], []⟩, []⟩).2.world.href = js "/index.html" ∧
    (initDashboard .null (dashboardLoad ⟨⟨[], [], []⟩, []⟩).2).1 = .error typeError ∧
    isAuthenticated ⟨[(js "token", js "abc")], [], []⟩ = true ∧
    (loginLoad ⟨[(js "token", js "abc")], [], []⟩).1 = .error typeError ∧
    (loginLoad ⟨[(js "token", js "abc")], [], []⟩).2.log = [] ∧
    (loginLoad ⟨[(js "token", js "abc")], [], []⟩).2.href = [] := by
  refine ⟨by rfl, by rfl, by rfl, by rfl, by rfl, by rfl, by rfl, by rfl, by rfl, by rfl,
    by rfl, by rfl⟩

/-- The `try` block of the registration handler dispatches the request and has no other
effect on the world. -/
theorem registerAttempt_world (net : Net) (req : Request) (originalText : JSString)
    (p : RegisterPage) :
    (registerAttempt net req originalText p).2.world = p.world.emit (.fetch req) := by
  unfold registerAttempt
  cases net req with
  | error e => rfl
  | ok response =>
    simp only
    cases response.json with
    | error e => rfl
    | ok data =>
      simp only
      cases getProp (some data) (js "success") with
      | error e => rfl
      | ok success =>
        simp only
        split
        · rfl
        · cases getProp (some data) (js "message") with
          | error e => rfl
          | ok m =>
            simp only
            cases toStringValue (orElse m (some (.str (js "Registration failed")))) <;> rfl

/-- What `usernameRegex.test` accepts. -/
theorem usernameRegexTest_iff (s : JSString) :
    usernameRegexTest s = true ↔
      3 ≤ s.length ∧ s.length ≤ 20 ∧
      ∀ c ∈ s, (0x61 ≤ c ∧ c ≤ 0x7A) ∨ (0x41 ≤ c ∧ c ≤ 0x5A) ∨ (0x30 ≤ c ∧ c ≤ 0x39) ∨
        c = 0x5F := by
  simp only [usernameRegexTest, isWordChar, Bool.and_eq_true, Bool.or_eq_true,
    decide_eq_true_eq, List.all_eq_true]
  constructor
  · rintro ⟨⟨h1, h2⟩, h3⟩
    refine ⟨h1, h2, fun c hc => ?_⟩
    rcases h3 c hc with ((h | h) | h) | h
    · exact Or.inl h
    · exact Or.inr (Or.inl h)
    · exact Or.inr (Or.inr (Or.inl h))
    · exact Or.inr (Or.inr (Or.inr h))
  · rintro ⟨h1, h2, h3⟩
    refine ⟨⟨h1, h2⟩, fun c hc => ?_⟩
    rcases h3 c hc with h | h | h | h
    · exact Or.inl (Or.inl (Or.inl h))
    · exact Or.inl (Or.inl (Or.inr h))
    · exact Or.inl (Or.inr h)
    · exact Or.inr h

/-- A log is not itself with more entries after it. -/
theorem log_ne_append_cons {α : Type} (l : List α) (a : α) (t : List α) : l ≠ l ++ a :: t := by
  intro h
  have := congrArg List.length h
  simp at this

/-- The request of the registration handler, written out: the URL, the method, the one
header and the JSON text of the body. -/
theorem registerRequest_literal (fullName username email password : JSString) :
    registerRequest fullName username email password =
      { url := js "http://localhost:8080/api/auth/register"
        init :=
          { method := some (js "POST")
            headers := some [(js "Content-Type", js "application/json")]
            body := some (js "\x7b\"username\":" ++ (quote username ++
              (js ",\"password\":" ++ (quote password ++
              (js ",\"email\":" ++ (quote email ++
              (js ",\"fullName\":" ++ (quote fullName ++ js "\x7d")))))))) } } := by
  rfl

/-- C14 (as stated, refuted): the username `josé` consists of four letters, yet the
handler makes no request and shows the username message: `é` is outside `[a-zA-Z0-9_]`.
And the password made of three emoji, three characters long, is accepted and the request
is sent: its `length` is 6, the number of its UTF-16 code units. -/
theorem registerSubmit_unicode_counterexample :
    trim (js "josé") = [0x6A, 0x6F, 0x73, 0xE9] ∧
    (registerSubmit (fun _ => .error typeError)
        ⟨⟨[], [], []⟩, ⟨js "José Ruiz", js "josé", js "jose@example.org", js "secret1",
          js "secret1"⟩, ⟨[], [], [], [], []⟩, [], [], [], [], [], false, []⟩).world =
      ⟨[], [], []⟩ ∧
    (registerSubmit (fun _ => .error typeError)
        ⟨⟨[], [], []⟩, ⟨js "José Ruiz", js "josé", js "jose@example.org", js "secret1",
          js "secret1"⟩, ⟨[], [], [], [], []⟩, [], [], [], [], [], false, []⟩).errorText =
      js "Username must be 3-20 characters (letters, numbers, underscores only)" ∧
    js "😀😀😀" = [0xD83D, 0xDE00, 0xD83D, 0xDE00, 0xD83D, 0xDE00] ∧
    (registerSubmit (fun _ => .error typeError)
        ⟨⟨[], [], []⟩, ⟨js "Ana Ruiz", js "ana_1", js "ana@example.org", js "😀😀😀",
          js "😀😀😀"⟩, ⟨[], [], [], [], []⟩, [], [], [], [], [], false, []⟩).world.log =
      [Event.fetch
          { url := js "http://localhost:8080/api/auth/register"
            init :=
              { method := some (js "POST")
                headers := some [(js "Content-Type", js "application/json")]
                body := some (js "\x7b\"username\":\"ana_1\",\"password\":\"😀😀😀\",\"email\":\"ana@example.org\",\"fullName\":\"Ana Ruiz\"\x7d") } },
        Event.consoleError (js "Registration error:") typeError] := by
  refine ⟨by rfl, by rfl, by rfl, by rfl, by rfl⟩

/-- C14 (amended): the registration handler dispatches `POST` to
`http://localhost:8080/api/auth/register`, with the header
`Content-Type: application/json` and the body
`{"username":…,"password":…,"email":…,"fullName":…}` made of the trimmed inputs and the
password, exactly when the password equals its confirmation, the password has at least 6
UTF-16 code units, and the trimmed username has 3 to 20 code units, each an ASCII letter
(`a`-`z`, `A`-`Z`), a digit (`0`-`9`) or an underscore. When a check fails the world is
left as it was, so no request is made, and one of the three error messages is
displayed. -/
theorem registerSubmit_sends_iff_valid (net : Net) (p : RegisterPage) :
    ((∃ tail, (registerSubmit net p).world.log =
        p.world.log ++ Event.fetch
          { url := js "http://localhost:8080/api/auth/register"
            init :=
              { method := some (js "POST")
                headers := some [(js "Content-Type", js "application/json")]
                body := some (js "\x7b\"username\":" ++ (quote (trim p.form.username) ++
                  (js ",\"password\":" ++ (quote p.form.password ++
                  (js ",\"email\":" ++ (quote (trim p.form.email) ++
                  (js ",\"fullName\":" ++ (quote (trim p.form.fullName) ++
                    js "\x7d")))))))) } } :: tail) ↔
      (p.form.password = p.form.confirmPassword ∧ 6 ≤ p.form.password.length ∧
        3 ≤ (trim p.form.username).length ∧ (trim p.form.username).length ≤ 20 ∧
        ∀ c ∈ trim p.form.username,
          (0x61 ≤ c ∧ c ≤ 0x7A) ∨ (0x41 ≤ c ∧ c ≤ 0x5A) ∨ (0x30 ≤ c ∧ c ≤ 0x39) ∨
            c = 0x5F)) ∧
    (¬ (p.form.password = p.form.confirmPassword ∧ 6 ≤ p.form.password.length ∧
        3 ≤ (trim p.form.username).length ∧ (trim p.form.username).length ≤ 20 ∧
        ∀ c ∈ trim p.form.username,
          (0x61 ≤ c ∧ c ≤ 0x7A) ∨ (0x41 ≤ c ∧ c ≤ 0x5A) ∨ (0x30 ≤ c ∧ c ≤ 0x39) ∨
            c = 0x5F) →
      (registerSubmit net p).world = p.world ∧
      (registerSubmit net p).errorDisplay = js "block" ∧
      ((registerSubmit net p).errorText = js "Passwords do not match" ∨
       (registerSubmit net p).errorText = js "Password must be at least 6 characters" ∨
       (registerSubmit net p).errorText =
         js "Username must be 3-20 characters (letters, numbers, underscores only)")) := by
  rw [← usernameRegexTest_iff,
    ← registerRequest_literal (trim p.form.fullName) (trim p.form.username)
      (trim p.form.email) p.form.password]
  by_cases h1 : p.form.password = p.form.confirmPassword
  · by_cases h2 : p.form.password.length < 6
    · have hinv : ¬ (p.form.password = p.form.confirmPassword ∧ 6 ≤ p.form.password.length ∧
          usernameRegexTest (trim p.form.username) = true) := by
        intro h
        omega
      have hres : registerSubmit net p =
          { p with
            errorText := js "Password must be at least 6 characters"
            errorDisplay := js "block", successDisplay := js "none" } := by
        unfold registerSubmit
        simp only []
        rw [if_neg (not_not.mpr h1), if_pos h2]
      rw [hres]
      refine ⟨⟨fun ⟨tail, ht⟩ => absurd ht (log_ne_append_cons _ _ _), fun h => absurd h hinv⟩,
        fun _ => ⟨rfl, rfl, Or.inr (Or.inl rfl)⟩⟩
    · by_cases h3 : usernameRegexTest (trim p.form.username) = true
      · have hval : p.form.password = p.form.confirmPassword ∧ 6 ≤ p.form.password.length ∧
            usernameRegexTest (trim p.form.username) = true := ⟨h1, by omega, h3⟩
        refine ⟨⟨fun _ => hval, fun _ => ?_⟩, fun h => absurd hval h⟩
        have hw := registerAttempt_world net
          (registerRequest (trim p.form.fullName) (trim p.form.username) (trim p.form.email)
            p.form.password) p.buttonHTML
          { p with
            errorDisplay := js "none", successDisplay := js "none"
            buttonHTML := js "<span>Creating Account...</span><span class=\"btn-icon\">⏳</span>"
            buttonDisabled := true }
        unfold registerSubmit
        simp only []
        rw [if_neg (not_not.mpr h1), if_neg h2, if_neg (by simp [h3])]
        generalize registerAttempt net _ _ _ = r at hw ⊢
        obtain ⟨o, p2⟩ := r
        simp only at hw
        cases o with
        | error e =>
          exact ⟨[Event.consoleError (js "Registration error:") e], by simp [hw, World.emit]⟩
        | ok u => exact ⟨[], by simp [hw, World.emit]⟩
      · have hinv : ¬ (p.form.password = p.form.confirmPassword ∧ 6 ≤ p.form.password.length ∧
            usernameRegexTest (trim p.form.username) = true) := fun h => h3 h.2.2
        have hres : registerSubmit net p =
            { p with
              errorText :=
                js "Username must be 3-20 characters (letters, numbers, underscores only)"
              errorDisplay := js "block", successDisplay := js "none" } := by
          unfold registerSubmit
          simp only []
          rw [if_neg (not_not.mpr h1), if_neg h2, if_pos (by simp [h3])]
        rw [hres]
        refine ⟨⟨fun ⟨tail, ht⟩ => absurd ht (log_ne_append_cons _ _ _),
          fun h => absurd h hinv⟩, fun _ => ⟨rfl, rfl, Or.inr (Or.inr rfl)⟩⟩
  · have hinv : ¬ (p.form.password = p.form.confirmPassword ∧ 6 ≤ p.form.password.length ∧
        usernameRegexTest (trim p.form.username) = true) := fun h => h1 h.1
    have hres : registerSubmit net p =
        { p with
          errorText := js "Passwords do not match"
          errorDisplay := js "block", successDisplay := js "none" } := by
      unfold registerSubmit
      simp only []
      rw [if_pos h1]
    rw [hres]
    refine ⟨⟨fun ⟨tail, ht⟩ => absurd ht (log_ne_append_cons _ _ _), fun h => absurd h hinv⟩,
      fun _ => ⟨rfl, rfl, Or.inl rfl⟩⟩

/-- C14 (amended), at the form of `ana_1` with a password of 7 code units, and at the same
form with the password `abc`: the first dispatches the request, with the body
`{"username":"ana_1","password":"secret1","email":"ana@example.org","fullName":"Ana Ruiz"}`,
the second leaves the world as it was. -/
theorem registerSubmit_sends_iff_valid_witness :
    (∃ tail, (registerSubmit (fun _ => .error typeError)
        ⟨⟨[], [], []⟩, ⟨js "Ana Ruiz", js " ana_1 ", js "ana@example.org", js "secret1",
          js "secret1"⟩, ⟨[], [], [], [], []⟩, [], [], [], [], [], false, []⟩).world.log =
      Event.fetch
          { url := js "http://localhost:8080/api/auth/register"
            init :=
              { method := some (js "POST")
                headers := some [(js "Content-Type", js "application/json")]
                body := some (js "\x7b\"username\":\"ana_1\",\"password\":\"secret1\",\"email\":\"ana@example.org\",\"fullName\":\"Ana Ruiz\"\x7d") } } :: tail) ∧
    (registerSubmit (fun _ => .error typeError)
        ⟨⟨[], [], []⟩, ⟨js "Ana Ruiz", js " ana_1 ", js "ana@example.org", js "abc",
          js "abc"⟩, ⟨[], [], [], [], []⟩, [], [], [], [], [], false, []⟩).world =
      ⟨[], [], []⟩ :=
  ⟨(registerSubmit_sends_iff_valid (fun _ => .error typeError)
      ⟨⟨[], [], []⟩, ⟨js "Ana Ruiz", js " ana_1 ", js "ana@example.org", js "secret1",
        js "secret1"⟩, ⟨[], [], [], [], []⟩, [], [], [], [], [], false, []⟩).1.mpr
      (by decide),
   ((registerSubmit_sends_iff_valid (fun _ => .error typeError)
      ⟨⟨[], [], []⟩, ⟨js "Ana Ruiz", js " ana_1 ", js "ana@example.org", js "abc",
        js "abc"⟩, ⟨[], [], [], [], []⟩, [], [], [], [], [], false, []⟩).2
      (by decide)).1⟩

/-- C15 (as stated, refuted): for the 2xx payload
`{"success":false,"message":{"toString":1}}` the message has no string form (its
conversion throws a `TypeError`), and the text shown is that of the `catch` block,
`✗ Error creating book: ` followed by the message of the thrown error: neither `✗ `
followed by the payload's message nor `✗ Failed to create book`. -/
theorem handleAddBook_thrown_message_counterexample :
    JSON.parse (js "\x7b\"success\":false,\"message\":\x7b\"toString\":1\x7d\x7d") =
      .ok (.obj [(js "success", .bool false),
        (js "message", .obj [(js "toString", .num 1 0)])]) ∧
    toStringValue (some (.obj [(js "toString", .num 1 0)])) = .error typeError ∧
    (handleAddBook
        (fun _ => .ok ⟨200, js "\x7b\"success\":false,\"message\":\x7b\"toString\":1\x7d\x7d"⟩)
        (.obj [(js "isbn", .str (js "123"))])
        ⟨⟨[], [], []⟩, [], [], [], [], [], js "EBOOK", js "DIGITAL", 0, [], [], [], true, [],
          StatisticsView.other⟩).formText =
      js "✗ Error creating book: " ++ typeError.message ∧
    (handleAddBook
        (fun _ => .ok ⟨200, js "\x7b\"success\":false,\"message\":\x7b\"toString\":1\x7d\x7d"⟩)
        (.obj [(js "isbn", .str (js "123"))])
        ⟨⟨[], [], []⟩, [], [], [], [], [], js "EBOOK", js "DIGITAL", 0, [], [], [], true, [],
          StatisticsView.other⟩).formText ≠ js "✗ Failed to create book" ∧
    (handleAddBook
        (fun _ => .ok ⟨200, js "\x7b\"success\":false,\"message\":\x7b\"toString\":1\x7d\x7d"⟩)
        (.obj [(js "isbn", .str (js "123"))])
        ⟨⟨[], [], []⟩, [], [], [], [], [], js "EBOOK", js "DIGITAL", 0, [], [], [], true, [],
          StatisticsView.other⟩).world.log =
      [Event.fetch (API.config ⟨[], [], []⟩ (js "/books")
          { method := some (js "POST"), body := some (js "\x7b\"isbn\":\"123\"\x7d") }),
        Event.consoleError (js "Error creating book:") typeError] := by
  refine ⟨by rfl, by rfl, by rfl, by decide, by rfl⟩

/-- C15 (amended): when the response to `POST /books` is 2xx and its payload has a falsy
`success`, `handleAddBook` puts the form message into the error state and shows it. With
`m` the payload's `message`, the text is `✗ ` followed by the string form of
`m || 'Failed to create book'`, so by `m` itself when it is a non-empty string and by
`Failed to create book` when it is absent or falsy; when that conversion throws (an object
with a `toString` member) the text is that of the `catch` block, `✗ Error creating book: `
followed by the message of the thrown error, which is also logged. In every case the form
is not reset, the type-specific fields and the grid are not touched, and the only request
dispatched is `POST /books`. -/
theorem handleAddBook_rejected (net : Net) (bookData : Json) (p : AdminPage)
    (response : Response) (d : Json) (sc m : Option Json)
    (hnet : net (API.config p.world (js "/books")
      { method := some (js "POST"), body := JSON.stringify (some bookData) }) = .ok response)
    (hok : response.ok = true)
    (hbody : JSON.parse response.body = .ok d)
    (hs : getProp (some d) (js "success") = .ok sc) (hsc : truthy sc = false)
    (hm : getProp (some d) (js "message") = .ok m) :
    (handleAddBook net bookData p).formClass = js "form-message error" ∧
    (handleAddBook net bookData p).formDisplay = js "block" ∧
    (∀ s, m = some (.str s) → s ≠ [] →
      (handleAddBook net bookData p).formText = js "✗ " ++ s) ∧
    (truthy m = false →
      (handleAddBook net bookData p).formText = js "✗ Failed to create book") ∧
    (∀ t, toStringValue (orElse m (some (.str (js "Failed to create book")))) = .ok t →
      (handleAddBook net bookData p).formText = js "✗ " ++ t ∧
      (handleAddBook net bookData p).world.log =
        p.world.log ++ [Event.fetch (API.config p.world (js "/books")
          { method := some (js "POST"), body := JSON.stringify (some bookData) })]) ∧
    (∀ e, toStringValue (orElse m (some (.str (js "Failed to create book")))) = .error e →
      (handleAddBook net bookData p).formText = js "✗ Error creating book: " ++ e.message ∧
      (handleAddBook net bookData p).world.log =
        p.world.log ++ [Event.fetch (API.config p.world (js "/books")
          { method := some (js "POST"), body := JSON.stringify (some bookData) }),
          Event.consoleError (js "Error creating book:") e]) ∧
    (handleAddBook net bookData p).formResets = p.formResets ∧
    (handleAddBook net bookData p).bookType = p.bookType ∧
    (handleAddBook net bookData p).digitalDisplay = p.digitalDisplay ∧
    (handleAddBook net bookData p).audioDisplay = p.audioDisplay ∧
    (handleAddBook net bookData p).ebookDisplay = p.ebookDisplay ∧
    (handleAddBook net bookData p).booksGrid = p.booksGrid ∧
    (handleAddBook net bookData p).world.store = p.world.store ∧
    (handleAddBook net bookData p).world.href = p.world.href ∧
    (API.config p.world (js "/books")
        { method := some (js "POST"), body := JSON.stringify (some bookData) }).url =
      js "http://localhost:8080/api/books" ∧
    ∃ errs, (handleAddBook net bookData p).world.log =
        p.world.log ++ Event.fetch (API.config p.world (js "/books")
          { method := some (js "POST"), body := JSON.stringify (some bookData) }) :: errs ∧
      ∀ ev ∈ errs, ∃ label e, ev = Event.consoleError label e := by
  have hpost : API.post net p.world (js "/books") (some bookData) =
      (.ok d, p.world.emit (.fetch (API.config p.world (js "/books")
        { method := some (js "POST"), body := JSON.stringify (some bookData) }))) := by
    simp [API.post, API.request, API.attempt, hnet, API.handleResponse, Response.json, hbody,
      hok]
  have key : ∀ t, toStringValue (orElse m (some (.str (js "Failed to create book")))) = .ok t →
      handleAddBook net bookData p =
        { p with
          world := p.world.emit (.fetch (API.config p.world (js "/books")
            { method := some (js "POST"), body := JSON.stringify (some bookData) }))
          formClass := js "form-message error"
          formText := js "✗ " ++ t
          formDisplay := js "block" } := by
    intro t ht
    simp [handleAddBook, hpost, handleAddBookResult, hs, hsc, hm, ht]
  cases ht : toStringValue (orElse m (some (.str (js "Failed to create book")))) with
  | ok t =>
    rw [key t ht]
    refine ⟨rfl, rfl, ?_, ?_, ?_, ?_, rfl, rfl, rfl, rfl, rfl, rfl, rfl, rfl, by rfl,
      ⟨[], by simp [World.emit], by simp⟩⟩
    · intro s hms hs0
      subst hms
      simp [orElse, truthy, hs0, toStringValue, toStringJson] at ht
      rw [ht]
    · intro hm0
      simp [orElse, hm0, toStringValue, toStringJson] at ht
      rw [← ht]
      rfl
    · intro t2 h
      simp only [Except.ok.injEq] at h
      rw [h]
      exact ⟨rfl, by simp [World.emit]⟩
    · intro e h
      cases h
  | error e =>
    have hres : handleAddBook net bookData p =
        { p with
          world := (p.world.emit (.fetch (API.config p.world (js "/books")
            { method := some (js "POST"), body := JSON.stringify (some bookData) }))).emit
              (.consoleError (js "Error creating book:") e)
          formClass := js "form-message error"
          formText := js "✗ Error creating book: " ++ e.message
          formDisplay := js "block" } := by
      simp [handleAddBook, hpost, handleAddBookResult, hs, hsc, hm, ht]
    rw [hres]
    refine ⟨rfl, rfl, ?_, ?_, ?_, ?_, rfl, rfl, rfl, rfl, rfl, rfl, rfl, rfl, by rfl,
      ⟨[Event.consoleError (js "Error creating book:") e], by simp [World.emit], ?_⟩⟩
    · intro s hms hs0
      subst hms
      simp [orElse, truthy, hs0, toStringValue, toStringJson] at ht
    · intro hm0
      simp [orElse, hm0, toStringValue, toStringJson] at ht
    · intro t2 h
      cases h
    · intro e2 h
      simp only [Except.error.injEq] at h
      rw [h]
      exact ⟨rfl, by simp [World.emit]⟩
    · intro ev hev
      simp only [List.mem_singleton] at hev
      exact ⟨_, _, hev⟩

/-- C15 (amended), at the example of the specification: for the payload
`{"success":false,"message":"duplicate isbn"}` the user sees `✗ duplicate isbn`, and the
form has not been reset; and for the payload `{"success":false,"message":{"toString":1}}`
the user sees the text of the `catch` block. -/
theorem handleAddBook_rejected_witness :
    (handleAddBook
        (fun _ => .ok ⟨200, js "\x7b\"success\":false,\"message\":\"duplicate isbn\"\x7d"⟩)
        (.obj [(js "isbn", .str (js "123"))])
        ⟨⟨[], [], []⟩, [], [], [], [], [], js "EBOOK", js "DIGITAL", 0, [], [], [], true, [],
          StatisticsView.other⟩).formText = js "✗ " ++ js "duplicate isbn" ∧
    (handleAddBook
        (fun _ => .ok ⟨200, js "\x7b\"success\":false,\"message\":\"duplicate isbn\"\x7d"⟩)
        (.obj [(js "isbn", .str (js "123"))])
        ⟨⟨[], [], []⟩, [], [], [], [], [], js "EBOOK", js "DIGITAL", 0, [], [], [], true, [],
          StatisticsView.other⟩).formResets = 0 ∧
    (handleAddBook
        (fun _ => .ok ⟨200, js "\x7b\"success\":false,\"message\":\x7b\"toString\":1\x7d\x7d"⟩)
        (.obj [(js "isbn", .str (js "123"))])
        ⟨⟨[], [], []⟩, [], [], [], [], [], js "EBOOK", js "DIGITAL", 0, [], [], [], true, [],
          StatisticsView.other⟩).formText =
      js "✗ Error creating book: " ++ typeError.message :=
  have h := handleAddBook_rejected
    (fun _ => .ok ⟨200, js "\x7b\"success\":false,\"message\":\"duplicate isbn\"\x7d"⟩)
    (.obj [(js "isbn", .str (js "123"))])
    ⟨⟨[], [], []⟩, [], [], [], [], [], js "EBOOK", js "DIGITAL", 0, [], [], [], true, [],
      StatisticsView.other⟩
    ⟨200, js "\x7b\"success\":false,\"message\":\"duplicate isbn\"\x7d"⟩
    (.obj [(js "success", .bool false), (js "message", .str (js "duplicate isbn"))])
    (some (.bool false)) (some (.str (js "duplicate isbn")))
    rfl (by rfl) (by rfl) (by rfl) (by rfl) (by rfl)
  have h2 := handleAddBook_rejected
    (fun _ => .ok ⟨200, js "\x7b\"success\":false,\"message\":\x7b\"toString\":1\x7d\x7d"⟩)
    (.obj [(js "isbn", .str (js "123"))])
    ⟨⟨[], [], []⟩, [], [], [], [], [], js "EBOOK", js "DIGITAL", 0, [], [], [], true, [],
      StatisticsView.other⟩
    ⟨200, js "\x7b\"success\":false,\"message\":\x7b\"toString\":1\x7d\x7d"⟩
    (.obj [(js "success", .bool false), (js "message", .obj [(js "toString", .num 1 0)])])
    (some (.bool false)) (some (.obj [(js "toString", .num 1 0)]))
    rfl (by rfl) (by rfl) (by rfl) (by rfl) (by rfl)
  ⟨h.2.2.1 (js "duplicate isbn") rfl (by decide), h.2.2.2.2.2.2.1,
    (h2.2.2.2.2.2.1 typeError (by rfl)).1⟩

/-- A filter keeps at most the elements it was given. -/
theorem filterElements_length (callback : Json → Except JSError Bool) :
    ∀ (l r : List Json), filterElements callback l = .ok r → r.length ≤ l.length
  | [], r, h => by
    simp only [filterElements, Except.ok.injEq] at h
    rw [← h]
  | v :: vs, r, h => by
    rw [filterElements] at h
    cases hc : callback v with
    | error e => rw [hc] at h; cases h
    | ok keep =>
      rw [hc] at h
      cases hr : filterElements callback vs with
      | error e => rw [hr] at h; cases h
      | ok rest =>
        rw [hr] at h
        simp only [Except.ok.injEq] at h
        have := filterElements_length callback vs rest hr
        rw [← h]
        split <;> simp only [List.length_cons] <;> omega

/-- A loan the overdue filter keeps is kept by the active filter. -/
theorem overdueNotReturned_imp (loan : Json) (h : overdueNotReturned loan = .ok true) :
    notReturned loan = .ok true := by
  unfold overdueNotReturned at h
  unfold notReturned
  cases ho : getProp (some loan) (js "overdue") with
  | error e => rw [ho] at h; cases h
  | ok overdue =>
    rw [ho] at h
    simp only at h
    split at h
    · cases hr : getProp (some loan) (js "returned") with
      | error e => rw [hr] at h; cases h
      | ok returned =>
        rw [hr] at h
        exact h
    · cases h

/-- The overdue loans are at most the active loans. -/
theorem filterElements_overdue_le :
    ∀ (l a o : List Json), filterElements notReturned l = .ok a →
      filterElements overdueNotReturned l = .ok o → o.length ≤ a.length
  | [], a, o, ha, ho => by
    simp only [filterElements, Except.ok.injEq] at ha ho
    rw [← ha, ← ho]
  | v :: vs, a, o, ha, ho => by
    rw [filterElements] at ha ho
    cases hc1 : notReturned v with
    | error e => rw [hc1] at ha; cases ha
    | ok k1 =>
      cases hc2 : overdueNotReturned v with
      | error e => rw [hc2] at ho; cases ho
      | ok k2 =>
        rw [hc1] at ha
        rw [hc2] at ho
        cases hr1 : filterElements notReturned vs with
        | error e => rw [hr1] at ha; cases ha
        | ok a1 =>
          cases hr2 : filterElements overdueNotReturned vs with
          | error e => rw [hr2] at ho; cases ho
          | ok o1 =>
            rw [hr1] at ha
            rw [hr2] at ho
            simp only [Except.ok.injEq] at ha ho
            have ih := filterElements_overdue_le vs a1 o1 hr1 hr2
            rw [← ha, ← ho]
            cases k2 with
            | false =>
              cases k1 <;> simp only [Bool.false_eq_true, if_false, if_true,
                List.length_cons] <;> omega
            | true =>
              have := overdueNotReturned_imp v hc2
              rw [hc1] at this
              simp only [Except.ok.injEq] at this
              subst this
              simp only [if_true, List.length_cons]
              omega

/-- The figures `computeStatistics` gives are ordered. -/
theorem computeStatistics_ordered (booksData loansData : Json) (bc : JSString) (t a o : Nat)
    (h : computeStatistics booksData loansData = .ok (.cards bc t a o)) : o ≤ a ∧ a ≤ t := by
  unfold computeStatistics at h
  cases h1 : getProp (some booksData) (js "books") with
  | error e => rw [h1] at h; cases h
  | ok books =>
    rw [h1] at h
    simp only at h
    cases h2 : (if truthy books = true then getLength books
        else Except.ok (some (Json.num 0 0))) with
    | error e => rw [h2] at h; cases h
    | ok booksCount =>
      rw [h2] at h
      simp only at h
      cases h3 : getProp (some loansData) (js "loans") with
      | error e => rw [h3] at h; cases h
      | ok loansField =>
        rw [h3] at h
        simp only at h
        split at h
        · rename_i loans hl
          cases h4 : filterElements notReturned loans with
          | error e => rw [h4] at h; cases h
          | ok active =>
            rw [h4] at h
            simp only at h
            cases h5 : filterElements overdueNotReturned loans with
            | error e => rw [h5] at h; cases h
            | ok overdue =>
              rw [h5] at h
              simp only at h
              cases h6 : toStringValue booksCount with
              | error e => rw [h6] at h; cases h
              | ok booksText =>
                rw [h6] at h
                simp only [Except.ok.injEq, StatisticsView.cards.injEq] at h
                obtain ⟨_, rfl, rfl, rfl⟩ := h
                exact ⟨filterElements_overdue_le loans active overdue h4 h5,
                  filterElements_length _ loans active h4⟩
        · cases h

/-- What `loadStatistics` shows: the failure state, or the figures of `computeStatistics`
for the two payloads. -/
theorem loadStatistics_view (net : Net) (p : AdminPage) :
    (loadStatistics net p).statistics = StatisticsView.failed ∨
    ∃ booksData loansData,
      (API.get net p.world (js "/books")).1 = .ok booksData ∧
      (API.get net (API.get net p.world (js "/books")).2 (js "/loans")).1 = .ok loansData ∧
      computeStatistics booksData loansData = .ok (loadStatistics net p).statistics := by
  unfold loadStatistics loadStatisticsAttempt
  simp only
  cases h1 : (API.get net p.world (js "/books")).1 with
  | error e => exact Or.inl rfl
  | ok booksData =>
    simp only
    cases h2 : getProp (some booksData) (js "books") with
    | error e => exact Or.inl rfl
    | ok books =>
      simp only
      cases h3 : (API.get net (API.get net p.world (js "/books")).2 (js "/loans")).1 with
      | error e => exact Or.inl rfl
      | ok loansData =>
        simp only
        cases h4 : computeStatistics booksData loansData with
        | error e => exact Or.inl rfl
        | ok view => exact Or.inr ⟨booksData, loansData, rfl, rfl, h4⟩

/-- The active filter on an array of loan records. -/
theorem filterElements_notReturned_records : ∀ loans : List (List (JSString × Json)),
    filterElements notReturned (loans.map Json.obj) =
      .ok ((loans.filter fun ms => !truthy (lookupMember (js "returned") ms)).map Json.obj)
  | [] => rfl
  | ms :: rest => by
    rw [List.map_cons, filterElements, filterElements_notReturned_records rest]
    simp only [notReturned, getProp, List.filter_cons]
    cases truthy (lookupMember (js "returned") ms) <;> rfl

/-- The overdue filter on an array of loan records. -/
theorem filterElements_overdue_records : ∀ loans : List (List (JSString × Json)),
    filterElements overdueNotReturned (loans.map Json.obj) =
      .ok ((loans.filter fun ms =>
        truthy (lookupMember (js "overdue") ms) &&
          !truthy (lookupMember (js "returned") ms)).map Json.obj)
  | [] => rfl
  | ms :: rest => by
    rw [List.map_cons, filterElements, filterElements_overdue_records rest]
    simp only [overdueNotReturned, getProp, List.filter_cons]
    cases truthy (lookupMember (js "overdue") ms) <;>
      cases truthy (lookupMember (js "returned") ms) <;> rfl

/-- The text of a natural number. -/
theorem numberToString_natCast (n : Nat) : numberToString (n : Int) 0 = natDigits n := by
  have h : ¬ ((n : Int) < 0) := by omega
  simp [numberToString, intDigits, h]

/-- C17: whatever the two answers are, when `loadStatistics` shows figures they satisfy
`overdueLoans ≤ activeLoans ≤ totalLoans`. When `GET /books` and `GET /loans` return
objects and the loans are an array of loan records, or the `loans` field is missing (then
the list is empty), `totalLoans` is the length of the list, `activeLoans` the number of
loans whose `returned` is falsy and `overdueLoans` the number of loans whose `overdue` is
truthy and whose `returned` is falsy; `booksCount` is `0` without a `books` field and the
length of the array with one. -/
theorem loadStatistics_counts (net : Net) (p : AdminPage) :
    (∀ bc t a o, (loadStatistics net p).statistics = StatisticsView.cards bc t a o →
      o ≤ a ∧ a ≤ t) ∧
    (∀ (bms lms : List (JSString × Json)) (loans : List (List (JSString × Json))),
      (API.get net p.world (js "/books")).1 = .ok (.obj bms) →
      (API.get net (API.get net p.world (js "/books")).2 (js "/loans")).1 = .ok (.obj lms) →
      (lookupMember (js "loans") lms = some (.arr (loans.map Json.obj)) ∨
        (lookupMember (js "loans") lms = none ∧ loans = [])) →
      (lookupMember (js "books") bms = none ∨
        ∃ bs, lookupMember (js "books") bms = some (.arr bs)) →
      ∃ bc, (loadStatistics net p).statistics =
          StatisticsView.cards bc loans.length
            (loans.filter fun ms => !truthy (lookupMember (js "returned") ms)).length
            (loans.filter fun ms => truthy (lookupMember (js "overdue") ms) &&
              !truthy (lookupMember (js "returned") ms)).length ∧
        (lookupMember (js "books") bms = none → bc = js "0") ∧
        (∀ bs, lookupMember (js "books") bms = some (.arr bs) → bc = natDigits bs.length)) := by
  constructor
  · intro bc t a o h
    rcases loadStatistics_view net p with hf | ⟨b, l, _, _, hc⟩
    · rw [hf] at h
      cases h
    · rw [h] at hc
      exact computeStatistics_ordered b l bc t a o hc
  · intro bms lms loans h1 h2 hl hb
    have hloans : orElse (lookupMember (js "loans") lms) (some (.arr [])) =
        some (.arr (loans.map Json.obj)) := by
      rcases hl with hl | ⟨hl, h0⟩
      · simp [hl, orElse, truthy]
      · subst h0
        simp [hl, orElse, truthy]
    have hcomp : ∀ (booksCount : Option Json) (bc : JSString),
        (if truthy (lookupMember (js "books") bms) = true
          then getLength (lookupMember (js "books") bms)
          else Except.ok (some (Json.num 0 0))) = .ok booksCount →
        toStringValue booksCount = .ok bc →
        (loadStatistics net p).statistics =
          StatisticsView.cards bc loans.length
            (loans.filter fun ms => !truthy (lookupMember (js "returned") ms)).length
            (loans.filter fun ms => truthy (lookupMember (js "overdue") ms) &&
              !truthy (lookupMember (js "returned") ms)).length := by
      intro booksCount bc hcnt hbc
      simp [loadStatistics, loadStatisticsAttempt, h1, h2, getProp, computeStatistics, hcnt,
        hloans, filterElements_notReturned_records, filterElements_overdue_records, hbc]
    rcases hb with hb | ⟨bs, hb⟩
    · refine ⟨js "0", hcomp (some (.num 0 0)) (js "0") (by simp [hb, truthy]) (by rfl), ?_, ?_⟩
      · intro _
        rfl
      · intro bs hbs
        rw [hb] at hbs
        cases hbs
    · refine ⟨natDigits bs.length,
        hcomp (some (.num bs.length 0)) (natDigits bs.length)
          (by simp [hb, truthy, getLength])
          (by simp [toStringValue, toStringJson, numberToString_natCast]), ?_, ?_⟩
      · intro hn
        rw [hb] at hn
        cases hn
      · intro bs2 hbs
        rw [hb] at hbs
        simp only [Option.some.injEq, Json.arr.injEq] at hbs
        rw [hbs]

/-- C17, at a catalog of two books and three loans, one returned, one overdue and not
returned, one neither: the figures are 3 loans, 2 active, 1 overdue. -/
theorem loadStatistics_counts_witness :
    ∃ bc, (loadStatistics
        (fun req =>
          if req.url = API_BASE_URL ++ js "/loans" then
            .ok ⟨200, js "\x7b\"success\":true,\"loans\":[\x7b\"returned\":true\x7d,\x7b\"returned\":false,\"overdue\":true\x7d,\x7b\"returned\":false\x7d]\x7d"⟩
          else .ok ⟨200, js "\x7b\"success\":true,\"books\":[\"a\",\"b\"]\x7d"⟩)
        ⟨⟨[], [], []⟩, [], [], [], [], [], [], [], 0, [], [], [], true, [],
          StatisticsView.other⟩).statistics = StatisticsView.cards bc 3 2 1 ∧
      bc = natDigits 2 := by
  obtain ⟨bc, h, _, hb⟩ := (loadStatistics_counts
    (fun req =>
      if req.url = API_BASE_URL ++ js "/loans" then
        .ok ⟨200, js "\x7b\"success\":true,\"loans\":[\x7b\"returned\":true\x7d,\x7b\"returned\":false,\"overdue\":true\x7d,\x7b\"returned\":false\x7d]\x7d"⟩
      else .ok ⟨200, js "\x7b\"success\":true,\"books\":[\"a\",\"b\"]\x7d"⟩)
    ⟨⟨[], [], []⟩, [], [], [], [], [], [], [], 0, [], [], [], true, [],
      StatisticsView.other⟩).2
    [(js "success", .bool true), (js "books", .arr [.str (js "a"), .str (js "b")])]
    [(js "success", .bool true),
      (js "loans", .arr [.obj [(js "returned", .bool true)],
        .obj [(js "returned", .bool false), (js "overdue", .bool true)],
        .obj [(js "returned", .bool false)]])]
    [[(js "returned", .bool true)],
      [(js "returned", .bool false), (js "overdue", .bool true)],
      [(js "returned", .bool false)]]
    (by rfl) (by rfl) (Or.inl (by rfl))
    (Or.inr ⟨[.str (js "a"), .str (js "b")], by rfl⟩)
  exact ⟨bc, h, hb [.str (js "a"), .str (js "b")] (by rfl)⟩

end Biblioteca
